import Mathlib

/-!
The radio episode selector and queuer of `volu`.

A shallow embedding of `internal/radio/radio.go` and of the parts of
`internal/volumio/client.go` and `cmd/volu/main.go` it is used with.

* Go slices are lists; an index out of range is a runtime panic and is modelled
  by `none` (functions that can panic return `Option`).
* Go's `int` is modelled by `Int` where a value can be negative (`count`) and by
  `Nat` for loop counters and slice indices, which never are; no arithmetic in
  the embedded code can reach the 64-bit bounds (every value is at most a slice
  length plus one).
* The global pseudo random generator is an explicit stream of raw outputs.
* The remote player is an oracle whose answers may depend on every call issued
  so far; the calls (and the sleeps between them) are recorded in a trace.
-/

namespace Volu

/-! ## Errors -/

/-- A Go `error` value: either an error carrying only a message, or one built by
`fmt.Errorf` with a trailing `%w` verb, which wraps a cause. -/
inductive GoError where
  | plain (msg : String)
  | wrapped (pre : String) (cause : GoError)
  deriving DecidableEq, Repr

/-- The method `Error()`: the rendered message. -/
def GoError.Error : GoError → String
  | .plain msg => msg
  | .wrapped pre cause => pre ++ cause.Error

/-- The method `Unwrap()` as seen by `errors.Unwrap`. -/
def GoError.Unwrap : GoError → Option GoError
  | .plain _ => none
  | .wrapped _ cause => some cause

/-! ## volumio: data model -/

/-- The struct `volumio.PlayerState`. -/
structure PlayerState where
  Status : String
  Position : Int
  Title : String
  Artist : String
  Album : String
  AlbumArt : String
  Duration : Int
  Volume : Int
  Mute : Bool
  Service : String
  Random : Bool
  Repeat : Bool
  deriving DecidableEq, Repr

/-- The struct `volumio.BrowseItem` (the field `Type` is spelled `Type_`, the
former being reserved). -/
structure BrowseItem where
  URI : String
  Title : String
  Name : String
  Service : String
  Type_ : String
  Artist : String
  Album : String
  AlbumArt : String
  PluginType : String
  PluginName : String
  deriving DecidableEq, Repr

/-- The zero value of `BrowseItem` (what `make` fills a fresh slice with). -/
def BrowseItem.zero : BrowseItem :=
  { URI := "", Title := "", Name := "", Service := "", Type_ := "", Artist := "",
    Album := "", AlbumArt := "", PluginType := "", PluginName := "" }

/-- The method `BrowseItem.DisplayName`. -/
def BrowseItem.DisplayName (b : BrowseItem) : String :=
  if b.Title ≠ "" then b.Title
  else if b.Name ≠ "" then b.Name
  else b.URI

/-- The method `BrowseItem.IsPlayable`. -/
def BrowseItem.IsPlayable (b : BrowseItem) : Bool :=
  b.Type_ == "song" || b.Type_ == "track" || b.Type_ == "webradio" || b.Type_ == "folder"

/-- The method `BrowseItem.IsBrowsable`. -/
def BrowseItem.IsBrowsable (b : BrowseItem) : Bool :=
  b.Type_ == "folder" || b.Type_ == "playlist-category" || b.Type_ == "category" || b.Type_ == ""

/-! ## The random source -/

/-- The state of the `math/rand` generator: the stream of raw values it will
produce from now on. -/
abbrev Rng := Nat → Nat

/-- The generator after one value has been consumed. -/
def Rng.tail (r : Rng) : Rng := fun k => r (k + 1)

/-- The call `rand.Intn(n)`: panics when `n ≤ 0`, otherwise returns a value of
`[0, n)` and advances the generator. Every value of `[0, n)` can be returned
(take the raw value itself) and no other. -/
def Rng.Intn (r : Rng) (n : Nat) : Option (Nat × Rng) :=
  if 0 < n then some (r 0 % n, r.tail) else none

/-! ## radio: the sampler -/

/-- The assignment `s[i], s[j] = s[j], s[i]`: both elements are read, then
`s[i]` and `s[j]` are written in that order; panics on an index out of range. -/
def swapAt {α : Type} (s : List α) (i j : Nat) : Option (List α) :=
  match s[i]?, s[j]? with
  | some a, some b => some ((s.set i b).set j a)
  | _, _ => none

/-- The loop `for i := ...; i > 0; i-- { j := rand.Intn(i + 1); s[i], s[j] = s[j], s[i] }`
entered with loop variable `i`. It is the body of `shuffle` and, over the index
slice, of `randomSelect`. -/
def fisherYates {α : Type} : Nat → List α → Rng → Option (List α × Rng)
  | 0, s, r => some (s, r)
  | i + 1, s, r =>
    match r.Intn (i + 1 + 1) with
    | none => none
    | some (j, r1) =>
      match swapAt s (i + 1) j with
      | none => none
      | some s1 => fisherYates i s1 r1

/-- The function `shuffle`: a copy of the slice is shuffled from index
`len - 1` down to `1` (for the empty slice the loop variable starts at `-1` and
the loop does not run, as with the truncated `0` here). -/
def shuffle {α : Type} (albums : List α) (r : Rng) : Option (List α × Rng) :=
  fisherYates (albums.length - 1) albums r

/-- The loop `for i := 0; i < count; i++ { selected[i] = albums[indices[i]] }`
with `n` iterations left and loop variable `i`. -/
def selectLoop {α : Type} (albums : List α) (indices : List Nat) :
    Nat → Nat → List α → Option (List α)
  | 0, _, selected => some selected
  | n + 1, i, selected =>
    match indices[i]? with
    | none => none
    | some k =>
      match albums[k]? with
      | none => none
      | some a =>
        if i < selected.length then selectLoop albums indices n (i + 1) (selected.set i a)
        else none

/-- The function `randomSelect`, over any element type with its zero value.
`rand.Seed(time.Now().UnixNano())` leaves the generator in an arbitrary state:
`r` is the generator as seeded. The index slice `0, 1, ..., len - 1` is built,
shuffled, and the first `count` indices are mapped back to elements; `make`
panics on a negative length. -/
def randomSelectOf {α : Type} (zero : α) (albums : List α) (count : Int) (r : Rng) :
    Option (List α) :=
  if count ≥ (albums.length : Int) then
    (shuffle albums r).map Prod.fst
  else
    let indices := List.range albums.length
    match fisherYates (indices.length - 1) indices r with
    | none => none
    | some (indices1, _) =>
      if count < 0 then none
      else selectLoop albums indices1 count.toNat 0 (List.replicate count.toNat zero)

/-- The method `Player.randomSelect`. -/
def randomSelect (albums : List BrowseItem) (count : Int) (r : Rng) : Option (List BrowseItem) :=
  randomSelectOf BrowseItem.zero albums count r

/-! ## The standard library and the remote player -/

/-- The functions of the Go standard library the embedded code calls and this
development does not define: `regexp.Compile` (an error, or the compiled
expression seen through its method `MatchString`), the rendering of the `%q`
verb of `fmt` (`strconv.Quote`) and `strconv.Atoi`. -/
structure Stdlib where
  regexpCompile : String → Except GoError (String → Bool)
  quote : String → String
  atoi : String → Except GoError Int

/-- What the program does to the outside world, in the order it does it: the
requests of `volumio.Client`, the calls of `time.Sleep` (in milliseconds) and
the desktop notifications of `notify`. A `command` is a request to
`/api/v1/commands/` with the query parameters set, in the order they are set;
`browse` is the method `Client.Browse`. -/
inductive Event where
  | search (query : String)
  | getState
  | toggleRandom
  | clearQueue
  | replaceAndPlay (uri service : String)
  | addToQueue (uri service : String)
  | sleep (ms : Nat)
  | notify (title message icon : String) (urgent : Bool)
  | command (params : List (String × String))
  | browse (uri : String)
  deriving DecidableEq, Repr

/-- The struct `volumio.SearchList`. -/
structure SearchList where
  Title : String
  Items : List BrowseItem
  deriving DecidableEq, Repr

/-- The struct `volumio.SearchResponse` (its anonymous field `Navigation`
flattened). -/
structure SearchResponse where
  IsSearchResult : Bool
  Lists : List SearchList
  deriving DecidableEq, Repr

/-- The remote player behind `volumio.Client`: what each request answers, given
everything the program has done before it. `search` and `getState` are the
methods `Client.Search` and `Client.GetState` (transport and JSON decoding
included), `browse` is `Client.Browse`; the others return `nil` (`none`) or an
error. -/
structure Client where
  search : List Event → String → Except GoError SearchResponse
  getState : List Event → Except GoError PlayerState
  toggleRandom : List Event → Option GoError
  replaceAndPlay : List Event → String → String → Option GoError
  addToQueue : List Event → String → String → Option GoError
  command : List Event → List (String × String) → Option GoError := fun _ _ => none
  browse : List Event → String → Except GoError (List BrowseItem) := fun _ _ => .ok []

/-- How a call ends: it returns (a `nil` or non-`nil` error), or it panics. -/
inductive Outcome where
  | returned (err : Option GoError)
  | panicked
  deriving DecidableEq, Repr

/-! ## volumio: `SearchAlbums` -/

/-- The function `toLower` on one ASCII character. -/
def toLower (c : Char) : Char :=
  if c ≥ 'A' ∧ c ≤ 'Z' then Char.ofNat (c.toNat + ('a'.toNat - 'A'.toNat)) else c

/-- The inner loop of `bytesContains`: does `substr` occur in `b` at offset `i`,
comparing from position `j` on. -/
def matchAt (b substr : List Char) (i : Nat) : Nat → Nat → Bool
  | 0, _ => true
  | n + 1, j => if b[i + j]? ≠ substr[j]? then false else matchAt b substr i n (j + 1)

/-- The outer loop of `bytesContains`, with `n` offsets left to try from `i`. -/
def bytesContainsLoop (b substr : List Char) : Nat → Nat → Bool
  | 0, _ => false
  | n + 1, i =>
    if matchAt b substr i substr.length 0 then true else bytesContainsLoop b substr n (i + 1)

/-- The function `bytesContains`. Strings are sequences of characters here and of
bytes in Go; the two agree on the ASCII needles the code searches for. -/
def bytesContains (b substr : List Char) : Bool :=
  if substr.length = 0 then true
  else if substr.length > b.length then false
  else bytesContainsLoop b substr (b.length - substr.length + 1) 0

/-- The function `containsIgnoreCase`. -/
def containsIgnoreCase (s substr : String) : Bool :=
  bytesContains (s.toList.map toLower) (substr.toList.map toLower)

/-- The loop of `SearchAlbums` over the items of the chosen list. -/
def albumsLoop : List BrowseItem → List BrowseItem → List BrowseItem
  | [], albums => albums
  | item :: rest, albums =>
    if item.Type_ = "folder" ∧ item.Service = "mpd" then albumsLoop rest (albums ++ [item])
    else albumsLoop rest albums

/-- The loop of `SearchAlbums` over the lists of the response. -/
def searchAlbumsLoop : List SearchList → List BrowseItem
  | [] => []
  | list :: rest =>
    if containsIgnoreCase list.Title "Albums" ∧ ¬ containsIgnoreCase list.Title "TIDAL" then
      albumsLoop list.Items []
    else searchAlbumsLoop rest

/-- The method `Client.SearchAlbums`, called after the events `t`. -/
def SearchAlbums (c : Client) (t : List Event) (query : String) :
    Except GoError (List BrowseItem) × List Event :=
  match c.search t query with
  | .error err => (.error err, t ++ [.search query])
  | .ok response => (.ok (searchAlbumsLoop response.Lists), t ++ [.search query])

/-! ## radio: the sequencer -/

/-- The filtering loop of `findMatchingAlbums`. -/
def matchingLoop (regex : String → Bool) : List BrowseItem → List BrowseItem → List BrowseItem
  | [], matching => matching
  | album :: rest, matching =>
    if regex album.DisplayName then matchingLoop regex rest (matching ++ [album])
    else matchingLoop regex rest matching

/-- The method `Player.findMatchingAlbums`. -/
def findMatchingAlbums (lib : Stdlib) (c : Client) (t : List Event)
    (searchQuery pattern : String) : Except GoError (List BrowseItem) × List Event :=
  match lib.regexpCompile pattern with
  | .error err => (.error (.wrapped "invalid regex pattern: " err), t)
  | .ok regex =>
    match SearchAlbums c t searchQuery with
    | (.error err, t1) => (.error (.wrapped "search failed: " err), t1)
    | (.ok albums, t1) => (.ok (matchingLoop regex albums []), t1)

/-- The method `Player.ensureShuffleOff`. -/
def ensureShuffleOff (c : Client) (t : List Event) : Option GoError × List Event :=
  match c.getState t with
  | .error err => (some err, t ++ [.getState])
  | .ok state =>
    if state.Random then
      match c.toggleRandom (t ++ [.getState]) with
      | some err => (some err, t ++ [.getState] ++ [.toggleRandom])
      | none => (none, t ++ [.getState] ++ [.toggleRandom] ++ [.sleep 300])
    else (none, t ++ [.getState])

/-- The loop of `queueAlbums` over `albums[1:]`: `albums[i]` for `i = 1, 2, ...`
are the elements of the tail in order. -/
def queueLoop (lib : Stdlib) (c : Client) : List BrowseItem → List Event →
    Option GoError × List Event
  | [], t => (none, t)
  | album :: rest, t =>
    match c.addToQueue t album.URI album.Service with
    | some err =>
      (some (.wrapped ("failed to add album " ++ lib.quote album.DisplayName ++ " to queue: ") err),
        t ++ [.addToQueue album.URI album.Service])
    | none => queueLoop lib c rest (t ++ [.addToQueue album.URI album.Service] ++ [.sleep 100])

/-- The method `Player.queueAlbums`. -/
def queueAlbums (lib : Stdlib) (c : Client) (t : List Event) (albums : List BrowseItem) :
    Option GoError × List Event :=
  match albums with
  | [] => (some (.plain "no albums to queue"), t)
  | first :: rest =>
    match c.replaceAndPlay t first.URI first.Service with
    | some err =>
      (some (.wrapped ("failed to play first album " ++ lib.quote first.DisplayName ++ ": ") err),
        t ++ [.replaceAndPlay first.URI first.Service])
    | none => queueLoop lib c rest (t ++ [.replaceAndPlay first.URI first.Service] ++ [.sleep 500])

/-- The method `Player.PlayRandomEpisodes`, called after the events `t` with the
generator `r`; it yields how the call ends and the events up to then. -/
def PlayRandomEpisodes (lib : Stdlib) (c : Client) (r : Rng) (t : List Event)
    (searchQuery pattern : String) (count : Int) : Outcome × List Event :=
  if count < 1 then (.returned (some (.plain "count must be at least 1")), t)
  else
    match findMatchingAlbums lib c t searchQuery pattern with
    | (.error err, t1) => (.returned (some (.wrapped "failed to find albums: " err)), t1)
    | (.ok albums, t1) =>
      if albums.length = 0 then
        (.returned (some (.plain ("no albums found matching pattern: " ++ pattern))), t1)
      else
        match randomSelect albums count r with
        | none => (.panicked, t1)
        | some selected =>
          match ensureShuffleOff c t1 with
          | (some err, t2) => (.returned (some (.wrapped "failed to disable shuffle: " err)), t2)
          | (none, t2) =>
            match queueAlbums lib c t2 selected with
            | (some err, t3) => (.returned (some (.wrapped "failed to queue albums: " err)), t3)
            | (none, t3) => (.returned none, t3)

/-! ## cmd/volu: the `radio` command -/

/-- The struct `config.RadioSeries`. -/
structure RadioSeries where
  Name : String
  SearchQuery : String
  Pattern : String
  deriving DecidableEq, Repr

/-- The struct `config.Config`; the map `Radio` is its lookup function. -/
structure Config where
  Host : String
  Radio : String → Option RadioSeries

/-- The count parsing of `radioCmd`: `10` unless there are exactly two
arguments, then `strconv.Atoi(args[1])`, rejected when it fails or is below 1. -/
def radioCount (lib : Stdlib) (args : List String) : Option (Except GoError Int) :=
  if args.length = 2 then
    match args[1]? with
    | none => none
    | some a1 =>
      match lib.atoi a1 with
      | .error _ => some (.error (.plain ("count must be a positive integer (got: " ++ a1 ++ ")")))
      | .ok count =>
        if count < 1 then
          some (.error (.plain ("count must be a positive integer (got: " ++ a1 ++ ")")))
        else some (.ok count)
  else some (.ok 10)

/-- The function `RunE` of `radioCmd`, with the globals `client` and `cfg` as
parameters; `%d` renders the count in decimal. -/
def radioCmd (lib : Stdlib) (c : Client) (cfg : Config) (r : Rng) (t : List Event)
    (args : List String) : Outcome × List Event :=
  match args[0]? with
  | none => (.panicked, t)
  | some seriesName =>
    match radioCount lib args with
    | none => (.panicked, t)
    | some (.error err) => (.returned (some err), t)
    | some (.ok count) =>
      match cfg.Radio seriesName with
      | none =>
        (.returned (some (.plain ("unknown radio series: " ++ seriesName ++
          " (check your config file at ~/.config/volu/config.yaml)"))), t)
      | some series =>
        let t1 := t ++ [.notify "Volumio Radio" ("Searching for " ++ series.Name ++ " episodes...")
          "media-playlist-shuffle" false]
        match PlayRandomEpisodes lib c r t1 series.SearchQuery series.Pattern count with
        | (.panicked, t2) => (.panicked, t2)
        | (.returned (some err), t2) =>
          (.returned (some err), t2 ++ [.notify "Volumio Error" err.Error "error" true])
        | (.returned none, t2) =>
          (.returned none, t2 ++ [.notify "Volumio Radio"
            ("Playing " ++ toString count ++ " random " ++ series.Name ++ " episodes")
            "media-playback-start" false])

/-! ## volumio: volume -/

/-- Go's `int` arithmetic: the result wraps around on 64 bits. -/
def wrapInt64 (x : Int) : Int := (x + 2 ^ 63) % 2 ^ 64 - 2 ^ 63

/-- The method `Client.SetVolume`, called after the events `t`; `%d` renders
the level in decimal. -/
def SetVolume (c : Client) (t : List Event) (volume : Int) : Option GoError × List Event :=
  let volume := if volume < 0 then 0 else volume
  let volume := if volume > 100 then 100 else volume
  let params := [("cmd", "volume"), ("volume", toString volume)]
  (c.command t params, t ++ [.command params])

/-- The method `Client.VolumeUp`. -/
def VolumeUp (c : Client) (t : List Event) (step : Int) : Option GoError × List Event :=
  match c.getState t with
  | .error err => (some err, t ++ [.getState])
  | .ok state => SetVolume c (t ++ [.getState]) (wrapInt64 (state.Volume + step))

/-- The method `Client.VolumeDown`. -/
def VolumeDown (c : Client) (t : List Event) (step : Int) : Option GoError × List Event :=
  match c.getState t with
  | .error err => (some err, t ++ [.getState])
  | .ok state => SetVolume c (t ++ [.getState]) (wrapInt64 (state.Volume - step))

/-! ## waybar -/

/-- The struct `waybar.Output`. -/
structure Output where
  Text : String
  Tooltip : String
  Class : String
  Percentage : Int
  deriving DecidableEq, Repr

/-- The scan of `strings.ReplaceAll(s, old, new)` when `old` is one character,
as in every call of `EscapeMarkup`: each occurrence is replaced, left to right. -/
def replaceAllLoop (old : Char) (new : List Char) : List Char → List Char
  | [] => []
  | ch :: rest =>
    if ch = old then new ++ replaceAllLoop old new rest else ch :: replaceAllLoop old new rest

/-- The call `strings.ReplaceAll(s, old, new)` for a one-character `old`. -/
def ReplaceAll (s : String) (old : Char) (new : String) : String :=
  String.mk (replaceAllLoop old new.toList s.toList)

/-- The function `EscapeMarkup`: five passes, in the order of the source (the
apostrophe is character 39 and the double quote character 34). -/
def EscapeMarkup (s : String) : String :=
  let s := ReplaceAll s '&' "&amp;"
  let s := ReplaceAll s '<' "&lt;"
  let s := ReplaceAll s '>' "&gt;"
  let s := ReplaceAll s (Char.ofNat 39) "&apos;"
  let s := ReplaceAll s (Char.ofNat 34) "&quot;"
  s

/-- The verb `%02d` of `fmt`: decimal, padded with zeros to two characters. -/
def sprintf02d (n : Int) : String :=
  if 0 ≤ n ∧ n < 10 then "0" ++ toString n else toString n

/-- The function `FormatTime`; Go's `/` and `%` truncate toward zero. -/
def FormatTime (seconds : Int) : String :=
  if seconds < 0 then "0:00"
  else
    let mins := seconds.tdiv 60
    let secs := seconds.tmod 60
    toString mins ++ ":" ++ sprintf02d secs

/-- The function `GetStatusIcon`. -/
def GetStatusIcon (status : String) : String :=
  if status = "play" then "▶"
  else if status = "pause" then "⏸"
  else if status = "stop" then "⏹"
  else "⏹"

/-- The function `GetVolumeIcon`. -/
def GetVolumeIcon (volume : Int) (muted : Bool) : String :=
  if muted ∨ volume = 0 then "🔇"
  else if volume < 33 then "🔈"
  else if volume < 66 then "🔉"
  else "🔊"

/-- The removal of a trailing newline in `CreateOutput` (the newline is
character 10). -/
def trimNewline (tooltip : String) : String :=
  if tooltip.toList.length > 0 ∧ tooltip.toList.getLast? = some (Char.ofNat 10) then
    String.mk tooltip.toList.dropLast
  else tooltip

/-- The function `CreateOutput`; `%s` of a slice of strings prints its elements
between brackets, separated by blanks. -/
def CreateOutput (state : PlayerState) (_baseURL : String) : Output :=
  let statusIcon := GetStatusIcon state.Status
  let text := "♫ Volumio"
  let text :=
    if state.Title ≠ "" then
      let artist := state.Artist
      let artist := if artist = "" then "Unknown Artist" else artist
      "♫ " ++ EscapeMarkup artist ++ " - " ++ EscapeMarkup state.Title
    else text
  let text := text ++ " " ++ statusIcon
  let tooltip := ""
  let tooltip :=
    if state.Title ≠ "" then tooltip ++ ("Title: " ++ EscapeMarkup state.Title ++ "\n")
    else tooltip
  let tooltip :=
    if state.Artist ≠ "" then tooltip ++ ("Artist: " ++ EscapeMarkup state.Artist ++ "\n")
    else tooltip
  let tooltip :=
    if state.Album ≠ "" then tooltip ++ ("Album: " ++ EscapeMarkup state.Album ++ "\n")
    else tooltip
  let tooltip :=
    if state.Service ≠ "" then tooltip ++ ("Service: " ++ state.Service ++ "\n") else tooltip
  let tooltip :=
    if state.Duration > 0 then
      let currentTime := FormatTime state.Position
      let totalTime := FormatTime state.Duration
      let progress := 0
      let progress :=
        if state.Duration > 0 then (wrapInt64 (state.Position * 100)).tdiv state.Duration
        else progress
      tooltip ++ ("Time: " ++ currentTime ++ " / " ++ totalTime ++ " (" ++ toString progress
        ++ "%)\n")
    else tooltip
  let volumeIcon := GetVolumeIcon state.Volume state.Mute
  let muteText := if state.Mute then " (Muted)" else ""
  let tooltip := tooltip ++ ("Volume: " ++ volumeIcon ++ " " ++ toString state.Volume ++ "%"
    ++ muteText ++ "\n")
  let modes : List String := []
  let modes := if state.Random then modes ++ ["🔀 Shuffle"] else modes
  let modes := if state.Repeat then modes ++ ["🔁 Repeat"] else modes
  let tooltip :=
    if modes.length > 0 then tooltip ++ ("Modes: " ++ ("[" ++ " ".intercalate modes ++ "]"))
    else tooltip
  let tooltip := trimNewline tooltip
  let tooltip := if tooltip = "" then "No track playing" else tooltip
  let clazz := "volumio-" ++ state.Status
  let percentage := 0
  let percentage :=
    if state.Duration > 0 then (wrapInt64 (state.Position * 100)).tdiv state.Duration
    else percentage
  { Text := text, Tooltip := tooltip, Class := clazz, Percentage := percentage }

/-- The substitution the documentation of `EscapeMarkup` describes, for one
character. -/
def escapeChar (ch : Char) : String :=
  if ch = '&' then "&amp;"
  else if ch = '<' then "&lt;"
  else if ch = '>' then "&gt;"
  else if ch = Char.ofNat 39 then "&apos;"
  else if ch = Char.ofNat 34 then "&quot;"
  else String.singleton ch

/-- The character-by-character substitution of a string: the specification
`EscapeMarkup` is compared with. -/
def escapeMarkupSpec (s : String) : String :=
  String.mk (s.toList.flatMap (fun ch => (escapeChar ch).toList))

/-- One pass of `EscapeMarkup` on one character: what it writes for it. -/
def escapePass (old : Char) (new : String) (ch : Char) : List Char :=
  if ch = old then new.toList else [ch]

/-! ## config and the host of the client -/

/-- How `os.ReadFile` ends, as `config.Load` tells the cases apart: the file
does not exist (`os.IsNotExist`), another error, or the content. -/
inductive ReadResult where
  | notExist
  | failed (err : GoError)
  | data (content : String)

/-- What `config.Load` and `PersistentPreRun` read from the machine:
`os.UserConfigDir`, `os.ReadFile`, `yaml.Unmarshal` into a configuration, and
`os.Getenv`. -/
structure Machine where
  userConfigDir : Except GoError String
  readFile : String → ReadResult
  yamlUnmarshal : String → Config → Except GoError Config
  getenv : String → String

/-- The function `config.DefaultConfig`. -/
def DefaultConfig : Config :=
  { Host := "volumio.local", Radio := fun _ => none }

/-- The function `config.GetConfigPath` (`filepath.Join` puts a separator
between the elements). -/
def GetConfigPath (m : Machine) : Except GoError String :=
  match m.userConfigDir with
  | .error err => .error (.wrapped "failed to get user config directory: " err)
  | .ok configDir => .ok (configDir ++ "/" ++ "volu" ++ "/" ++ "config.yaml")

/-- The function `config.Load`. -/
def Load (m : Machine) : Except GoError Config :=
  let cfg := DefaultConfig
  match GetConfigPath m with
  | .error _ => .ok cfg
  | .ok configPath =>
    match m.readFile configPath with
    | .notExist => .ok cfg
    | .failed err => .error (.wrapped "failed to read config file: " err)
    | .data content =>
      match m.yamlUnmarshal content cfg with
      | .error err => .error (.wrapped "failed to parse config file: " err)
      | .ok cfg1 => .ok cfg1

/-- The function `PersistentPreRun` of the root command: the configuration it
loads and the host it builds the client for, given the value `volumioHost` of
the flag `--host` (empty when the flag is not given). -/
def PersistentPreRun (m : Machine) (volumioHost : String) : Config × String :=
  let cfg :=
    match Load m with
    | .error _ => DefaultConfig
    | .ok cfg => cfg
  let volumioHost :=
    if volumioHost = "" then
      let volumioHost := cfg.Host
      if volumioHost = "" then
        let volumioHost := m.getenv "VOLUMIO_HOST"
        if volumioHost = "" then "volumio.local" else volumioHost
      else volumioHost
    else volumioHost
  (cfg, volumioHost)

/-! ## walker -/

/-- The struct `walker.Item`. -/
structure Item where
  Label : String
  Sub : String
  Icon : String
  Search : String
  Action : String
  deriving DecidableEq, Repr

/-- The function `CreateItem`. -/
def CreateItem (label sub icon action : String) (searchable : Bool) : Item :=
  let search := ""
  let search := if searchable then label else search
  { Label := label, Sub := sub, Icon := icon, Search := search, Action := action }

/-- The function `GetIconForItem`. -/
def GetIconForItem (item : BrowseItem) : String :=
  if item.Type_ = "song" ∨ item.Type_ = "track" then "🎵"
  else if item.Type_ = "album" then "💿"
  else if item.Type_ = "artist" then "👤"
  else if item.Type_ = "playlist" then "📋"
  else if item.Type_ = "webradio" then "📻"
  else if item.Type_ = "folder" ∨ item.Type_ = "category" then "📁"
  else "🎶"

/-- The function `CreateMainMenu`; a `nil` state is `none`. -/
def CreateMainMenu (state : Option PlayerState) : List Item :=
  let separator := CreateItem "────────────────────────────────────────" "" "" "" false
  let items : List Item := []
  let items :=
    match state with
    | none => items
    | some state =>
      if state.Title ≠ "" then
        let statusIcon := "▶"
        let statusIcon :=
          if state.Status = "pause" then "⏸"
          else if state.Status = "stop" then "⏹"
          else statusIcon
        let artist := state.Artist
        let artist := if artist = "" then "Unknown" else artist
        let nowPlaying := artist ++ " - " ++ state.Title
        let album := state.Album
        let album := if album = "" then "Unknown" else album
        items ++
          [CreateItem (statusIcon ++ " Now Playing: " ++ nowPlaying)
            ("Album: " ++ album ++ " | " ++ state.Status) "🎵" "action:toggle" false] ++
          [separator]
      else items
  let items := items ++
    [CreateItem "▶️  Play / Pause" "Toggle playback" "▶️" "action:toggle" true,
     CreateItem "⏭️  Next Track" "Skip to next track" "⏭️" "action:next" true,
     CreateItem "⏮️  Previous Track" "Go to previous track" "⏮️" "action:prev" true,
     CreateItem "⏹️  Stop" "Stop playback" "⏹️" "action:stop" true]
  let items := items ++ [separator]
  let items :=
    match state with
    | none => items
    | some state =>
      let volumeIcon := "🔊"
      let volumeIcon := if state.Mute then "🔇" else volumeIcon
      let muteText := ""
      let muteText := if state.Mute then " (Muted)" else muteText
      items ++
        [CreateItem (volumeIcon ++ " Volume: " ++ toString state.Volume ++ "%")
          ("Current volume level" ++ muteText) volumeIcon "" false,
         CreateItem "🔊 Volume Up (+10%)" "Increase volume" "🔊" "action:volup" true,
         CreateItem "🔉 Volume Down (-10%)" "Decrease volume" "🔉" "action:voldown" true,
         CreateItem "🔇 Toggle Mute" "Mute/unmute audio" "🔇" "action:mute" true]
  let items := items ++ [separator]
  let shuffleStatus := "OFF"
  let repeatStatus := "OFF"
  let shuffleStatus :=
    match state with
    | none => shuffleStatus
    | some state => if state.Random then "ON" else shuffleStatus
  let repeatStatus :=
    match state with
    | none => repeatStatus
    | some state => if state.Repeat then "ON" else repeatStatus
  let items := items ++
    [CreateItem ("🔀 Shuffle: " ++ shuffleStatus) "Toggle shuffle mode" "🔀" "action:shuffle" true,
     CreateItem ("🔁 Repeat: " ++ repeatStatus) "Toggle repeat mode" "🔁" "action:repeat" true]
  let items := items ++ [separator]
  let items := items ++
    [CreateItem "📁 Browse Music Library" "Navigate your music collection" "📁" "browse:" true,
     CreateItem "📋 Browse Playlists" "View and play playlists" "📋" "browse:playlists" true,
     CreateItem "👤 Browse Artists" "Browse by artist" "👤" "browse:artists" true,
     CreateItem "💿 Browse Albums" "Browse by album" "💿" "browse:albums" true]
  items

/-- The body of the loop of `CreateBrowseMenu`: the walker item of one browse
item. -/
def browseMenuItem (item : BrowseItem) : Item :=
  let icon := GetIconForItem item
  let subtitle := item.Type_
  let subtitle := if subtitle = "" then "Item" else subtitle
  let subtitle :=
    if item.Artist ≠ "" then
      let subtitle := item.Artist
      if item.Album ≠ "" then subtitle ++ (" • " ++ item.Album) else subtitle
    else if item.Album ≠ "" then item.Album
    else subtitle
  let action :=
    if item.IsBrowsable then "browse:" ++ item.URI
    else if item.IsPlayable then "play:" ++ item.URI ++ "|" ++ item.Service
    else "browse:" ++ item.URI
  CreateItem item.DisplayName subtitle icon action true

/-- The loop of `CreateBrowseMenu` over the browse items. -/
def browseMenuLoop : List BrowseItem → List Item → List Item
  | [], walkerItems => walkerItems
  | item :: rest, walkerItems => browseMenuLoop rest (walkerItems ++ [browseMenuItem item])

/-- The function `CreateBrowseMenu`. -/
def CreateBrowseMenu (items : List BrowseItem) (uri : String) : List Item :=
  let walkerItems : List Item := []
  let walkerItems :=
    if uri ≠ "" then
      walkerItems ++ [CreateItem "⬅️  Back" "Go back to previous level" "⬅️" "nav:back" true]
    else walkerItems
  if items.length = 0 then
    walkerItems ++ [CreateItem "No items found" "This folder is empty" "❌" "" false]
  else browseMenuLoop items walkerItems

/-! ## cmd/volu: the `walker` command -/

/-- The methods of `volumio.Client` that send one command with the parameter
`cmd` only: `Play`, `Pause`, `TogglePlayPause` (`toggle`), `Stop`, `Next`,
`Previous` (`prev`), `Mute`, `Unmute` and `ToggleRepeat` (`repeat`). -/
def sendCommand (c : Client) (t : List Event) (cmd : String) : Option GoError × List Event :=
  (c.command t [("cmd", cmd)], t ++ [.command [("cmd", cmd)]])

/-- The method `Client.ToggleRandom`. -/
def ToggleRandom (c : Client) (t : List Event) : Option GoError × List Event :=
  (c.toggleRandom t, t ++ [.toggleRandom])

/-- The method `Client.ToggleMute`. -/
def ToggleMute (c : Client) (t : List Event) : Option GoError × List Event :=
  match c.getState t with
  | .error err => (some err, t ++ [.getState])
  | .ok state =>
    if state.Mute then sendCommand c (t ++ [.getState]) "unmute"
    else sendCommand c (t ++ [.getState]) "mute"

/-- The function `handleWalkerAction`. -/
def handleWalkerAction (c : Client) (t : List Event) (action : String) :
    Option GoError × List Event :=
  if action = "toggle" then sendCommand c t "toggle"
  else if action = "play" then sendCommand c t "play"
  else if action = "pause" then sendCommand c t "pause"
  else if action = "stop" then sendCommand c t "stop"
  else if action = "next" then sendCommand c t "next"
  else if action = "prev" then sendCommand c t "prev"
  else if action = "volup" then VolumeUp c t 10
  else if action = "voldown" then VolumeDown c t 10
  else if action = "mute" then ToggleMute c t
  else if action = "shuffle" then ToggleRandom c t
  else if action = "repeat" then sendCommand c t "repeat"
  else (some (.plain ("unknown action: " ++ action)), t)

/-- The length `len(s)` of a string. Strings are sequences of characters here
and of bytes in Go; the tests of `walkerCmd` on `len` and on a prefix agree in
both readings, the prefixes being ASCII. -/
def len (s : String) : Nat := s.toList.length

/-- The slice `s[:n]`, taken when `n ≤ len(s)`. -/
def sliceTo (s : String) (n : Nat) : String := String.mk (s.toList.take n)

/-- The slice `s[n:]`, taken when `n ≤ len(s)`. -/
def sliceFrom (s : String) (n : Nat) : String := String.mk (s.toList.drop n)

/-- The loop `for i, ch := range data` of `walkerCmd`: the index of the first
`|`, if any. Go gives the byte offset at which the character starts and this
gives the number of characters before it; the slices `data[:i]` and
`data[i+1:]` taken there are the same texts in both readings, `|` being one
byte long. -/
def findBar : List Char → Nat → Option Nat
  | [], _ => none
  | ch :: rest, i => if ch = '|' then some i else findBar rest (i + 1)

/-- The function `RunE` of `walkerCmd`, with the global `client` as parameter:
how it ends, its events, and the items `walker.PrintItems` prints. -/
def walkerCmd (c : Client) (t : List Event) (args : List String) :
    (Outcome × List Event) × List Item :=
  let state : Option PlayerState :=
    match c.getState t with
    | .error _ => none
    | .ok state => some state
  let t := t ++ [.getState]
  if args.length = 0 then ((.returned none, t), CreateMainMenu state)
  else
    match args[0]? with
    | none => ((.panicked, t), [])
    | some action =>
      if len action > 7 ∧ sliceTo action 7 = "action:" then
        match handleWalkerAction c t (sliceFrom action 7) with
        | (err, t1) => ((.returned err, t1), [])
      else if len action > 7 ∧ sliceTo action 7 = "browse:" then
        let uri := sliceFrom action 7
        match c.browse t uri with
        | .error err =>
          ((.returned (some (.wrapped "failed to browse: " err)), t ++ [.browse uri]), [])
        | .ok items => ((.returned none, t ++ [.browse uri]), CreateBrowseMenu items uri)
      else if len action > 5 ∧ sliceTo action 5 = "play:" then
        let data := sliceFrom action 5
        let uri := data
        let service := ""
        let (uri, service) :=
          match findBar data.toList 0 with
          | some i => (sliceTo data i, sliceFrom data (i + 1))
          | none => (uri, service)
        ((.returned (c.replaceAndPlay t uri service), t ++ [.replaceAndPlay uri service]), [])
      else ((.returned (some (.plain ("unknown action: " ++ action))), t), [])

/-! ## Reading a trace -/

/-- Is the event one of the two queuing requests. -/
def Event.isQueuing : Event → Bool
  | .replaceAndPlay _ _ => true
  | .addToQueue _ _ => true
  | _ => false

/-- Is the event a call of `time.Sleep`. -/
def Event.isSleep : Event → Bool
  | .sleep _ => true
  | _ => false

/-- The queuing request `queueAlbums` makes for the entry at position `i`. -/
def queueCall (i : Nat) (a : BrowseItem) : Event :=
  if i = 0 then .replaceAndPlay a.URI a.Service else .addToQueue a.URI a.Service

/-- What the player answers to the queuing request for the entry at position
`i`, made after the events `t`. -/
def queueAnswer (c : Client) (t : List Event) (i : Nat) (a : BrowseItem) : Option GoError :=
  if i = 0 then c.replaceAndPlay t a.URI a.Service else c.addToQueue t a.URI a.Service

/-- The events of `queueAlbums` up to the moment the requests for positions
`0, ..., k - 1` have all succeeded: each request, then the sleep after it. -/
def queued (albums : List BrowseItem) : Nat → List Event
  | 0 => []
  | k + 1 =>
    queued albums k ++
      match albums[k]? with
      | some a => [queueCall k a, .sleep (if k = 0 then 500 else 100)]
      | none => []

/-- The queuing requests for a whole sequence: replace-and-play for the first
entry, append for each of the others. -/
def queueCalls : List BrowseItem → List Event
  | [] => []
  | first :: rest =>
    .replaceAndPlay first.URI first.Service :: rest.map (fun a => .addToQueue a.URI a.Service)

/-- The events of a successful `ensureShuffleOff` that read the state `state`. -/
def modeEvents (state : PlayerState) : List Event :=
  if state.Random then [.getState, .toggleRandom, .sleep 300] else [.getState]

/-! ## Sample data -/

/-- An album of the local library with the given title. -/
def album (title : String) : BrowseItem :=
  { BrowseItem.zero with URI := "music-library/" ++ title, Title := title, Service := "mpd",
                         Type_ := "folder" }

/-- The three candidates of the running example. -/
def sampleAlbums : List BrowseItem := [album "ASOT 900", album "ASOT 901", album "Random Mix"]

/-- Four more albums, none with a digit in its title. -/
def phoneticAlbums : List BrowseItem := [album "Alpha", album "Bravo", album "Charlie", album "Delta"]

/-- A search response: a TIDAL list, then the local list, which also holds a
track. -/
def sampleResponse (albums : List BrowseItem) : SearchResponse :=
  { IsSearchResult := true,
    Lists := [{ Title := "TIDAL Albums", Items := [{ album "ASOT 950" with Service := "tidal" }] },
              { Title := "Albums", Items := albums ++ [{ album "Intro" with Type_ := "song" }] }] }

/-- A player state with the given shuffle mode. -/
def sampleState (random : Bool) : PlayerState :=
  { Status := "play", Position := 0, Title := "", Artist := "", Album := "", AlbumArt := "",
    Duration := 0, Volume := 40, Mute := false, Service := "mpd", Random := random,
    Repeat := false }

/-- A stand-in for the standard library: the pattern `^ASOT ` is the test for the
prefix `ASOT `, `.` accepts every non-empty name, anything else is rejected;
`%q` puts double quotes around a name; only `3` is parsed. -/
def sampleLib : Stdlib :=
  { regexpCompile := fun pattern =>
      if pattern = "^ASOT " then .ok (fun s => "ASOT ".toList.isPrefixOf s.toList)
      else if pattern = "." then .ok (fun s => s ≠ "")
      else .error (.plain "error parsing regexp"),
    quote := fun s => "\"" ++ s ++ "\"",
    atoi := fun s => if s = "3" then .ok 3 else .error (.plain "invalid syntax") }

/-- A player that finds `albums`, reports the given shuffle mode, and, when a
limit is given, refuses a queuing request once that many have been issued. -/
def samplePlayer (albums : List BrowseItem) (random : Bool) (limit : Option Nat) : Client :=
  { search := fun _ _ => .ok (sampleResponse albums),
    getState := fun _ => .ok (sampleState random),
    toggleRandom := fun _ => none,
    replaceAndPlay := fun t _ _ =>
      match limit with
      | none => none
      | some n =>
        if (t.filter Event.isQueuing).length < n then none else some (.plain "connection refused"),
    addToQueue := fun t _ _ =>
      match limit with
      | none => none
      | some n =>
        if (t.filter Event.isQueuing).length < n then none else some (.plain "connection refused") }

/-- A configuration with the series `asot`. -/
def sampleConfig : Config :=
  { Host := "volumio.local",
    Radio := fun name =>
      if name = "asot" then
        some { Name := "A State of Trance", SearchQuery := "A State of Trance", Pattern := "^ASOT " }
      else none }

/-- A player out of reach: every request fails. -/
def offlinePlayer : Client :=
  { search := fun _ _ => .error (.plain "connection refused"),
    getState := fun _ => .error (.plain "connection refused"),
    toggleRandom := fun _ => some (.plain "connection refused"),
    replaceAndPlay := fun _ _ _ => some (.plain "connection refused"),
    addToQueue := fun _ _ _ => some (.plain "connection refused") }

/-- A player that finds `albums` and then fails to report its state. -/
def deafPlayer (albums : List BrowseItem) : Client :=
  { samplePlayer albums true none with getState := fun _ => .error (.plain "timeout") }

/-- A player that finds `albums`, reports shuffle enabled and refuses the
toggle. -/
def stuckPlayer (albums : List BrowseItem) : Client :=
  { samplePlayer albums true none with toggleRandom := fun _ => some (.plain "timeout") }

/-- The player state of the test `TestCreateOutput_EscapesMarkup`. -/
def testState : PlayerState :=
  { Status := "play", Position := 0,
    Title := "Ha Te Tudnád... / Love Gone Wrong (feat. Prophet & Janga)",
    Artist := "Balkan Fanatik, Prophet & Janga", Album := "Test Album <2024>", AlbumArt := "",
    Duration := 0, Volume := 0, Mute := false, Service := "", Random := false, Repeat := false }

/-- A machine with no configuration file, on which `VOLUMIO_HOST` is set to
`192.168.1.50`. -/
def bareMachine : Machine :=
  { userConfigDir := .ok "/home/user/.config",
    readFile := fun _ => .notExist,
    yamlUnmarshal := fun _ cfg => .ok cfg,
    getenv := fun name => if name = "VOLUMIO_HOST" then "192.168.1.50" else "" }

/-- A track of the local library: playable, not browsable. -/
def sampleTrack : BrowseItem := { album "Intro" with Type_ := "song" }

/-- A track whose address holds the character `|`. -/
def barTrack : BrowseItem := { album "Intro" with Type_ := "song", URI := "a|b" }

end Volu

/-! ## The sampler: swaps -/

namespace Volu

theorem cons_set_perm {α : Type} (x b : α) :
    ∀ (t : List α) (j : Nat), t[j]? = some b → (b :: t.set j x).Perm (x :: t)
  | [], j, h => by simp at h
  | y :: t, 0, h => by
    simp at h
    subst h
    simpa using List.Perm.swap x y t
  | y :: t, j + 1, h => by
    simp at h
    have ih := cons_set_perm x b t j h
    calc (b :: (y :: t).set (j + 1) x).Perm (y :: b :: t.set j x) := by
          simpa using List.Perm.swap y b (t.set j x)
      _ |>.Perm (y :: x :: t) := ih.cons y
      _ |>.Perm (x :: y :: t) := List.Perm.swap x y t

theorem set_set_perm {α : Type} :
    ∀ (s : List α) (i j : Nat) (a b : α), s[i]? = some a → s[j]? = some b →
      ((s.set i b).set j a).Perm s
  | [], i, j, a, b, hi, _ => by simp at hi
  | x :: t, 0, 0, a, b, hi, hj => by
    simp at hi hj
    simp [hi]
  | x :: t, 0, j + 1, a, b, hi, hj => by
    simp at hi hj
    subst hi
    simpa using cons_set_perm _ _ t j hj
  | x :: t, i + 1, 0, a, b, hi, hj => by
    simp at hi hj
    subst hj
    simpa using cons_set_perm _ _ t i hi
  | x :: t, i + 1, j + 1, a, b, hi, hj => by
    simp at hi hj
    simpa using (set_set_perm t i j a b hi hj).cons x

theorem swapAt_eq_some {α : Type} {s s1 : List α} {i j : Nat} (h : swapAt s i j = some s1) :
    ∃ a b, s[i]? = some a ∧ s[j]? = some b ∧ s1 = (s.set i b).set j a := by
  unfold swapAt at h
  split at h
  · rename_i a b ha hb
    exact ⟨a, b, ha, hb, by simpa using h.symm⟩
  · simp at h

theorem swapAt_of_lt {α : Type} (s : List α) {i j : Nat} (hi : i < s.length) (hj : j < s.length) :
    swapAt s i j = some ((s.set i s[j]).set j s[i]) := by
  simp [swapAt, List.getElem?_eq_getElem hi, List.getElem?_eq_getElem hj]

theorem swapAt_perm {α : Type} {s s1 : List α} {i j : Nat} (h : swapAt s i j = some s1) :
    s1.Perm s := by
  obtain ⟨a, b, ha, hb, rfl⟩ := swapAt_eq_some h
  exact set_set_perm s i j a b ha hb

theorem swapAt_length {α : Type} {s s1 : List α} {i j : Nat} (h : swapAt s i j = some s1) :
    s1.length = s.length := (swapAt_perm h).length_eq

theorem swapAt_getElem? {α : Type} {s s1 : List α} {i j : Nat} (h : swapAt s i j = some s1)
    (k : Nat) : s1[k]? = if k = j then s[i]? else if k = i then s[j]? else s[k]? := by
  obtain ⟨a, b, ha, hb, rfl⟩ := swapAt_eq_some h
  have hi : i < s.length := by
    rcases Nat.lt_or_ge i s.length with h | h
    · exact h
    · simp [List.getElem?_eq_none h] at ha
  have hj : j < s.length := by
    rcases Nat.lt_or_ge j s.length with h | h
    · exact h
    · simp [List.getElem?_eq_none h] at hb
  by_cases hkj : k = j
  · subst hkj
    simp [ha, hj]
  · by_cases hki : k = i
    · subst hki
      simp [hkj, hb, hi, Ne.symm hkj]
    · simp [hkj, hki, Ne.symm hkj, Ne.symm hki]

theorem swapAt_map {α β : Type} (f : α → β) (s : List α) (i j : Nat) :
    swapAt (s.map f) i j = (swapAt s i j).map (List.map f) := by
  unfold swapAt
  cases hi : s[i]? <;> cases hj : s[j]? <;> simp [hi, hj, List.map_set]

end Volu

namespace Volu

/-! ## The sampler: the shuffling loop -/

theorem Intn_pos (r : Rng) (n : Nat) : r.Intn (n + 1) = some (r 0 % (n + 1), r.tail) := by
  simp [Rng.Intn]

theorem fisherYates_succ {α : Type} (i : Nat) (s : List α) (r : Rng) :
    fisherYates (i + 1) s r =
      (swapAt s (i + 1) (r 0 % (i + 2))).bind (fun s1 => fisherYates i s1 r.tail) := by
  simp only [fisherYates, Intn_pos]
  cases swapAt s (i + 1) (r 0 % (i + 1 + 1)) <;> rfl

/-- The loop never panics when its start index is a valid index. -/
theorem fisherYates_isSome {α : Type} :
    ∀ (i : Nat) (s : List α) (r : Rng), i < s.length →
      ∃ out r1, fisherYates i s r = some (out, r1)
  | 0, s, r, _ => ⟨s, r, rfl⟩
  | i + 1, s, r, h => by
    have hj : r 0 % (i + 2) < s.length :=
      Nat.lt_of_lt_of_le (Nat.mod_lt _ (by omega)) (by omega)
    rw [fisherYates_succ, swapAt_of_lt s h hj]
    exact fisherYates_isSome i _ r.tail (by simp; omega)

/-- The loop permutes the slice. -/
theorem fisherYates_perm {α : Type} :
    ∀ (i : Nat) (s out : List α) (r r1 : Rng), fisherYates i s r = some (out, r1) → out.Perm s
  | 0, s, out, r, r1, h => by
    simp [fisherYates] at h
    rw [h.1]
  | i + 1, s, out, r, r1, h => by
    rw [fisherYates_succ] at h
    cases hs : swapAt s (i + 1) (r 0 % (i + 2)) with
    | none => simp [hs] at h
    | some s1 =>
      rw [hs] at h
      exact (fisherYates_perm i s1 out r.tail r1 h).trans (swapAt_perm hs)

/-- The loop entered at `i` leaves every position above `i` alone. -/
theorem fisherYates_getElem?_gt {α : Type} :
    ∀ (i : Nat) (s out : List α) (r r1 : Rng), fisherYates i s r = some (out, r1) →
      ∀ k, i < k → out[k]? = s[k]?
  | 0, s, out, r, r1, h, k, _ => by
    simp [fisherYates] at h
    rw [h.1]
  | i + 1, s, out, r, r1, h, k, hk => by
    rw [fisherYates_succ] at h
    cases hs : swapAt s (i + 1) (r 0 % (i + 2)) with
    | none => simp [hs] at h
    | some s1 =>
      rw [hs] at h
      rw [fisherYates_getElem?_gt i s1 out r.tail r1 h k (by omega), swapAt_getElem? hs k]
      have hj : r 0 % (i + 2) < i + 2 := Nat.mod_lt _ (by omega)
      rw [if_neg (by omega), if_neg (by omega)]

/-- The loop commutes with mapping a function over the slice. -/
theorem fisherYates_map {α β : Type} (f : α → β) :
    ∀ (i : Nat) (s : List α) (r : Rng),
      fisherYates i (s.map f) r = (fisherYates i s r).map (fun p => (p.1.map f, p.2))
  | 0, s, r => rfl
  | i + 1, s, r => by
    rw [fisherYates_succ, fisherYates_succ, swapAt_map]
    cases swapAt s (i + 1) (r 0 % (i + 2)) with
    | none => rfl
    | some s1 => simpa using fisherYates_map f i s1 r.tail

end Volu

namespace Volu

/-! ## The sampler: selection -/

/-- What the selection loop computes, position by position. -/
theorem selectLoop_spec {α : Type} (zero : α) (albums : List α) (indices : List Nat)
    (hidx : ∀ k ∈ indices, k < albums.length) :
    ∀ (n i : Nat) (selected : List α), i + n ≤ selected.length → i + n ≤ indices.length →
      ∃ out, selectLoop albums indices n i selected = some out ∧ out.length = selected.length ∧
        ∀ k, out[k]? =
          if i ≤ k ∧ k < i + n then (indices[k]?).map (fun p => albums.getD p zero)
          else selected[k]?
  | 0, i, selected, _, _ => ⟨selected, rfl, rfl, fun k => by rw [if_neg (by omega)]⟩
  | n + 1, i, selected, hs, hi => by
    have hi1 : i < indices.length := by omega
    have hk : indices[i] < albums.length := hidx _ (List.getElem_mem hi1)
    have hsel : i < selected.length := by omega
    obtain ⟨out, hout, hlen, hget⟩ :=
      selectLoop_spec zero albums indices hidx n (i + 1) (selected.set i albums[indices[i]])
        (by simp; omega) (by omega)
    refine ⟨out, ?_, by simpa using hlen, fun k => ?_⟩
    · simp only [selectLoop, List.getElem?_eq_getElem hi1, List.getElem?_eq_getElem hk]
      rw [if_pos hsel]
      exact hout
    · rw [hget k]
      by_cases hki : k = i
      · subst hki
        simp [hi1, hsel, List.getElem?_eq_getElem hk]
      · by_cases h1 : i + 1 ≤ k ∧ k < i + 1 + n
        · rw [if_pos h1, if_pos (by omega)]
        · rw [if_neg h1, if_neg (by omega), List.getElem?_set_ne (Ne.symm hki)]

/-- A slice is the image of its index slice. -/
theorem map_range_getD {α : Type} (zero : α) (albums : List α) :
    (List.range albums.length).map (fun p => albums.getD p zero) = albums := by
  apply List.ext_getElem?
  intro k
  by_cases hk : k < albums.length
  · simp [hk, List.getElem?_eq_getElem, List.getD_eq_getElem]
  · simp [hk, List.getElem?_eq_none (Nat.le_of_not_lt hk)]
    omega

/-- Both branches of `randomSelect` in one: the index slice is shuffled without
panic into a permutation `idx` of `0, ..., len - 1`, and the result is the image
of the first `count` shuffled indices. -/
theorem randomSelectOf_eq {α : Type} (zero : α) (albums : List α) (count : Int) (r : Rng)
    (h0 : 0 ≤ count) :
    ∃ idx r1, fisherYates (albums.length - 1) (List.range albums.length) r = some (idx, r1) ∧
      idx.Perm (List.range albums.length) ∧
      randomSelectOf zero albums count r =
        some ((idx.take count.toNat).map (fun p => albums.getD p zero)) := by
  have hfy : ∃ idx r1,
      fisherYates (albums.length - 1) (List.range albums.length) r = some (idx, r1) := by
    rcases Nat.eq_zero_or_pos albums.length with h | h
    · rw [h]
      exact ⟨_, _, rfl⟩
    · exact fisherYates_isSome _ _ _ (by simp; omega)
  obtain ⟨idx, r1, hidx⟩ := hfy
  have hperm := fisherYates_perm _ _ _ _ _ hidx
  refine ⟨idx, r1, hidx, hperm, ?_⟩
  have hlen : idx.length = albums.length := by simpa using hperm.length_eq
  unfold randomSelectOf
  split
  · rename_i hge
    have hsh : shuffle albums r = some (idx.map (fun p => albums.getD p zero), r1) := by
      unfold shuffle
      conv => lhs; rw [← map_range_getD zero albums]
      rw [fisherYates_map]
      simp [hidx]
    have htake : idx.take count.toNat = idx := List.take_of_length_le (by omega)
    rw [hsh, htake]
    rfl
  · rename_i hlt
    simp only [List.length_range, hidx]
    rw [if_neg (by omega)]
    have hmem : ∀ k ∈ idx, k < albums.length := fun k hk => by
      simpa using hperm.mem_iff.mp hk
    obtain ⟨out, hout, holen, hget⟩ :=
      selectLoop_spec zero albums idx hmem count.toNat 0 (List.replicate count.toNat zero)
        (by simp) (by omega)
    rw [hout]
    congr 1
    apply List.ext_getElem?
    intro k
    rw [hget k]
    by_cases hk : k < count.toNat
    · have hk2 : k < idx.length := by omega
      simp [hk, hk2, List.getElem?_take]
    · simp [hk, List.getElem?_take]
      omega

end Volu

namespace Volu

/-! ## The sampler: contract -/

/-- C1. For every count of at least 1, every non-empty candidate list and every
state of the random generator, `randomSelect` returns (it does not panic)
exactly `min(count, len(candidates))` entries, read from pairwise distinct
positions `pos` of the candidate list; so the entries are pairwise distinct when
the candidates are, and each of them is a candidate. -/
theorem randomSelect_count_distinct (albums : List BrowseItem) (count : Int) (r : Rng)
    (hcount : 1 ≤ count) (_hne : albums ≠ []) :
    ∃ (out : List BrowseItem) (pos : List Nat), randomSelect albums count r = some out ∧
      (out.length : Int) = min count albums.length ∧
      pos.Nodup ∧ (∀ p ∈ pos, p < albums.length) ∧
      out.map some = pos.map (fun p => albums[p]?) ∧
      (albums.Nodup → out.Nodup) ∧ ∀ x ∈ out, x ∈ albums := by
  obtain ⟨idx, r1, _, hperm, hsel⟩ :=
    randomSelectOf_eq BrowseItem.zero albums count r (by omega)
  have hlen : idx.length = albums.length := by simpa using hperm.length_eq
  have hnodup : (idx.take count.toNat).Nodup :=
    ((hperm.nodup_iff).mpr (List.nodup_range _)).sublist (List.take_sublist _ _)
  have hlt : ∀ p ∈ idx.take count.toNat, p < albums.length := fun p hp => by
    simpa using hperm.mem_iff.mp (List.mem_of_mem_take hp)
  have hget : ∀ p, p < albums.length → albums[p]? = some (albums.getD p BrowseItem.zero) :=
    fun p hp => by simp [List.getElem?_eq_getElem hp]
  refine ⟨_, idx.take count.toNat, hsel, ?_, hnodup, hlt, ?_, ?_, ?_⟩
  · simp only [List.length_map, List.length_take, hlen]
    omega
  · rw [List.map_map]
    exact List.map_congr_left (fun p hp => (hget p (hlt p hp)).symm)
  · intro hal
    refine List.Nodup.map_on (fun p hp q hq hpq => ?_) hnodup
    have h1 := hget p (hlt p hp)
    have h2 := hget q (hlt q hq)
    rw [hpq, ← h2] at h1
    exact (List.getElem?_inj (hlt p hp) hal h1)
  · intro x hx
    obtain ⟨p, hp, rfl⟩ := List.mem_map.mp hx
    exact List.getElem?_mem (hget p (hlt p hp))

/-- C1 at a concrete input: two of three candidates are asked for. -/
theorem randomSelect_count_distinct_witness :
    (1 : Int) ≤ 2 ∧ sampleAlbums ≠ [] ∧
    ∃ (out : List BrowseItem) (pos : List Nat),
      randomSelect sampleAlbums 2 (fun k => k + 1) = some out ∧
      (out.length : Int) = min 2 sampleAlbums.length ∧
      pos.Nodup ∧ (∀ p ∈ pos, p < sampleAlbums.length) ∧
      out.map some = pos.map (fun p => sampleAlbums[p]?) ∧
      (sampleAlbums.Nodup → out.Nodup) ∧ ∀ x ∈ out, x ∈ sampleAlbums :=
  ⟨by decide, by decide,
    randomSelect_count_distinct sampleAlbums 2 (fun k => k + 1) (by decide) (by decide)⟩

/-- C2. For every candidate list, every count of at least `len(candidates)` and
every state of the random generator, `randomSelect` returns a permutation of the
candidate list: same length, and every entry as often as among the candidates. -/
theorem randomSelect_all_perm (albums : List BrowseItem) (count : Int) (r : Rng)
    (hcount : (albums.length : Int) ≤ count) :
    ∃ out, randomSelect albums count r = some out ∧ out.Perm albums ∧
      out.length = albums.length ∧ ∀ x, out.count x = albums.count x := by
  obtain ⟨idx, r1, _, hperm, hsel⟩ :=
    randomSelectOf_eq BrowseItem.zero albums count r (by omega)
  have hlen : idx.length = albums.length := by simpa using hperm.length_eq
  have htake : idx.take count.toNat = idx := List.take_of_length_le (by omega)
  rw [htake] at hsel
  have hp : (idx.map (fun p => albums.getD p BrowseItem.zero)).Perm albums := by
    have := hperm.map (fun p => albums.getD p BrowseItem.zero)
    rwa [map_range_getD] at this
  exact ⟨_, hsel, hp, hp.length_eq, fun x => hp.count_eq x⟩

/-- C2 at a concrete input: three candidates, five asked for. -/
theorem randomSelect_all_perm_witness :
    ((sampleAlbums.length : Nat) : Int) ≤ 5 ∧
    ∃ out, randomSelect sampleAlbums 5 (fun k => 2 * k + 1) = some out ∧
      out.Perm sampleAlbums ∧ out.length = sampleAlbums.length ∧
      ∀ x, out.count x = sampleAlbums.count x :=
  ⟨by decide, randomSelect_all_perm sampleAlbums 5 (fun k => 2 * k + 1) (by decide)⟩

end Volu

namespace Volu

/-! ## The sampler: the shuffle is a bijection -/

/-- What the first step of the loop leaves at its index: the element drawn. -/
theorem swapAt_getElem?_self {α : Type} {s s1 : List α} {i j : Nat}
    (h : swapAt s i j = some s1) : s1[i]? = s[j]? := by
  rw [swapAt_getElem? h i]
  by_cases hij : i = j
  · rw [if_pos hij, hij]
  · rw [if_neg hij, if_pos rfl]

/-- On a slice without repetition the output of the loop determines every value
the generator returned. -/
theorem fisherYates_draws_inj {α : Type} :
    ∀ (i : Nat) (s out : List α) (r1 r2 q1 q2 : Rng), s.Nodup → i < s.length →
      fisherYates i s r1 = some (out, q1) → fisherYates i s r2 = some (out, q2) →
      ∀ k, k < i → r1 k % (i + 1 - k) = r2 k % (i + 1 - k)
  | 0, _, _, _, _, _, _, _, _, _, _, k, hk => by omega
  | i + 1, s, out, r1, r2, q1, q2, hnd, hi, h1, h2, k, hk => by
    have hj1 : r1 0 % (i + 2) < s.length :=
      Nat.lt_of_lt_of_le (Nat.mod_lt _ (by omega)) (by omega)
    have hj2 : r2 0 % (i + 2) < s.length :=
      Nat.lt_of_lt_of_le (Nat.mod_lt _ (by omega)) (by omega)
    have hs1 := swapAt_of_lt s hi hj1
    have hs2 := swapAt_of_lt s hi hj2
    rw [fisherYates_succ, hs1] at h1
    rw [fisherYates_succ, hs2] at h2
    simp only [Option.some_bind] at h1 h2
    have e1 := fisherYates_getElem?_gt i _ out _ _ h1 (i + 1) (by omega)
    have e2 := fisherYates_getElem?_gt i _ out _ _ h2 (i + 1) (by omega)
    rw [swapAt_getElem?_self hs1] at e1
    rw [swapAt_getElem?_self hs2] at e2
    have hj : r1 0 % (i + 2) = r2 0 % (i + 2) :=
      List.getElem?_inj hj1 hnd (e1.symm.trans e2)
    cases k with
    | zero => simpa using hj
    | succ k =>
      simp only [hj] at h1
      have ih := fisherYates_draws_inj i _ out r1.tail r2.tail q1 q2
        (((swapAt_perm hs2).nodup_iff).mpr hnd) (by rw [swapAt_length hs2]; omega) h1 h2 k
        (by omega)
      have e : i + 1 + 1 - (k + 1) = i + 1 - k := by omega
      rw [e]
      exact ih

/-- Two slices that are permutations of each other and agree from position `n`
on have permuted prefixes of length `n`. -/
theorem take_perm_of_agree {α : Type} {target s : List α} (n : Nat) (hp : target.Perm s)
    (hag : ∀ k, n ≤ k → target[k]? = s[k]?) : (target.take n).Perm (s.take n) := by
  have hdrop : target.drop n = s.drop n := by
    apply List.ext_getElem?
    intro k
    rw [List.getElem?_drop, List.getElem?_drop]
    exact hag _ (by omega)
  have h : (target.take n ++ s.drop n).Perm (s.take n ++ s.drop n) := by
    have e1 : target.take n ++ s.drop n = target := by
      rw [← hdrop]
      exact List.take_append_drop n target
    rw [e1, List.take_append_drop]
    exact hp
  exact (List.perm_append_right_iff _).mp h

/-- Every arrangement that agrees with the slice above the loop index is reached
by some generator whose values are in range. -/
theorem fisherYates_surj {α : Type} :
    ∀ (i : Nat) (s target : List α), i < s.length → target.Perm s →
      (∀ k, i < k → target[k]? = s[k]?) →
      ∃ r q, (∀ k, k < i → r k < i + 1 - k) ∧ fisherYates i s r = some (target, q)
  | 0, s, target, hi, hp, hag => by
    refine ⟨fun _ => 0, fun _ => 0, fun k hk => by omega, ?_⟩
    have htake := take_perm_of_agree 1 hp (fun k hk => hag k (by omega))
    have hdrop : target.drop 1 = s.drop 1 := by
      apply List.ext_getElem?
      intro k
      rw [List.getElem?_drop, List.getElem?_drop]
      exact hag _ (by omega)
    have heq : target.take 1 = s.take 1 := by
      cases s with
      | nil => simp at hi
      | cons x s => simpa using htake
    have : target = s := by
      rw [← List.take_append_drop 1 target, ← List.take_append_drop 1 s, heq, hdrop]
    rw [this]
    rfl
  | i + 1, s, target, hi, hp, hag => by
    have hlen : target.length = s.length := hp.length_eq
    have hti : i + 1 < target.length := by omega
    have htake := take_perm_of_agree (i + 2) hp (fun k hk => hag k (by omega))
    have hmem : target[i + 1] ∈ s.take (i + 2) :=
      htake.mem_iff.mp (List.mem_take_iff_getElem.mpr ⟨i + 1, by omega, rfl⟩)
    obtain ⟨j, hj, hjv⟩ := List.mem_take_iff_getElem.mp hmem
    have hjs : j < s.length := by omega
    have hji : j < i + 2 := by omega
    have hs := swapAt_of_lt s hi hjs
    obtain ⟨r, q, hr, hfy⟩ := fisherYates_surj i _ target
      (by rw [swapAt_length hs]; omega) (hp.trans (swapAt_perm hs).symm)
      (fun k hk => by
        by_cases hk1 : k = i + 1
        · subst hk1
          rw [swapAt_getElem?_self hs, List.getElem?_eq_getElem hjs, hjv,
            List.getElem?_eq_getElem hti]
        · rw [swapAt_getElem? hs k, if_neg (by omega), if_neg hk1]
          exact hag k (by omega))
    refine ⟨fun k => match k with | 0 => j | k + 1 => r k, q, fun k hk => ?_, ?_⟩
    · cases k with
      | zero => simpa using hji
      | succ k =>
        have := hr k (by omega)
        simp only
        omega
    · rw [fisherYates_succ]
      have hmod : j % (i + 2) = j := Nat.mod_eq_of_lt hji
      simp only [hmod, hs, Option.some_bind]
      exact hfy

end Volu

namespace Volu

/-- C3. The shuffle has no systematic bias. On pairwise distinct candidates
`shuffle` always returns an ordering of the candidates; the `k`-th value it
obtains from the generator is `r k % (n - k)`, the draw `j_i` of loop index
`i = n - 1 - k`, with `0 ≤ j_i ≤ i`. Two generators that lead to the same output
order made the same draws (different draw vectors give different orders), and
every ordering of the candidates is the output for some draw vector in range:
the draw vectors correspond one to one to the orderings. -/
theorem shuffle_bijective {α : Type} (albums : List α) (hnd : albums.Nodup) :
    (∀ r, ∃ out q, shuffle albums r = some (out, q) ∧ out.Perm albums) ∧
    (∀ r1 r2 out q1 q2, shuffle albums r1 = some (out, q1) → shuffle albums r2 = some (out, q2) →
      ∀ k, k + 1 < albums.length → r1 k % (albums.length - k) = r2 k % (albums.length - k)) ∧
    (∀ target : List α, target.Perm albums →
      ∃ r q, (∀ k, k + 1 < albums.length → r k < albums.length - k) ∧
        shuffle albums r = some (target, q)) := by
  rcases Nat.eq_zero_or_pos albums.length with h0 | hpos
  · have hnil : albums = [] := List.length_eq_zero.mp h0
    subst hnil
    refine ⟨fun r => ⟨[], r, rfl, List.Perm.refl _⟩, fun _ _ _ _ _ _ _ k hk => by simp at hk,
      fun target ht => ⟨fun _ => 0, fun _ => 0, fun k hk => by simp at hk, ?_⟩⟩
    rw [List.perm_nil.mp ht]
    rfl
  · have hi : albums.length - 1 < albums.length := by omega
    refine ⟨fun r => ?_, fun r1 r2 out q1 q2 h1 h2 k hk => ?_, fun target ht => ?_⟩
    · obtain ⟨out, q, h⟩ := fisherYates_isSome (albums.length - 1) albums r hi
      exact ⟨out, q, h, fisherYates_perm _ _ _ _ _ h⟩
    · have := fisherYates_draws_inj (albums.length - 1) albums out r1 r2 q1 q2 hnd hi h1 h2 k
        (by omega)
      have e : albums.length - 1 + 1 - k = albums.length - k := by omega
      rwa [e] at this
    · obtain ⟨r, q, hr, h⟩ := fisherYates_surj (albums.length - 1) albums target hi ht
        (fun k hk => by
          have hl := ht.length_eq
          rw [List.getElem?_eq_none (by omega), List.getElem?_eq_none (by omega)])
      refine ⟨r, q, fun k hk => ?_, h⟩
      have := hr k (by omega)
      omega

/-- C3 at a concrete input: the three candidates of the running example. -/
theorem shuffle_bijective_witness :
    sampleAlbums.Nodup ∧
    (∀ r, ∃ out q, shuffle sampleAlbums r = some (out, q) ∧ out.Perm sampleAlbums) ∧
    (∀ r1 r2 out q1 q2, shuffle sampleAlbums r1 = some (out, q1) →
      shuffle sampleAlbums r2 = some (out, q2) →
      ∀ k, k + 1 < sampleAlbums.length →
        r1 k % (sampleAlbums.length - k) = r2 k % (sampleAlbums.length - k)) ∧
    (∀ target : List BrowseItem, target.Perm sampleAlbums →
      ∃ r q, (∀ k, k + 1 < sampleAlbums.length → r k < sampleAlbums.length - k) ∧
        shuffle sampleAlbums r = some (target, q)) :=
  ⟨by decide, shuffle_bijective sampleAlbums (by decide)⟩

end Volu

namespace Volu

/-! ## The pattern filter -/

/-- The filtering loop appends the matching entries, in order, to what it has. -/
theorem matchingLoop_eq (regex : String → Bool) :
    ∀ (albums acc : List BrowseItem),
      matchingLoop regex albums acc = acc ++ albums.filter (fun a => regex a.DisplayName)
  | [], acc => by simp [matchingLoop]
  | a :: rest, acc => by
    cases h : regex a.DisplayName <;>
      simp [matchingLoop, h, matchingLoop_eq regex rest]

/-- The search request is the only event of `SearchAlbums`. -/
theorem SearchAlbums_trace (c : Client) (t : List Event) (query : String) :
    (SearchAlbums c t query).2 = t ++ [.search query] := by
  unfold SearchAlbums
  cases c.search t query <;> rfl

/-- With a valid pattern, `findMatchingAlbums` is `SearchAlbums` followed by the
filtering loop. -/
theorem findMatchingAlbums_of_compiled (lib : Stdlib) (c : Client) (t : List Event)
    (searchQuery pattern : String) (regex : String → Bool) (albums : List BrowseItem)
    (hre : lib.regexpCompile pattern = .ok regex)
    (hsearch : (SearchAlbums c t searchQuery).1 = .ok albums) :
    findMatchingAlbums lib c t searchQuery pattern =
      (.ok (albums.filter (fun a => regex a.DisplayName)), t ++ [.search searchQuery]) := by
  have htr := SearchAlbums_trace c t searchQuery
  unfold findMatchingAlbums
  rw [hre]
  rcases hsa : SearchAlbums c t searchQuery with ⟨res, t1⟩
  rw [hsa] at hsearch htr
  simp only at hsearch htr
  subst hsearch htr
  simp [matchingLoop_eq]

/-- C4. For every successful search result `albums` and every valid pattern
(compiled to the predicate `regex`), `findMatchingAlbums` returns, with no error,
exactly the entries whose display name matches, in their original relative
order: the order-preserving filter of the search result, a sub-sequence of it
holding the matching entries and no other; when nothing matches the result is
the empty list, still with no error. -/
theorem findMatchingAlbums_filter (lib : Stdlib) (c : Client) (t : List Event)
    (searchQuery pattern : String) (regex : String → Bool) (albums : List BrowseItem)
    (hre : lib.regexpCompile pattern = .ok regex)
    (hsearch : (SearchAlbums c t searchQuery).1 = .ok albums) :
    ∃ out, (findMatchingAlbums lib c t searchQuery pattern).1 = .ok out ∧
      out = albums.filter (fun a => regex a.DisplayName) ∧
      out.Sublist albums ∧
      (∀ a, a ∈ out ↔ a ∈ albums ∧ regex a.DisplayName = true) ∧
      ((∀ a ∈ albums, regex a.DisplayName = false) → out = []) := by
  refine ⟨albums.filter (fun a => regex a.DisplayName), ?_, rfl, List.filter_sublist _,
    fun a => by simp [List.mem_filter], fun h => ?_⟩
  · rw [findMatchingAlbums_of_compiled lib c t searchQuery pattern regex albums hre hsearch]
  · exact List.filter_eq_nil_iff.mpr (fun a ha => by simp [h a ha])

/-- C4 on the running example: of `ASOT 900`, `ASOT 901` and `Random Mix` the
first two match. -/
theorem findMatchingAlbums_filter_witness :
    sampleLib.regexpCompile "^ASOT " = .ok (fun s => "ASOT ".toList.isPrefixOf s.toList) ∧
    (SearchAlbums (samplePlayer sampleAlbums false none) [] "A State of Trance").1 = .ok sampleAlbums ∧
    (sampleAlbums.filter (fun a => "ASOT ".toList.isPrefixOf a.DisplayName.toList)).map
      BrowseItem.DisplayName = ["ASOT 900", "ASOT 901"] ∧
    ∃ out, (findMatchingAlbums sampleLib (samplePlayer sampleAlbums false none) []
        "A State of Trance" "^ASOT ").1 = .ok out ∧
      out = sampleAlbums.filter (fun a => "ASOT ".toList.isPrefixOf a.DisplayName.toList) ∧
      out.Sublist sampleAlbums ∧
      (∀ a, a ∈ out ↔ a ∈ sampleAlbums ∧ "ASOT ".toList.isPrefixOf a.DisplayName.toList = true) ∧
      ((∀ a ∈ sampleAlbums, "ASOT ".toList.isPrefixOf a.DisplayName.toList = false) → out = []) :=
  ⟨rfl, rfl, by decide,
    findMatchingAlbums_filter sampleLib (samplePlayer sampleAlbums false none) []
      "A State of Trance" "^ASOT " _ sampleAlbums rfl rfl⟩

end Volu

namespace Volu

/-! ## The sequencer: queuing -/

theorem queued_succ {albums : List BrowseItem} {k : Nat} {a : BrowseItem}
    (h : albums[k]? = some a) :
    queued albums (k + 1) =
      queued albums k ++ [queueCall k a, .sleep (if k = 0 then 500 else 100)] := by
  simp [queued, h]

/-- The head and the rest of a suffix of a slice. -/
theorem drop_eq_cons {α : Type} {l rest : List α} {j : Nat} {a : α} (h : l.drop j = a :: rest) :
    l[j]? = some a ∧ l.drop (j + 1) = rest := by
  constructor
  · have := List.getElem?_drop l j 0
    rw [h] at this
    simpa using this.symm
  · rw [← List.tail_drop, h]
    rfl

/-- The appending loop when the request for position `k` is the first to fail. -/
theorem queueLoop_fail (lib : Stdlib) (c : Client) (albums : List BrowseItem) (t : List Event)
    (k : Nat) (a : BrowseItem) (err : GoError) (hk : albums[k]? = some a)
    (hfail : queueAnswer c (t ++ queued albums k) k a = some err) :
    ∀ (rest : List BrowseItem) (j : Nat), 1 ≤ j → j ≤ k → albums.drop j = rest →
      (∀ i b, j ≤ i → i < k → albums[i]? = some b →
        queueAnswer c (t ++ queued albums i) i b = none) →
      queueLoop lib c rest (t ++ queued albums j) =
        (some (.wrapped ("failed to add album " ++ lib.quote a.DisplayName ++ " to queue: ") err),
          t ++ queued albums k ++ [queueCall k a])
  | [], j, _, hjk, hdrop, _ => by
    have hlen := List.drop_eq_nil_iff.mp hdrop
    have : k < albums.length := by
      rcases Nat.lt_or_ge k albums.length with h | h
      · exact h
      · simp [List.getElem?_eq_none h] at hk
    omega
  | b :: rest, j, hj, hjk, hdrop, hok => by
    obtain ⟨hb, hrest⟩ := drop_eq_cons hdrop
    have hj0 : j ≠ 0 := by omega
    rcases Nat.eq_or_lt_of_le hjk with hjk | hjk
    · subst hjk
      rw [hk] at hb
      cases hb
      simp only [queueAnswer, if_neg hj0] at hfail
      simp [queueLoop, hfail, queueCall, hj0]
    · have hnone := hok j b (Nat.le_refl j) hjk hb
      simp only [queueAnswer, if_neg hj0] at hnone
      have ih := queueLoop_fail lib c albums t k a err hk hfail rest (j + 1) (by omega)
        (by omega) hrest (fun i b' hi hik hb' => hok i b' (by omega) hik hb')
      rw [queued_succ hb] at ih
      simp only [queueLoop, hnone]
      simpa [queueCall, hj0] using ih

/-- The appending loop when every request succeeds. -/
theorem queueLoop_ok (lib : Stdlib) (c : Client) (albums : List BrowseItem) (t : List Event) :
    ∀ (rest : List BrowseItem) (j : Nat), 1 ≤ j → albums.drop j = rest →
      (∀ i b, j ≤ i → albums[i]? = some b → queueAnswer c (t ++ queued albums i) i b = none) →
      queueLoop lib c rest (t ++ queued albums j) = (none, t ++ queued albums (j + rest.length))
  | [], j, _, _, _ => rfl
  | b :: rest, j, hj, hdrop, hok => by
    obtain ⟨hb, hrest⟩ := drop_eq_cons hdrop
    have hj0 : j ≠ 0 := by omega
    have hnone := hok j b (Nat.le_refl j) hb
    simp only [queueAnswer, if_neg hj0] at hnone
    have ih := queueLoop_ok lib c albums t rest (j + 1) (by omega) hrest
      (fun i b' hi hb' => hok i b' (by omega) hb')
    rw [queued_succ hb] at ih
    have e : j + (b :: rest).length = j + 1 + rest.length := by simp; omega
    rw [e]
    simp only [queueLoop, hnone]
    simpa [queueCall, hj0] using ih

/-- The message `queueAlbums` wraps the cause with, for a failure at position `k`
on an entry with the given display name. -/
theorem queueAlbums_fail (lib : Stdlib) (c : Client) (t : List Event)
    (albums : List BrowseItem) (k : Nat) (a : BrowseItem) (err : GoError)
    (hk : albums[k]? = some a)
    (hok : ∀ i b, i < k → albums[i]? = some b → queueAnswer c (t ++ queued albums i) i b = none)
    (hfail : queueAnswer c (t ++ queued albums k) k a = some err) :
    queueAlbums lib c t albums =
      (some (.wrapped
        (if k = 0 then "failed to play first album " ++ lib.quote a.DisplayName ++ ": "
         else "failed to add album " ++ lib.quote a.DisplayName ++ " to queue: ") err),
        t ++ queued albums k ++ [queueCall k a]) := by
  cases albums with
  | nil => simp at hk
  | cons first rest =>
    cases k with
    | zero =>
      simp at hk
      subst hk
      simp only [queueAnswer, if_pos, queued, List.append_nil] at hfail
      simp [queueAlbums, hfail, queueCall, queued]
    | succ k =>
      have h0 := hok 0 first (by omega) (by simp)
      simp only [queueAnswer, if_pos, queued, List.append_nil] at h0
      have hl := queueLoop_fail lib c (first :: rest) t (k + 1) a err hk hfail rest 1
        (Nat.le_refl 1) (by omega) rfl (fun i b _ hik hb => hok i b hik hb)
      have hq1 : queued (first :: rest) 1 =
          [.replaceAndPlay first.URI first.Service, .sleep 500] := by
        simp [queued, queueCall]
      rw [hq1] at hl
      simp only [queueAlbums, h0]
      simpa using hl

/-- The events of `queueAlbums` when every request succeeds. -/
theorem queueAlbums_ok (lib : Stdlib) (c : Client) (t : List Event)
    (albums : List BrowseItem) (hne : albums ≠ [])
    (hok : ∀ i b, albums[i]? = some b → queueAnswer c (t ++ queued albums i) i b = none) :
    queueAlbums lib c t albums = (none, t ++ queued albums albums.length) := by
  cases albums with
  | nil => exact absurd rfl hne
  | cons first rest =>
    have h0 := hok 0 first (by simp)
    simp only [queueAnswer, if_pos, queued, List.append_nil] at h0
    have hl := queueLoop_ok lib c (first :: rest) t rest 1 (Nat.le_refl 1) rfl
      (fun i b _ hb => hok i b hb)
    have hq1 : queued (first :: rest) 1 =
        [.replaceAndPlay first.URI first.Service, .sleep 500] := by
      simp [queued, queueCall]
    rw [hq1] at hl
    have e : (first :: rest).length = 1 + rest.length := by simp; omega
    rw [e]
    simp only [queueAlbums, h0]
    simpa using hl

end Volu

namespace Volu

/-! ## The sequencer: reading the queuing events -/

theorem queueCalls_getElem? :
    ∀ (albums : List BrowseItem) (k : Nat), (queueCalls albums)[k]? = (albums[k]?).map (queueCall k)
  | [], k => by simp [queueCalls]
  | first :: rest, 0 => by simp [queueCalls, queueCall]
  | first :: rest, k + 1 => by
    simp only [queueCalls, List.getElem?_cons_succ, List.getElem?_map]
    cases rest[k]? <;> simp [queueCall]

theorem queueCalls_length : ∀ albums : List BrowseItem, (queueCalls albums).length = albums.length
  | [] => rfl
  | first :: rest => by simp [queueCalls]

theorem queueCall_isQueuing (k : Nat) (a : BrowseItem) : (queueCall k a).isQueuing = true := by
  unfold queueCall
  split <;> rfl

/-- The queuing requests among the events of the first `k` positions are the
first `k` of the sequence, in order. -/
theorem queued_filter (albums : List BrowseItem) :
    ∀ k, (queued albums k).filter Event.isQueuing = (queueCalls albums).take k
  | 0 => by simp [queued]
  | k + 1 => by
    rw [List.take_succ, queueCalls_getElem?, ← queued_filter albums k]
    cases h : albums[k]? with
    | none => simp [queued, h]
    | some a =>
      have hq := queueCall_isQueuing k a
      have hs : ∀ n, (Event.sleep n).isQueuing = false := fun _ => rfl
      simp [queued, h, List.filter_cons, hq, hs]

/-- The events of the first `k` positions are queuing requests and sleeps. -/
theorem queued_events (albums : List BrowseItem) :
    ∀ k, ∀ e ∈ queued albums k, e.isQueuing = true ∨ e.isSleep = true
  | 0, e, he => by simp [queued] at he
  | k + 1, e, he => by
    simp only [queued, List.mem_append] at he
    rcases he with he | he
    · exact queued_events albums k e he
    · cases h : albums[k]? with
      | none => simp [h] at he
      | some a =>
        simp only [h, List.mem_cons, List.mem_singleton, List.not_mem_nil, or_false] at he
        rcases he with he | he
        · exact Or.inl (he ▸ queueCall_isQueuing k a)
        · exact Or.inr (he ▸ rfl)

/-! ## The sequencer: the run -/

/-- When `findMatchingAlbums` returns entries, the search request is its event. -/
theorem findMatchingAlbums_trace (lib : Stdlib) (c : Client) (t : List Event)
    (searchQuery pattern : String) (found : List BrowseItem)
    (h : (findMatchingAlbums lib c t searchQuery pattern).1 = .ok found) :
    findMatchingAlbums lib c t searchQuery pattern = (.ok found, t ++ [.search searchQuery]) := by
  have htr := SearchAlbums_trace c t searchQuery
  unfold findMatchingAlbums at h ⊢
  cases hre : lib.regexpCompile pattern with
  | error e => simp [hre] at h
  | ok regex =>
    rw [hre] at h
    rcases hsa : SearchAlbums c t searchQuery with ⟨res, t1⟩
    rw [hsa] at h htr
    simp only at htr
    subst htr
    cases res with
    | error e => simp at h
    | ok albums =>
      simp only at h
      simp only [h]

/-- A successful mode enforcement. -/
theorem ensureShuffleOff_ok (c : Client) (t : List Event) (state : PlayerState)
    (hstate : c.getState t = .ok state)
    (htoggle : state.Random = true → c.toggleRandom (t ++ [.getState]) = none) :
    ensureShuffleOff c t = (none, t ++ modeEvents state) := by
  unfold ensureShuffleOff modeEvents
  rw [hstate]
  by_cases hr : state.Random = true
  · simp [hr, htoggle hr]
  · simp [hr]

/-- A run that finds entries, selects `selected` and enforces the mode is the
call of `queueAlbums` with its error, if any, wrapped. -/
theorem PlayRandomEpisodes_queue (lib : Stdlib) (c : Client) (r : Rng) (t t2 : List Event)
    (searchQuery pattern : String) (count : Int) (found selected : List BrowseItem)
    (hcount : 1 ≤ count)
    (hfind : (findMatchingAlbums lib c t searchQuery pattern).1 = .ok found)
    (hne : found ≠ [])
    (hsel : randomSelect found count r = some selected)
    (hmode : ensureShuffleOff c (t ++ [.search searchQuery]) = (none, t2)) :
    PlayRandomEpisodes lib c r t searchQuery pattern count =
      ((match (queueAlbums lib c t2 selected).1 with
        | some err => .returned (some (.wrapped "failed to queue albums: " err))
        | none => .returned none),
       (queueAlbums lib c t2 selected).2) := by
  have hlen : found.length ≠ 0 := fun h => hne (List.length_eq_zero.mp h)
  unfold PlayRandomEpisodes
  rw [if_neg (by omega), findMatchingAlbums_trace lib c t searchQuery pattern found hfind]
  simp only [if_neg hlen, hsel, hmode]
  rcases queueAlbums lib c t2 selected with ⟨_ | err, t3⟩ <;> rfl

end Volu

namespace Volu

/-- For a count that is not negative `randomSelect` returns, and the number of
entries is the smaller of the count and the number of candidates. -/
theorem randomSelect_length (albums : List BrowseItem) (count : Int) (r : Rng) (h0 : 0 ≤ count) :
    ∃ selected, randomSelect albums count r = some selected ∧
      (selected.length : Int) = min count albums.length := by
  obtain ⟨idx, r1, _, hperm, hsel⟩ := randomSelectOf_eq BrowseItem.zero albums count r h0
  have hlen : idx.length = albums.length := by simpa using hperm.length_eq
  refine ⟨_, hsel, ?_⟩
  simp only [List.length_map, List.length_take, hlen]
  omega

/-- The events of a successful mode enforcement hold no queuing request. -/
theorem modeEvents_filter (state : PlayerState) :
    (modeEvents state).filter Event.isQueuing = [] := by
  unfold modeEvents
  split <;> rfl

/-- C5. On a run of `PlayRandomEpisodes` in which every request succeeds (the
search returns `found`, one entry or more, matching the pattern; the state is
read; the toggle, if made, and every queuing request made are accepted), with a
count of at least 1: the sampler selects `min(count, m)` entries, the events of
the run are the search, the mode enforcement and then, for the selected entries
in order, a request and a sleep each; the queuing requests issued are exactly
replace-and-play for the first selected entry followed by add-to-queue for each
of the others, `min(count, m)` in total; and no error is returned. -/
theorem PlayRandomEpisodes_all_succeed (lib : Stdlib) (c : Client) (r : Rng) (t : List Event)
    (searchQuery pattern : String) (count : Int) (found : List BrowseItem) (state : PlayerState)
    (hcount : 1 ≤ count)
    (hfind : (findMatchingAlbums lib c t searchQuery pattern).1 = .ok found)
    (hm : 1 ≤ found.length)
    (hstate : c.getState (t ++ [.search searchQuery]) = .ok state)
    (htoggle : state.Random = true →
      c.toggleRandom (t ++ [.search searchQuery] ++ [.getState]) = none)
    (hqueue : ∀ selected i a, randomSelect found count r = some selected →
      selected[i]? = some a →
      queueAnswer c (t ++ [.search searchQuery] ++ modeEvents state ++ queued selected i) i a
        = none) :
    ∃ selected, randomSelect found count r = some selected ∧
      (selected.length : Int) = min count found.length ∧
      PlayRandomEpisodes lib c r t searchQuery pattern count =
        (.returned none,
          t ++ [.search searchQuery] ++ modeEvents state ++ queued selected selected.length) ∧
      ((PlayRandomEpisodes lib c r t searchQuery pattern count).2.drop t.length).filter
        Event.isQueuing = queueCalls selected ∧
      ((queueCalls selected).length : Int) = min count found.length := by
  obtain ⟨selected, hsel, hlen⟩ := randomSelect_length found count r (by omega)
  have hne : found ≠ [] := fun h => by simp [h] at hm
  have hsne : selected ≠ [] := fun h => by
    rw [h] at hlen
    simp at hlen
    omega
  have hmode := ensureShuffleOff_ok c (t ++ [.search searchQuery]) state hstate htoggle
  have hq := queueAlbums_ok lib c (t ++ [.search searchQuery] ++ modeEvents state) selected hsne
    (fun i b hb => hqueue selected i b hsel hb)
  have hrun := PlayRandomEpisodes_queue lib c r t _ searchQuery pattern count found selected
    hcount hfind hne hsel hmode
  rw [hq] at hrun
  simp only at hrun
  refine ⟨selected, hsel, hlen, hrun, ?_, by rw [queueCalls_length]; exact hlen⟩
  rw [hrun]
  simp only [List.append_assoc, List.drop_left, List.filter_append, modeEvents_filter,
    queued_filter, List.nil_append]
  rw [List.take_of_length_le (by rw [queueCalls_length])]
  rfl

/-- C5 on the running example: three episodes are asked for and two albums
match, so a replace-and-play and one add-to-queue are issued. -/
theorem PlayRandomEpisodes_all_succeed_witness :
    ∃ selected,
      randomSelect [album "ASOT 900", album "ASOT 901"] 3 (fun k => k) = some selected ∧
      (selected.length : Int) = min 3 ([album "ASOT 900", album "ASOT 901"].length : Nat) ∧
      PlayRandomEpisodes sampleLib (samplePlayer sampleAlbums true none) (fun k => k) []
          "A State of Trance" "^ASOT " 3 =
        (.returned none,
          [] ++ [.search "A State of Trance"] ++ modeEvents (sampleState true) ++
            queued selected selected.length) ∧
      ((PlayRandomEpisodes sampleLib (samplePlayer sampleAlbums true none) (fun k => k) []
          "A State of Trance" "^ASOT " 3).2.drop ([] : List Event).length).filter
        Event.isQueuing = queueCalls selected ∧
      ((queueCalls selected).length : Int) =
        min 3 ([album "ASOT 900", album "ASOT 901"].length : Nat) :=
  PlayRandomEpisodes_all_succeed sampleLib (samplePlayer sampleAlbums true none) (fun k => k) []
    "A State of Trance" "^ASOT " 3 [album "ASOT 900", album "ASOT 901"] (sampleState true)
    (by decide) rfl (by decide) rfl (fun _ => rfl)
    (fun _ i _ _ _ => by unfold queueAnswer; split <;> rfl)

end Volu

namespace Volu

/-! ## The sequencer: partial failure -/

/-- C6. For every selected sequence and every position `k` in it, if the queuing
request for position `k` is the first to fail, then `queueAlbums` returns an
error and its events are exactly those of positions `0, ..., k - 1` (request and
sleep) followed by the request for position `k`: the queuing requests issued are
the first `k + 1` of the sequence in order (replace-and-play for position 0,
add-to-queue after it), nothing is issued for a later position, and every event
is a queuing request or a sleep, so nothing is cleared or undone. A run of
`PlayRandomEpisodes` that reaches the queuing of this sequence ends there, with
the error wrapped and no further event. -/
theorem queueAlbums_first_failure (lib : Stdlib) (c : Client) (t2 : List Event)
    (selected : List BrowseItem) (k : Nat) (a : BrowseItem) (err : GoError)
    (hk : selected[k]? = some a)
    (hok : ∀ i b, i < k → selected[i]? = some b →
      queueAnswer c (t2 ++ queued selected i) i b = none)
    (hfail : queueAnswer c (t2 ++ queued selected k) k a = some err) :
    ∃ e, queueAlbums lib c t2 selected = (some e, t2 ++ queued selected k ++ [queueCall k a]) ∧
      (queued selected k ++ [queueCall k a]).filter Event.isQueuing =
        (queueCalls selected).take (k + 1) ∧
      (∀ ev ∈ queued selected k ++ [queueCall k a], ev.isQueuing = true ∨ ev.isSleep = true) ∧
      Event.clearQueue ∉ queued selected k ++ [queueCall k a] ∧
      ∀ (r : Rng) (t : List Event) (searchQuery pattern : String) (count : Int)
        (found : List BrowseItem), 1 ≤ count →
        (findMatchingAlbums lib c t searchQuery pattern).1 = .ok found → found ≠ [] →
        randomSelect found count r = some selected →
        ensureShuffleOff c (t ++ [.search searchQuery]) = (none, t2) →
        PlayRandomEpisodes lib c r t searchQuery pattern count =
          (.returned (some (.wrapped "failed to queue albums: " e)),
            t2 ++ queued selected k ++ [queueCall k a]) := by
  have hq := queueAlbums_fail lib c t2 selected k a err hk hok hfail
  have hev : ∀ ev ∈ queued selected k ++ [queueCall k a],
      ev.isQueuing = true ∨ ev.isSleep = true := fun ev hev => by
    rcases List.mem_append.mp hev with h | h
    · exact queued_events selected k ev h
    · rw [List.mem_singleton.mp h]
      exact Or.inl (queueCall_isQueuing k a)
  refine ⟨_, hq, ?_, hev, fun hmem => ?_, ?_⟩
  · rw [List.filter_append, queued_filter, List.take_succ, queueCalls_getElem?, hk]
    simp [List.filter_cons, queueCall_isQueuing]
  · rcases hev _ hmem with h | h <;> simp [Event.isQueuing, Event.isSleep] at h
  · intro r t searchQuery pattern count found hcount hfind hne hsel hmode
    rw [PlayRandomEpisodes_queue lib c r t t2 searchQuery pattern count found selected hcount
      hfind hne hsel hmode, hq]

/-- C6 on four selected albums when the player refuses the third request. -/
theorem queueAlbums_first_failure_witness :
    ∃ e, queueAlbums sampleLib (samplePlayer phoneticAlbums false (some 2))
        [.search "q", .getState] phoneticAlbums =
        (some e, [.search "q", .getState] ++ queued phoneticAlbums 2 ++
          [queueCall 2 (album "Charlie")]) ∧
      (queued phoneticAlbums 2 ++ [queueCall 2 (album "Charlie")]).filter Event.isQueuing =
        (queueCalls phoneticAlbums).take (2 + 1) ∧
      (∀ ev ∈ queued phoneticAlbums 2 ++ [queueCall 2 (album "Charlie")],
        ev.isQueuing = true ∨ ev.isSleep = true) ∧
      Event.clearQueue ∉ queued phoneticAlbums 2 ++ [queueCall 2 (album "Charlie")] ∧
      ∀ (r : Rng) (t : List Event) (searchQuery pattern : String) (count : Int)
        (found : List BrowseItem), 1 ≤ count →
        (findMatchingAlbums sampleLib (samplePlayer phoneticAlbums false (some 2)) t searchQuery
          pattern).1 = .ok found → found ≠ [] →
        randomSelect found count r = some phoneticAlbums →
        ensureShuffleOff (samplePlayer phoneticAlbums false (some 2)) (t ++ [.search searchQuery])
          = (none, [.search "q", .getState]) →
        PlayRandomEpisodes sampleLib (samplePlayer phoneticAlbums false (some 2)) r t searchQuery
            pattern count =
          (.returned (some (.wrapped "failed to queue albums: " e)),
            [.search "q", .getState] ++ queued phoneticAlbums 2 ++
              [queueCall 2 (album "Charlie")]) :=
  queueAlbums_first_failure sampleLib (samplePlayer phoneticAlbums false (some 2))
    [.search "q", .getState] phoneticAlbums 2 (album "Charlie") (.plain "connection refused")
    rfl
    (fun i b hi hb => by
      interval_cases i
      · rfl
      · rfl)
    rfl

end Volu

namespace Volu

/-! ## The sequencer: the queuing error -/

/-- C7, as the code has it. When the queuing request for the selected entry at
position `k` is the first to fail, the error of `queueAlbums` wraps the cause
with a message that names the display name of that entry, rendered by `%q`:
`failed to play first album <name>: ` for position 0 and
`failed to add album <name> to queue: ` for every later position; and a run of
`PlayRandomEpisodes` that reaches the queuing of this sequence returns that error
wrapped with `failed to queue albums: `. Beyond first or later, the message says
nothing of the position. -/
theorem queueAlbums_error_names_entry (lib : Stdlib) (c : Client) (t2 : List Event)
    (selected : List BrowseItem) (k : Nat) (a : BrowseItem) (err : GoError)
    (hk : selected[k]? = some a)
    (hok : ∀ i b, i < k → selected[i]? = some b →
      queueAnswer c (t2 ++ queued selected i) i b = none)
    (hfail : queueAnswer c (t2 ++ queued selected k) k a = some err) :
    ∃ e, (queueAlbums lib c t2 selected).1 = some e ∧
      e.Unwrap = some err ∧
      e.Error =
        (if k = 0 then "failed to play first album " ++ lib.quote a.DisplayName ++ ": "
         else "failed to add album " ++ lib.quote a.DisplayName ++ " to queue: ") ++ err.Error ∧
      ∀ (r : Rng) (t : List Event) (searchQuery pattern : String) (count : Int)
        (found : List BrowseItem), 1 ≤ count →
        (findMatchingAlbums lib c t searchQuery pattern).1 = .ok found → found ≠ [] →
        randomSelect found count r = some selected →
        ensureShuffleOff c (t ++ [.search searchQuery]) = (none, t2) →
        ∃ e1, (PlayRandomEpisodes lib c r t searchQuery pattern count).1 = .returned (some e1) ∧
          e1.Unwrap = some e ∧ e1.Error = "failed to queue albums: " ++ e.Error := by
  have hq := queueAlbums_fail lib c t2 selected k a err hk hok hfail
  refine ⟨.wrapped
    (if k = 0 then "failed to play first album " ++ lib.quote a.DisplayName ++ ": "
     else "failed to add album " ++ lib.quote a.DisplayName ++ " to queue: ") err,
    by rw [hq], rfl, rfl, ?_⟩
  intro r t searchQuery pattern count found hcount hfind hne hsel hmode
  rw [PlayRandomEpisodes_queue lib c r t t2 searchQuery pattern count found selected hcount
    hfind hne hsel hmode, hq]
  exact ⟨_, rfl, rfl, rfl⟩

/-- C7 as amended, on four selected albums when the player refuses the third
request. -/
theorem queueAlbums_error_names_entry_witness :
    ∃ e, (queueAlbums sampleLib (samplePlayer phoneticAlbums true (some 2))
        [.search "q", .getState, .toggleRandom, .sleep 300] phoneticAlbums).1 = some e ∧
      e.Unwrap = some (.plain "connection refused") ∧
      e.Error =
        (if 2 = 0 then
          "failed to play first album " ++ sampleLib.quote (album "Charlie").DisplayName ++ ": "
         else
          "failed to add album " ++ sampleLib.quote (album "Charlie").DisplayName ++ " to queue: ")
          ++ (GoError.plain "connection refused").Error ∧
      ∀ (r : Rng) (t : List Event) (searchQuery pattern : String) (count : Int)
        (found : List BrowseItem), 1 ≤ count →
        (findMatchingAlbums sampleLib (samplePlayer phoneticAlbums true (some 2)) t searchQuery
          pattern).1 = .ok found → found ≠ [] →
        randomSelect found count r = some phoneticAlbums →
        ensureShuffleOff (samplePlayer phoneticAlbums true (some 2)) (t ++ [.search searchQuery])
          = (none, [.search "q", .getState, .toggleRandom, .sleep 300]) →
        ∃ e1, (PlayRandomEpisodes sampleLib (samplePlayer phoneticAlbums true (some 2)) r t
            searchQuery pattern count).1 = .returned (some e1) ∧
          e1.Unwrap = some e ∧ e1.Error = "failed to queue albums: " ++ e.Error :=
  queueAlbums_error_names_entry sampleLib (samplePlayer phoneticAlbums true (some 2))
    [.search "q", .getState, .toggleRandom, .sleep 300] phoneticAlbums 2 (album "Charlie")
    (.plain "connection refused") rfl
    (fun i b hi hb => by
      interval_cases i
      · rfl
      · rfl)
    rfl

/-- C7 as stated fails. Four albums are selected in catalogue order and the
player refuses the third queuing request, the one for position 2: the error
returned names `Charlie` and the cause, and no digit occurs in its message, so
the position 2 is not named. -/
theorem queue_error_omits_position :
    PlayRandomEpisodes sampleLib (samplePlayer phoneticAlbums false (some 2)) (fun k => 3 - k) []
        "q" "." 4 =
      (.returned (some (.wrapped "failed to queue albums: "
          (.wrapped "failed to add album \"Charlie\" to queue: " (.plain "connection refused")))),
        [.search "q", .getState,
          .replaceAndPlay "music-library/Alpha" "mpd", .sleep 500,
          .addToQueue "music-library/Bravo" "mpd", .sleep 100,
          .addToQueue "music-library/Charlie" "mpd"]) ∧
    (GoError.wrapped "failed to queue albums: "
        (.wrapped "failed to add album \"Charlie\" to queue: " (.plain "connection refused"))).Error
      = "failed to queue albums: failed to add album \"Charlie\" to queue: connection refused" ∧
    '2' ∉ (GoError.wrapped "failed to queue albums: "
        (.wrapped "failed to add album \"Charlie\" to queue: "
          (.plain "connection refused"))).Error.toList ∧
    (GoError.wrapped "failed to queue albums: "
        (.wrapped "failed to add album \"Charlie\" to queue: "
          (.plain "connection refused"))).Error.toList.all (fun ch => !ch.isDigit) = true := by
  refine ⟨by decide, by decide, by decide, by decide⟩

end Volu

namespace Volu

/-! ## The command: the reported count -/

/-- C8 fails on the code. `volu radio asot 3` with two matching albums succeeds
and queues two albums (a replace-and-play and one add-to-queue), and the success
notification says `Playing 3 random A State of Trance episodes`: the count
reported is the count requested, not the number queued. -/
theorem radioCmd_reports_requested_count :
    radioCmd sampleLib (samplePlayer sampleAlbums false none) sampleConfig (fun k => k) []
        ["asot", "3"] =
      (.returned none,
        [.notify "Volumio Radio" "Searching for A State of Trance episodes..."
            "media-playlist-shuffle" false,
          .search "A State of Trance", .getState,
          .replaceAndPlay "music-library/ASOT 901" "mpd", .sleep 500,
          .addToQueue "music-library/ASOT 900" "mpd", .sleep 100,
          .notify "Volumio Radio" "Playing 3 random A State of Trance episodes"
            "media-playback-start" false]) ∧
    ((radioCmd sampleLib (samplePlayer sampleAlbums false none) sampleConfig (fun k => k) []
        ["asot", "3"]).2.filter Event.isQueuing).length = 2 := by
  refine ⟨by decide, by decide⟩

end Volu

namespace Volu

/-! ## The sequencer: early exits -/

/-- A count below 1 is rejected before any event. -/
theorem PlayRandomEpisodes_count_lt (lib : Stdlib) (c : Client) (r : Rng) (t : List Event)
    (searchQuery pattern : String) (count : Int) (h : count < 1) :
    PlayRandomEpisodes lib c r t searchQuery pattern count =
      (.returned (some (.plain "count must be at least 1")), t) := by
  unfold PlayRandomEpisodes
  rw [if_pos h]

/-- An invalid pattern is rejected before any event. -/
theorem PlayRandomEpisodes_invalid_pattern (lib : Stdlib) (c : Client) (r : Rng)
    (t : List Event) (searchQuery pattern : String) (count : Int) (e : GoError)
    (hcount : 1 ≤ count) (hre : lib.regexpCompile pattern = .error e) :
    PlayRandomEpisodes lib c r t searchQuery pattern count =
      (.returned (some (.wrapped "failed to find albums: "
        (.wrapped "invalid regex pattern: " e))), t) := by
  unfold PlayRandomEpisodes findMatchingAlbums
  rw [if_neg (by omega), hre]

/-- C9. If the search is issued and succeeds and no returned entry has a display
name matching the pattern, `PlayRandomEpisodes` fails with the no-match error,
whose message ends with the pattern string, and the search is the only event of
the run: no state read, no toggle, no replace-and-play, no add-to-queue. -/
theorem PlayRandomEpisodes_no_match (lib : Stdlib) (c : Client) (r : Rng) (t : List Event)
    (searchQuery pattern : String) (count : Int) (albums : List BrowseItem)
    (hissued : Event.search searchQuery ∈
      (PlayRandomEpisodes lib c r t searchQuery pattern count).2.drop t.length)
    (hsearch : (SearchAlbums c t searchQuery).1 = .ok albums)
    (hno : ∀ regex, lib.regexpCompile pattern = .ok regex →
      ∀ a ∈ albums, regex a.DisplayName = false) :
    ∃ e, PlayRandomEpisodes lib c r t searchQuery pattern count =
        (.returned (some e), t ++ [.search searchQuery]) ∧
      e.Error = "no albums found matching pattern: " ++ pattern ∧
      ∀ ev ∈ (PlayRandomEpisodes lib c r t searchQuery pattern count).2.drop t.length,
        ev ≠ .getState ∧ ev ≠ .toggleRandom ∧ ev.isQueuing = false := by
  have hcount : 1 ≤ count := by
    by_contra h
    rw [PlayRandomEpisodes_count_lt lib c r t searchQuery pattern count (by omega)] at hissued
    simp at hissued
  cases hre : lib.regexpCompile pattern with
  | error e =>
    rw [PlayRandomEpisodes_invalid_pattern lib c r t searchQuery pattern count e hcount hre]
      at hissued
    simp at hissued
  | ok regex =>
    have hfm := findMatchingAlbums_of_compiled lib c t searchQuery pattern regex albums hre hsearch
    have hnil : albums.filter (fun a => regex a.DisplayName) = [] :=
      List.filter_eq_nil_iff.mpr (fun a ha => by simp [hno regex hre a ha])
    rw [hnil] at hfm
    have hrun : PlayRandomEpisodes lib c r t searchQuery pattern count =
        (.returned (some (.plain ("no albums found matching pattern: " ++ pattern))),
          t ++ [.search searchQuery]) := by
      unfold PlayRandomEpisodes
      rw [if_neg (by omega), hfm]
      rfl
    refine ⟨_, hrun, rfl, fun ev hev => ?_⟩
    rw [hrun] at hev
    simp only [List.drop_left, List.mem_singleton] at hev
    subst hev
    exact ⟨by simp, by simp, rfl⟩

/-- C9 on the pattern `^ASOT ` when the search returns four albums named
otherwise. -/
theorem PlayRandomEpisodes_no_match_witness :
    ∃ e, PlayRandomEpisodes sampleLib (samplePlayer phoneticAlbums true none) (fun k => k) []
        "A State of Trance" "^ASOT " 3 =
        (.returned (some e), [] ++ [.search "A State of Trance"]) ∧
      e.Error = "no albums found matching pattern: " ++ "^ASOT " ∧
      ∀ ev ∈ (PlayRandomEpisodes sampleLib (samplePlayer phoneticAlbums true none) (fun k => k) []
          "A State of Trance" "^ASOT " 3).2.drop ([] : List Event).length,
        ev ≠ .getState ∧ ev ≠ .toggleRandom ∧ ev.isQueuing = false :=
  PlayRandomEpisodes_no_match sampleLib (samplePlayer phoneticAlbums true none) (fun k => k) []
    "A State of Trance" "^ASOT " 3 phoneticAlbums (by decide) rfl
    (fun regex hre a ha => by
      have hr : regex = fun s => "ASOT ".toList.isPrefixOf s.toList := by
        have h : sampleLib.regexpCompile "^ASOT " =
            .ok (fun s => "ASOT ".toList.isPrefixOf s.toList) := rfl
        rw [h] at hre
        exact (Except.ok.inj hre).symm
      subst hr
      revert a
      decide)

end Volu

namespace Volu

/-! ## The sequencer: mode enforcement -/

/-- The events of `findMatchingAlbums`: none, or the search request. -/
theorem findMatchingAlbums_events (lib : Stdlib) (c : Client) (t : List Event)
    (searchQuery pattern : String) :
    (findMatchingAlbums lib c t searchQuery pattern).2 = t ∨
      (findMatchingAlbums lib c t searchQuery pattern).2 = t ++ [.search searchQuery] := by
  have htr := SearchAlbums_trace c t searchQuery
  unfold findMatchingAlbums
  cases lib.regexpCompile pattern with
  | error e => exact Or.inl rfl
  | ok regex =>
    rcases hsa : SearchAlbums c t searchQuery with ⟨res, t1⟩
    rw [hsa] at htr
    simp only at htr
    subst htr
    cases res <;> exact Or.inr rfl

/-- The events the appending loop adds are queuing requests and sleeps. -/
theorem queueLoop_events (lib : Stdlib) (c : Client) :
    ∀ (rest : List BrowseItem) (t : List Event),
      ∃ ev, (queueLoop lib c rest t).2 = t ++ ev ∧
        ∀ e ∈ ev, e.isQueuing = true ∨ e.isSleep = true
  | [], t => ⟨[], by simp [queueLoop], fun e he => by simp at he⟩
  | b :: rest, t => by
    cases h : c.addToQueue t b.URI b.Service with
    | some err =>
      refine ⟨[.addToQueue b.URI b.Service], by simp [queueLoop, h], fun e he => ?_⟩
      rw [List.mem_singleton.mp he]
      exact Or.inl rfl
    | none =>
      obtain ⟨ev, hev, hall⟩ :=
        queueLoop_events lib c rest (t ++ [.addToQueue b.URI b.Service] ++ [.sleep 100])
      refine ⟨[.addToQueue b.URI b.Service, .sleep 100] ++ ev, ?_, fun e he => ?_⟩
      · simp only [queueLoop, h]
        rw [hev]
        simp
      · simp only [List.cons_append, List.nil_append, List.mem_cons] at he
        rcases he with he | he | he
        · exact Or.inl (he ▸ rfl)
        · exact Or.inr (he ▸ rfl)
        · exact hall e he

/-- The events `queueAlbums` adds are queuing requests and sleeps. -/
theorem queueAlbums_events (lib : Stdlib) (c : Client) (t : List Event)
    (albums : List BrowseItem) :
    ∃ ev, (queueAlbums lib c t albums).2 = t ++ ev ∧
      ∀ e ∈ ev, e.isQueuing = true ∨ e.isSleep = true := by
  cases albums with
  | nil => exact ⟨[], by simp [queueAlbums], fun e he => by simp at he⟩
  | cons first rest =>
    cases h : c.replaceAndPlay t first.URI first.Service with
    | some err =>
      refine ⟨[.replaceAndPlay first.URI first.Service], by simp [queueAlbums, h],
        fun e he => ?_⟩
      rw [List.mem_singleton.mp he]
      exact Or.inl rfl
    | none =>
      obtain ⟨ev, hev, hall⟩ :=
        queueLoop_events lib c rest (t ++ [.replaceAndPlay first.URI first.Service] ++ [.sleep 500])
      refine ⟨[.replaceAndPlay first.URI first.Service, .sleep 500] ++ ev, ?_, fun e he => ?_⟩
      · simp only [queueAlbums, h]
        rw [hev]
        simp
      · simp only [List.cons_append, List.nil_append, List.mem_cons] at he
        rcases he with he | he | he
        · exact Or.inl (he ▸ rfl)
        · exact Or.inr (he ▸ rfl)
        · exact hall e he

/-- A run either stops with no event or with the search alone, or it finds
entries and selects among them. -/
theorem PlayRandomEpisodes_cases (lib : Stdlib) (c : Client) (r : Rng) (t : List Event)
    (searchQuery pattern : String) (count : Int) :
    (PlayRandomEpisodes lib c r t searchQuery pattern count).2 = t ∨
    (PlayRandomEpisodes lib c r t searchQuery pattern count).2 = t ++ [.search searchQuery] ∨
    ∃ found selected, 1 ≤ count ∧
      (findMatchingAlbums lib c t searchQuery pattern).1 = .ok found ∧ found ≠ [] ∧
      randomSelect found count r = some selected := by
  by_cases hcount : count < 1
  · left
    rw [PlayRandomEpisodes_count_lt lib c r t searchQuery pattern count hcount]
  · have hev := findMatchingAlbums_events lib c t searchQuery pattern
    rcases hfm : findMatchingAlbums lib c t searchQuery pattern with ⟨res, t1⟩
    rw [hfm] at hev
    simp only at hev
    cases res with
    | error e =>
      have hrun : (PlayRandomEpisodes lib c r t searchQuery pattern count).2 = t1 := by
        unfold PlayRandomEpisodes
        rw [if_neg hcount, hfm]
      rw [hrun]
      rcases hev with h | h
      · exact Or.inl h
      · exact Or.inr (Or.inl h)
    | ok found =>
      have hfind : (findMatchingAlbums lib c t searchQuery pattern).1 = .ok found := by rw [hfm]
      have htr := findMatchingAlbums_trace lib c t searchQuery pattern found hfind
      by_cases hlen : found.length = 0
      · right; left
        unfold PlayRandomEpisodes
        rw [if_neg hcount, htr]
        simp only [if_pos hlen]
      · cases hsel : randomSelect found count r with
        | none =>
          right; left
          unfold PlayRandomEpisodes
          rw [if_neg hcount, htr]
          simp only [if_neg hlen, hsel]
        | some selected =>
          right; right
          exact ⟨found, selected, by omega, rfl, fun h => hlen (by rw [h]; rfl), hsel⟩

/-- The events of a run that finds entries and selects among them: those of the
mode enforcement and, when it succeeds, those of `queueAlbums`. -/
theorem PlayRandomEpisodes_events (lib : Stdlib) (c : Client) (r : Rng) (t : List Event)
    (searchQuery pattern : String) (count : Int) (found selected : List BrowseItem)
    (hcount : 1 ≤ count)
    (hfind : (findMatchingAlbums lib c t searchQuery pattern).1 = .ok found)
    (hne : found ≠ [])
    (hsel : randomSelect found count r = some selected) :
    (PlayRandomEpisodes lib c r t searchQuery pattern count).2 =
      match ensureShuffleOff c (t ++ [.search searchQuery]) with
      | (some _, t2) => t2
      | (none, t2) => (queueAlbums lib c t2 selected).2 := by
  have hlen : found.length ≠ 0 := fun h => hne (List.length_eq_zero.mp h)
  unfold PlayRandomEpisodes
  rw [if_neg (by omega), findMatchingAlbums_trace lib c t searchQuery pattern found hfind]
  simp only [if_neg hlen, hsel]
  generalize ensureShuffleOff c (t ++ [.search searchQuery]) = m
  rcases m with ⟨_ | err, t2⟩
  · simp only
    generalize queueAlbums lib c t2 selected = m2
    rcases m2 with ⟨_ | err, t3⟩ <;> rfl
  · rfl

end Volu

namespace Volu

/-- In a trace made of the search, the state read, the toggle and then events
none of which is a toggle, the toggle comes before every queuing request. -/
theorem toggle_before_queuing (searchQuery : String) (post : List Event)
    (hpost : Event.toggleRandom ∉ post) (i j : Nat) (e : Event)
    (hi : ([.search searchQuery, .getState, .toggleRandom] ++ post)[i]? = some .toggleRandom)
    (hj : ([.search searchQuery, .getState, .toggleRandom] ++ post)[j]? = some e)
    (he : e.isQueuing = true) : i < j := by
  have hi3 : i < 3 := by
    by_contra h
    rw [List.getElem?_append_right (by simp; omega)] at hi
    exact hpost (List.getElem?_mem hi)
  have hj3 : 3 ≤ j := by
    by_contra h
    rw [List.getElem?_append_left (by simp; omega)] at hj
    have hmem := List.getElem?_mem hj
    simp only [List.mem_cons, List.mem_singleton, List.not_mem_nil, or_false] at hmem
    rcases hmem with h | h | h <;> rw [h] at he <;> simp [Event.isQueuing] at he
  omega

/-- C10. The shuffle pre-condition. In every run of `PlayRandomEpisodes` that
reaches mode enforcement (the state is read) and whose state read reports
`state`: if `state.Random` is true the events of the run are the search, the
state read, the toggle and then events none of which is a toggle, so
`ToggleRandom` is called exactly once and before every replace-and-play or
add-to-queue request; if `state.Random` is false the events are the search, the
state read and then events none of which is a toggle, so `ToggleRandom` is never
called. -/
theorem PlayRandomEpisodes_shuffle_precondition (lib : Stdlib) (c : Client) (r : Rng)
    (t : List Event) (searchQuery pattern : String) (count : Int) (state : PlayerState)
    (hreach : Event.getState ∈
      (PlayRandomEpisodes lib c r t searchQuery pattern count).2.drop t.length)
    (hstate : c.getState (t ++ [.search searchQuery]) = .ok state) :
    ∃ post, Event.toggleRandom ∉ post ∧
      (state.Random = true →
        (PlayRandomEpisodes lib c r t searchQuery pattern count).2.drop t.length =
          [.search searchQuery, .getState, .toggleRandom] ++ post ∧
        ((PlayRandomEpisodes lib c r t searchQuery pattern count).2.drop t.length).count
          .toggleRandom = 1 ∧
        ∀ (i j : Nat) (e : Event),
          ((PlayRandomEpisodes lib c r t searchQuery pattern count).2.drop t.length)[i]? =
            some Event.toggleRandom →
          ((PlayRandomEpisodes lib c r t searchQuery pattern count).2.drop t.length)[j]? =
            some e →
          e.isQueuing = true → i < j) ∧
      (state.Random = false →
        (PlayRandomEpisodes lib c r t searchQuery pattern count).2.drop t.length =
          [.search searchQuery, .getState] ++ post ∧
        Event.toggleRandom ∉
          (PlayRandomEpisodes lib c r t searchQuery pattern count).2.drop t.length) := by
  rcases PlayRandomEpisodes_cases lib c r t searchQuery pattern count with h | h | h
  · rw [h] at hreach
    simp at hreach
  · rw [h] at hreach
    simp at hreach
  · obtain ⟨found, selected, hcount, hfind, hne, hsel⟩ := h
    have hrun := PlayRandomEpisodes_events lib c r t searchQuery pattern count found selected
      hcount hfind hne hsel
    have hnot : ∀ ev : List Event, (∀ e ∈ ev, e.isQueuing = true ∨ e.isSleep = true) →
        Event.toggleRandom ∉ ev := fun ev hev hmem => by
      rcases hev _ hmem with h | h <;> simp [Event.isQueuing, Event.isSleep] at h
    by_cases hr : state.Random = true
    · cases htog : c.toggleRandom (t ++ [.search searchQuery] ++ [.getState]) with
      | some err =>
        have hmode : ensureShuffleOff c (t ++ [.search searchQuery]) =
            (some err, t ++ [.search searchQuery] ++ [.getState] ++ [.toggleRandom]) := by
          have htog1 : c.toggleRandom (t ++ [.search searchQuery, .getState]) = some err := by
            simpa using htog
          unfold ensureShuffleOff
          rw [hstate]
          simp [hr, htog1]
        rw [hmode] at hrun
        simp only at hrun
        have hdrop : (PlayRandomEpisodes lib c r t searchQuery pattern count).2.drop t.length =
            [.search searchQuery, .getState, .toggleRandom] ++ [] := by
          rw [hrun]
          simp
        refine ⟨[], by simp, fun _ => ⟨hdrop, ?_, fun i j e hi hj he => ?_⟩,
          fun hf => by simp [hr] at hf⟩
        · rw [hdrop]
          simp [List.count_cons]
        · rw [hdrop] at hi hj
          exact toggle_before_queuing searchQuery [] (by simp) i j e hi hj he
      | none =>
        have hmode := ensureShuffleOff_ok c (t ++ [.search searchQuery]) state hstate
          (fun _ => htog)
        rw [hmode] at hrun
        simp only at hrun
        obtain ⟨ev, hev, hall⟩ := queueAlbums_events lib c
          (t ++ [.search searchQuery] ++ modeEvents state) selected
        have hpost : Event.toggleRandom ∉ Event.sleep 300 :: ev := by
          simp only [List.mem_cons, not_or]
          exact ⟨by simp, hnot ev hall⟩
        have hdrop : (PlayRandomEpisodes lib c r t searchQuery pattern count).2.drop t.length =
            [.search searchQuery, .getState, .toggleRandom] ++ (.sleep 300 :: ev) := by
          rw [hrun, hev]
          simp [modeEvents, hr]
        refine ⟨.sleep 300 :: ev, hpost, fun _ => ⟨hdrop, ?_, fun i j e hi hj he => ?_⟩,
          fun hf => by simp [hr] at hf⟩
        · rw [hdrop, List.count_append, List.count_eq_zero_of_not_mem hpost]
          simp [List.count_cons]
        · rw [hdrop] at hi hj
          exact toggle_before_queuing searchQuery _ hpost i j e hi hj he
    · have hmode := ensureShuffleOff_ok c (t ++ [.search searchQuery]) state hstate
        (fun h => absurd h hr)
      rw [hmode] at hrun
      simp only at hrun
      obtain ⟨ev, hev, hall⟩ := queueAlbums_events lib c
        (t ++ [.search searchQuery] ++ modeEvents state) selected
      have hdrop : (PlayRandomEpisodes lib c r t searchQuery pattern count).2.drop t.length =
          [.search searchQuery, .getState] ++ ev := by
        rw [hrun, hev]
        simp [modeEvents, hr]
      refine ⟨ev, hnot ev hall, fun h => absurd h hr, fun _ => ⟨hdrop, ?_⟩⟩
      rw [hdrop]
      simp only [List.mem_append, List.mem_cons, List.mem_singleton, List.not_mem_nil, or_false,
        not_or]
      exact ⟨⟨by simp, by simp⟩, hnot ev hall⟩

/-- C10 on the running example with shuffle enabled: the toggle is the third
event, before the two queuing requests. -/
theorem PlayRandomEpisodes_shuffle_precondition_witness :
    ∃ post, Event.toggleRandom ∉ post ∧
      ((sampleState true).Random = true →
        (PlayRandomEpisodes sampleLib (samplePlayer sampleAlbums true none) (fun k => k + 1) []
            "A State of Trance" "^ASOT " 2).2.drop ([] : List Event).length =
          [.search "A State of Trance", .getState, .toggleRandom] ++ post ∧
        ((PlayRandomEpisodes sampleLib (samplePlayer sampleAlbums true none) (fun k => k + 1) []
            "A State of Trance" "^ASOT " 2).2.drop ([] : List Event).length).count
          .toggleRandom = 1 ∧
        ∀ (i j : Nat) (e : Event),
          ((PlayRandomEpisodes sampleLib (samplePlayer sampleAlbums true none) (fun k => k + 1) []
            "A State of Trance" "^ASOT " 2).2.drop ([] : List Event).length)[i]? =
            some Event.toggleRandom →
          ((PlayRandomEpisodes sampleLib (samplePlayer sampleAlbums true none) (fun k => k + 1) []
            "A State of Trance" "^ASOT " 2).2.drop ([] : List Event).length)[j]? =
            some e →
          e.isQueuing = true → i < j) ∧
      ((sampleState true).Random = false →
        (PlayRandomEpisodes sampleLib (samplePlayer sampleAlbums true none) (fun k => k + 1) []
            "A State of Trance" "^ASOT " 2).2.drop ([] : List Event).length =
          [.search "A State of Trance", .getState] ++ post ∧
        Event.toggleRandom ∉
          (PlayRandomEpisodes sampleLib (samplePlayer sampleAlbums true none) (fun k => k + 1) []
            "A State of Trance" "^ASOT " 2).2.drop ([] : List Event).length) :=
  PlayRandomEpisodes_shuffle_precondition sampleLib (samplePlayer sampleAlbums true none)
    (fun k => k + 1) [] "A State of Trance" "^ASOT " 2 (sampleState true) (by decide) rfl

end Volu

namespace Volu

/-! ## The sequencer: searching -/

/-- With a valid pattern the search request is the event of `findMatchingAlbums`,
whatever the search answers. -/
theorem findMatchingAlbums_compiled_trace (lib : Stdlib) (c : Client) (t : List Event)
    (searchQuery pattern : String) (regex : String → Bool)
    (hre : lib.regexpCompile pattern = .ok regex) :
    (findMatchingAlbums lib c t searchQuery pattern).2 = t ++ [.search searchQuery] := by
  have htr := SearchAlbums_trace c t searchQuery
  unfold findMatchingAlbums
  rw [hre]
  generalize SearchAlbums c t searchQuery = m at htr
  rcases m with ⟨_ | _, t1⟩ <;> exact htr

/-- A failed search is reported by `findMatchingAlbums` with its cause wrapped. -/
theorem findMatchingAlbums_search_fail (lib : Stdlib) (c : Client) (t : List Event)
    (searchQuery pattern : String) (regex : String → Bool) (cause : GoError)
    (hre : lib.regexpCompile pattern = .ok regex)
    (hsearch : c.search t searchQuery = .error cause) :
    findMatchingAlbums lib c t searchQuery pattern =
      (.error (.wrapped "search failed: " cause), t ++ [.search searchQuery]) := by
  unfold findMatchingAlbums SearchAlbums
  rw [hre, hsearch]

/-- The events of `ensureShuffleOff` come after those before it. -/
theorem ensureShuffleOff_events (c : Client) (t : List Event) :
    ∃ ev, (ensureShuffleOff c t).2 = t ++ ev := by
  unfold ensureShuffleOff
  cases c.getState t with
  | error e => exact ⟨_, rfl⟩
  | ok state =>
    by_cases hr : state.Random = true
    · simp only [hr, if_true]
      cases c.toggleRandom (t ++ [.getState]) with
      | some err => exact ⟨[.getState, .toggleRandom], by simp⟩
      | none => exact ⟨[.getState, .toggleRandom, .sleep 300], by simp⟩
    · simp only [hr]
      exact ⟨_, rfl⟩

/-- The events of a run with a count of at least 1 begin with those of
`findMatchingAlbums`. -/
theorem PlayRandomEpisodes_after_find (lib : Stdlib) (c : Client) (r : Rng) (t : List Event)
    (searchQuery pattern : String) (count : Int) (hcount : 1 ≤ count) :
    ∃ ev, (PlayRandomEpisodes lib c r t searchQuery pattern count).2 =
      (findMatchingAlbums lib c t searchQuery pattern).2 ++ ev := by
  rcases hfm : findMatchingAlbums lib c t searchQuery pattern with ⟨res, t1⟩
  cases res with
  | error e =>
    refine ⟨[], ?_⟩
    unfold PlayRandomEpisodes
    rw [if_neg (by omega), hfm]
    simp
  | ok found =>
    have hfind : (findMatchingAlbums lib c t searchQuery pattern).1 = .ok found := by rw [hfm]
    have htr := findMatchingAlbums_trace lib c t searchQuery pattern found hfind
    have ht1 : t1 = t ++ [.search searchQuery] := by
      rw [hfm] at htr
      exact (Prod.mk.inj htr).2
    by_cases hlen : found.length = 0
    · refine ⟨[], ?_⟩
      unfold PlayRandomEpisodes
      rw [if_neg (by omega), hfm]
      simp [hlen]
    · cases hsel : randomSelect found count r with
      | none =>
        refine ⟨[], ?_⟩
        unfold PlayRandomEpisodes
        rw [if_neg (by omega), hfm]
        simp [hlen, hsel]
      | some selected =>
        have hrun := PlayRandomEpisodes_events lib c r t searchQuery pattern count found selected
          hcount hfind (fun h => hlen (by rw [h]; rfl)) hsel
        obtain ⟨ev1, hev1⟩ := ensureShuffleOff_events c (t ++ [.search searchQuery])
        rw [hrun, ht1]
        generalize ensureShuffleOff c (t ++ [.search searchQuery]) = m at hev1
        rcases m with ⟨_ | err, t2⟩
        · simp only at hev1 ⊢
          obtain ⟨ev2, hev2, _⟩ := queueAlbums_events lib c t2 selected
          exact ⟨ev1 ++ ev2, by rw [hev2, hev1, List.append_assoc]⟩
        · exact ⟨ev1, hev1⟩

/-- C11, as the code has it. For every search query, every valid pattern and
every count of at least 1, the first event of `PlayRandomEpisodes` is the
catalogue search with the given query; and if that search fails, the run fails
with the error `failed to find albums: search failed: <cause>`, which wraps the
cause, and the search is its only event. -/
theorem PlayRandomEpisodes_search_first (lib : Stdlib) (c : Client) (r : Rng) (t : List Event)
    (searchQuery pattern : String) (count : Int) (regex : String → Bool)
    (hcount : 1 ≤ count) (hre : lib.regexpCompile pattern = .ok regex) :
    (∃ rest, (PlayRandomEpisodes lib c r t searchQuery pattern count).2 =
      t ++ .search searchQuery :: rest) ∧
    ∀ cause, c.search t searchQuery = .error cause →
      ∃ e1 e2, PlayRandomEpisodes lib c r t searchQuery pattern count =
          (.returned (some e1), t ++ [.search searchQuery]) ∧
        e1.Unwrap = some e2 ∧ e2.Unwrap = some cause ∧
        e1.Error = "failed to find albums: " ++ ("search failed: " ++ cause.Error) := by
  constructor
  · obtain ⟨ev, hev⟩ := PlayRandomEpisodes_after_find lib c r t searchQuery pattern count hcount
    rw [findMatchingAlbums_compiled_trace lib c t searchQuery pattern regex hre] at hev
    exact ⟨ev, by rw [hev]; simp⟩
  · intro cause hsearch
    refine ⟨.wrapped "failed to find albums: " (.wrapped "search failed: " cause),
      .wrapped "search failed: " cause, ?_, rfl, rfl, rfl⟩
    unfold PlayRandomEpisodes
    rw [if_neg (by omega),
      findMatchingAlbums_search_fail lib c t searchQuery pattern regex cause hre hsearch]

/-- C11 as amended, on a player out of reach. -/
theorem PlayRandomEpisodes_search_first_witness :
    (∃ rest, (PlayRandomEpisodes sampleLib offlinePlayer (fun k => k) [] "A State of Trance"
        "^ASOT " 3).2 = [] ++ .search "A State of Trance" :: rest) ∧
    ∀ cause, offlinePlayer.search [] "A State of Trance" = .error cause →
      ∃ e1 e2, PlayRandomEpisodes sampleLib offlinePlayer (fun k => k) [] "A State of Trance"
          "^ASOT " 3 = (.returned (some e1), [] ++ [.search "A State of Trance"]) ∧
        e1.Unwrap = some e2 ∧ e2.Unwrap = some cause ∧
        e1.Error = "failed to find albums: " ++ ("search failed: " ++ cause.Error) :=
  PlayRandomEpisodes_search_first sampleLib offlinePlayer (fun k => k) [] "A State of Trance"
    "^ASOT " 3 (fun s => "ASOT ".toList.isPrefixOf s.toList) (by decide) rfl

/-- C11 as stated fails. The pattern `(` is not valid and the player is out of
reach, so that a search would fail: the run issues no request at all, its first
request is not the search, and the error is that of the pattern, not a search
error wrapping `connection refused`. -/
theorem invalid_pattern_skips_search :
    PlayRandomEpisodes sampleLib offlinePlayer (fun k => k) [] "A State of Trance" "(" 3 =
      (.returned (some (.wrapped "failed to find albums: "
        (.wrapped "invalid regex pattern: " (.plain "error parsing regexp")))), []) ∧
    offlinePlayer.search [] "A State of Trance" = .error (.plain "connection refused") ∧
    ¬ ∃ rest, (PlayRandomEpisodes sampleLib offlinePlayer (fun k => k) [] "A State of Trance"
      "(" 3).2 = [] ++ .search "A State of Trance" :: rest := by
  refine ⟨by decide, rfl, ?_⟩
  rintro ⟨rest, h⟩
  have h0 : (PlayRandomEpisodes sampleLib offlinePlayer (fun k => k) [] "A State of Trance"
      "(" 3).2 = [] := by decide
  rw [h0] at h
  simp at h

end Volu

namespace Volu

/-! ## The sequencer: rejected requests -/

/-- C12. For every pattern that `regexp.Compile` rejects, every query and every
count of at least 1: `findMatchingAlbums` returns the error
`invalid regex pattern: <cause>` and no entries, having issued no request, and
`PlayRandomEpisodes` returns that error wrapped with `failed to find albums: `,
with no event at all: no search, no state read, no toggle, no queuing request. -/
theorem PlayRandomEpisodes_invalid_pattern_rejected (lib : Stdlib) (c : Client) (r : Rng)
    (t : List Event) (searchQuery pattern : String) (count : Int) (cause : GoError)
    (hcount : 1 ≤ count) (hre : lib.regexpCompile pattern = .error cause) :
    ∃ e, findMatchingAlbums lib c t searchQuery pattern = (.error e, t) ∧
      e.Unwrap = some cause ∧ e.Error = "invalid regex pattern: " ++ cause.Error ∧
      PlayRandomEpisodes lib c r t searchQuery pattern count =
        (.returned (some (.wrapped "failed to find albums: " e)), t) ∧
      (PlayRandomEpisodes lib c r t searchQuery pattern count).2.drop t.length = [] := by
  refine ⟨.wrapped "invalid regex pattern: " cause, ?_, rfl, rfl, ?_, ?_⟩
  · unfold findMatchingAlbums
    rw [hre]
  · exact PlayRandomEpisodes_invalid_pattern lib c r t searchQuery pattern count cause hcount hre
  · rw [PlayRandomEpisodes_invalid_pattern lib c r t searchQuery pattern count cause hcount hre]
    simp

/-- C12 on the pattern `(`, which the sample library rejects. -/
theorem PlayRandomEpisodes_invalid_pattern_rejected_witness :
    ∃ e, findMatchingAlbums sampleLib (samplePlayer sampleAlbums true none) []
        "A State of Trance" "(" = (.error e, []) ∧
      e.Unwrap = some (.plain "error parsing regexp") ∧
      e.Error = "invalid regex pattern: " ++ (GoError.plain "error parsing regexp").Error ∧
      PlayRandomEpisodes sampleLib (samplePlayer sampleAlbums true none) (fun k => k) []
          "A State of Trance" "(" 3 =
        (.returned (some (.wrapped "failed to find albums: " e)), []) ∧
      (PlayRandomEpisodes sampleLib (samplePlayer sampleAlbums true none) (fun k => k) []
          "A State of Trance" "(" 3).2.drop ([] : List Event).length = [] :=
  PlayRandomEpisodes_invalid_pattern_rejected sampleLib (samplePlayer sampleAlbums true none)
    (fun k => k) [] "A State of Trance" "(" 3 (.plain "error parsing regexp") (by decide) rfl

/-- C13. For every query, every pattern, valid or not, and every count below 1,
`PlayRandomEpisodes` returns the error `count must be at least 1` and issues no
request at all: its events are those before the call. -/
theorem PlayRandomEpisodes_count_rejected (lib : Stdlib) (c : Client) (r : Rng)
    (t : List Event) (searchQuery pattern : String) (count : Int) (hcount : count < 1) :
    ∃ e, PlayRandomEpisodes lib c r t searchQuery pattern count = (.returned (some e), t) ∧
      e.Error = "count must be at least 1" ∧
      (PlayRandomEpisodes lib c r t searchQuery pattern count).2.drop t.length = [] := by
  have h := PlayRandomEpisodes_count_lt lib c r t searchQuery pattern count hcount
  refine ⟨.plain "count must be at least 1", h, rfl, ?_⟩
  rw [h]
  simp

/-- C13 on a count of 0 and on a negative count with an invalid pattern. -/
theorem PlayRandomEpisodes_count_rejected_witness :
    (∃ e, PlayRandomEpisodes sampleLib (samplePlayer sampleAlbums true none) (fun k => k) []
        "A State of Trance" "^ASOT " 0 = (.returned (some e), []) ∧
      e.Error = "count must be at least 1" ∧
      (PlayRandomEpisodes sampleLib (samplePlayer sampleAlbums true none) (fun k => k) []
        "A State of Trance" "^ASOT " 0).2.drop ([] : List Event).length = []) ∧
    (∃ e, PlayRandomEpisodes sampleLib offlinePlayer (fun k => k) [] "A State of Trance" "(" (-2) =
        (.returned (some e), []) ∧
      e.Error = "count must be at least 1" ∧
      (PlayRandomEpisodes sampleLib offlinePlayer (fun k => k) [] "A State of Trance" "("
        (-2)).2.drop ([] : List Event).length = []) :=
  ⟨PlayRandomEpisodes_count_rejected sampleLib (samplePlayer sampleAlbums true none) (fun k => k)
      [] "A State of Trance" "^ASOT " 0 (by decide),
    PlayRandomEpisodes_count_rejected sampleLib offlinePlayer (fun k => k) [] "A State of Trance"
      "(" (-2) (by decide)⟩

end Volu

namespace Volu

/-! ## The sequencer: failures of mode enforcement -/

/-- A failed state read is the error of `ensureShuffleOff`. -/
theorem ensureShuffleOff_read_fail (c : Client) (t : List Event) (cause : GoError)
    (h : c.getState t = .error cause) :
    ensureShuffleOff c t = (some cause, t ++ [.getState]) := by
  unfold ensureShuffleOff
  rw [h]

/-- A refused toggle is the error of `ensureShuffleOff`. -/
theorem ensureShuffleOff_toggle_fail (c : Client) (t : List Event) (state : PlayerState)
    (cause : GoError) (hstate : c.getState t = .ok state) (hr : state.Random = true)
    (htoggle : c.toggleRandom (t ++ [.getState]) = some cause) :
    ensureShuffleOff c t = (some cause, t ++ [.getState] ++ [.toggleRandom]) := by
  unfold ensureShuffleOff
  rw [hstate]
  simp only [hr, if_true, htoggle]

/-- A run whose mode enforcement fails returns its error wrapped and stops. -/
theorem PlayRandomEpisodes_mode_fail (lib : Stdlib) (c : Client) (r : Rng) (t t2 : List Event)
    (searchQuery pattern : String) (count : Int) (found selected : List BrowseItem)
    (err : GoError) (hcount : 1 ≤ count)
    (hfind : (findMatchingAlbums lib c t searchQuery pattern).1 = .ok found)
    (hne : found ≠ [])
    (hsel : randomSelect found count r = some selected)
    (hmode : ensureShuffleOff c (t ++ [.search searchQuery]) = (some err, t2)) :
    PlayRandomEpisodes lib c r t searchQuery pattern count =
      (.returned (some (.wrapped "failed to disable shuffle: " err)), t2) := by
  have hlen : found.length ≠ 0 := fun h => hne (List.length_eq_zero.mp h)
  unfold PlayRandomEpisodes
  rw [if_neg (by omega), findMatchingAlbums_trace lib c t searchQuery pattern found hfind]
  simp only [if_neg hlen, hsel, hmode]

/-- A run one of whose events is not the search has found entries and selected
among them. -/
theorem PlayRandomEpisodes_reaches (lib : Stdlib) (c : Client) (r : Rng) (t : List Event)
    (searchQuery pattern : String) (count : Int) (e : Event) (he : e ≠ .search searchQuery)
    (hmem : e ∈ (PlayRandomEpisodes lib c r t searchQuery pattern count).2.drop t.length) :
    ∃ found selected, 1 ≤ count ∧
      (findMatchingAlbums lib c t searchQuery pattern).1 = .ok found ∧ found ≠ [] ∧
      randomSelect found count r = some selected := by
  rcases PlayRandomEpisodes_cases lib c r t searchQuery pattern count with h | h | h
  · rw [h] at hmem
    simp at hmem
  · rw [h] at hmem
    simp only [List.drop_left, List.mem_singleton] at hmem
    exact absurd hmem he
  · exact h

/-- C14. In a run of `PlayRandomEpisodes` that reaches mode enforcement, if the
state read fails, or the state reports shuffle enabled and the toggle is refused,
the run fails with the error `failed to disable shuffle: <cause>`, which wraps
the cause, and no replace-and-play or add-to-queue request is issued: the events
of the run are the search and the state read, followed by the toggle in the
second case. -/
theorem PlayRandomEpisodes_mode_failure (lib : Stdlib) (c : Client) (r : Rng) (t : List Event)
    (searchQuery pattern : String) (count : Int) (cause : GoError)
    (hreach : Event.getState ∈
      (PlayRandomEpisodes lib c r t searchQuery pattern count).2.drop t.length)
    (hfail : c.getState (t ++ [.search searchQuery]) = .error cause ∨
      ∃ state, c.getState (t ++ [.search searchQuery]) = .ok state ∧ state.Random = true ∧
        c.toggleRandom (t ++ [.search searchQuery] ++ [.getState]) = some cause) :
    ∃ e, (PlayRandomEpisodes lib c r t searchQuery pattern count).1 = .returned (some e) ∧
      e.Unwrap = some cause ∧ e.Error = "failed to disable shuffle: " ++ cause.Error ∧
      (∀ ev ∈ (PlayRandomEpisodes lib c r t searchQuery pattern count).2.drop t.length,
        ev.isQueuing = false) ∧
      ((PlayRandomEpisodes lib c r t searchQuery pattern count).2.drop t.length =
          [.search searchQuery, .getState] ∨
        (PlayRandomEpisodes lib c r t searchQuery pattern count).2.drop t.length =
          [.search searchQuery, .getState, .toggleRandom]) := by
  obtain ⟨found, selected, hcount, hfind, hne, hsel⟩ :=
    PlayRandomEpisodes_reaches lib c r t searchQuery pattern count .getState (by simp) hreach
  refine ⟨.wrapped "failed to disable shuffle: " cause, ?_⟩
  rcases hfail with hread | ⟨state, hstate, hr, htoggle⟩
  · have hrun := PlayRandomEpisodes_mode_fail lib c r t _ searchQuery pattern count found selected
      cause hcount hfind hne hsel (ensureShuffleOff_read_fail c _ cause hread)
    rw [hrun]
    refine ⟨rfl, rfl, rfl, fun ev hev => ?_, Or.inl (by simp)⟩
    have hd : (t ++ [Event.search searchQuery] ++ [Event.getState]).drop t.length =
        [Event.search searchQuery, Event.getState] := by simp
    rw [hd] at hev
    simp only [List.mem_cons, List.mem_singleton, List.not_mem_nil, or_false] at hev
    rcases hev with h | h <;> rw [h] <;> rfl
  · have hrun := PlayRandomEpisodes_mode_fail lib c r t _ searchQuery pattern count found selected
      cause hcount hfind hne hsel (ensureShuffleOff_toggle_fail c _ state cause hstate hr htoggle)
    rw [hrun]
    refine ⟨rfl, rfl, rfl, fun ev hev => ?_, Or.inr (by simp)⟩
    have hd : (t ++ [Event.search searchQuery] ++ [Event.getState] ++
        [Event.toggleRandom]).drop t.length =
        [Event.search searchQuery, Event.getState, Event.toggleRandom] := by simp
    rw [hd] at hev
    simp only [List.mem_cons, List.mem_singleton, List.not_mem_nil, or_false] at hev
    rcases hev with h | h | h <;> rw [h] <;> rfl

/-- C14 on a player that refuses the toggle. -/
theorem PlayRandomEpisodes_mode_failure_witness :
    ∃ e, (PlayRandomEpisodes sampleLib (stuckPlayer sampleAlbums) (fun k => k) []
        "A State of Trance" "^ASOT " 3).1 = .returned (some e) ∧
      e.Unwrap = some (.plain "timeout") ∧
      e.Error = "failed to disable shuffle: " ++ (GoError.plain "timeout").Error ∧
      (∀ ev ∈ (PlayRandomEpisodes sampleLib (stuckPlayer sampleAlbums) (fun k => k) []
          "A State of Trance" "^ASOT " 3).2.drop ([] : List Event).length,
        ev.isQueuing = false) ∧
      ((PlayRandomEpisodes sampleLib (stuckPlayer sampleAlbums) (fun k => k) []
          "A State of Trance" "^ASOT " 3).2.drop ([] : List Event).length =
          [.search "A State of Trance", .getState] ∨
        (PlayRandomEpisodes sampleLib (stuckPlayer sampleAlbums) (fun k => k) []
          "A State of Trance" "^ASOT " 3).2.drop ([] : List Event).length =
          [.search "A State of Trance", .getState, .toggleRandom]) :=
  PlayRandomEpisodes_mode_failure sampleLib (stuckPlayer sampleAlbums) (fun k => k) []
    "A State of Trance" "^ASOT " 3 (.plain "timeout") (by decide)
    (Or.inr ⟨sampleState true, rfl, rfl, rfl⟩)

end Volu

namespace Volu

/-! ## The sequencer: the state is read once -/

/-- C15, as the code has it. Whenever a run of `PlayRandomEpisodes` issues the
corrective shuffle toggle, the player state has been read exactly once in the
run, before the toggle: the events are the search, the state read, the toggle
and then, unless the toggle is refused and the run stops, a sleep of 300 ms
followed by queuing requests and sleeps only. No state read follows the
toggle. -/
theorem PlayRandomEpisodes_single_state_read (lib : Stdlib) (c : Client) (r : Rng)
    (t : List Event) (searchQuery pattern : String) (count : Int)
    (htoggle : Event.toggleRandom ∈
      (PlayRandomEpisodes lib c r t searchQuery pattern count).2.drop t.length) :
    ∃ post, (PlayRandomEpisodes lib c r t searchQuery pattern count).2.drop t.length =
        [.search searchQuery, .getState, .toggleRandom] ++ post ∧
      Event.getState ∉ post ∧
      ((PlayRandomEpisodes lib c r t searchQuery pattern count).2.drop t.length).count
        .getState = 1 ∧
      (post = [] ∨ ∃ ev, post = .sleep 300 :: ev ∧
        ∀ e ∈ ev, e.isQueuing = true ∨ e.isSleep = true) := by
  obtain ⟨found, selected, hcount, hfind, hne, hsel⟩ :=
    PlayRandomEpisodes_reaches lib c r t searchQuery pattern count .toggleRandom (by simp) htoggle
  have hnot : ∀ (x : Event) (ev : List Event), x.isQueuing = false → x.isSleep = false →
      (∀ e ∈ ev, e.isQueuing = true ∨ e.isSleep = true) → x ∉ ev := fun x ev h1 h2 hev hmem => by
    rcases hev _ hmem with h | h
    · rw [h1] at h
      exact absurd h (by simp)
    · rw [h2] at h
      exact absurd h (by simp)
  have hrun := PlayRandomEpisodes_events lib c r t searchQuery pattern count found selected
    hcount hfind hne hsel
  cases hread : c.getState (t ++ [.search searchQuery]) with
  | error cause =>
    rw [ensureShuffleOff_read_fail c _ cause hread] at hrun
    simp only at hrun
    rw [hrun] at htoggle
    simp at htoggle
  | ok state =>
    by_cases hr : state.Random = true
    · cases htog : c.toggleRandom (t ++ [.search searchQuery] ++ [.getState]) with
      | some cause =>
        rw [ensureShuffleOff_toggle_fail c _ state cause hread hr htog] at hrun
        simp only at hrun
        have hdrop : (PlayRandomEpisodes lib c r t searchQuery pattern count).2.drop t.length =
            [.search searchQuery, .getState, .toggleRandom] ++ [] := by
          rw [hrun]
          simp
        refine ⟨[], hdrop, by simp, ?_, Or.inl rfl⟩
        rw [hdrop]
        simp [List.count_cons]
      | none =>
        rw [ensureShuffleOff_ok c _ state hread (fun _ => htog)] at hrun
        simp only at hrun
        obtain ⟨ev, hev, hall⟩ := queueAlbums_events lib c
          (t ++ [.search searchQuery] ++ modeEvents state) selected
        have hpost : Event.getState ∉ Event.sleep 300 :: ev := by
          simp only [List.mem_cons, not_or]
          exact ⟨by simp, hnot .getState ev rfl rfl hall⟩
        have hdrop : (PlayRandomEpisodes lib c r t searchQuery pattern count).2.drop t.length =
            [.search searchQuery, .getState, .toggleRandom] ++ (.sleep 300 :: ev) := by
          rw [hrun, hev]
          simp [modeEvents, hr]
        refine ⟨.sleep 300 :: ev, hdrop, hpost, ?_, Or.inr ⟨ev, rfl, hall⟩⟩
        rw [hdrop, List.count_append, List.count_eq_zero_of_not_mem hpost]
        simp [List.count_cons]
    · rw [ensureShuffleOff_ok c _ state hread (fun h => absurd h hr)] at hrun
      simp only at hrun
      obtain ⟨ev, hev, hall⟩ := queueAlbums_events lib c
        (t ++ [.search searchQuery] ++ modeEvents state) selected
      rw [hrun, hev] at htoggle
      simp only [modeEvents, hr, List.append_assoc, List.drop_left] at htoggle
      simp only [Bool.false_eq_true, if_false, List.mem_append, List.mem_singleton,
        List.mem_cons, List.not_mem_nil, or_false] at htoggle
      rcases htoggle with h | h | h
      · exact absurd h (by simp)
      · exact absurd h (by simp)
      · exact absurd h (hnot .toggleRandom ev rfl rfl hall)

/-- C15 as amended, on the running example with shuffle enabled. -/
theorem PlayRandomEpisodes_single_state_read_witness :
    ∃ post, (PlayRandomEpisodes sampleLib (samplePlayer sampleAlbums true none) (fun k => k) []
          "A State of Trance" "^ASOT " 3).2.drop ([] : List Event).length =
        [.search "A State of Trance", .getState, .toggleRandom] ++ post ∧
      Event.getState ∉ post ∧
      ((PlayRandomEpisodes sampleLib (samplePlayer sampleAlbums true none) (fun k => k) []
          "A State of Trance" "^ASOT " 3).2.drop ([] : List Event).length).count
        .getState = 1 ∧
      (post = [] ∨ ∃ ev, post = .sleep 300 :: ev ∧
        ∀ e ∈ ev, e.isQueuing = true ∨ e.isSleep = true) :=
  PlayRandomEpisodes_single_state_read sampleLib (samplePlayer sampleAlbums true none)
    (fun k => k) [] "A State of Trance" "^ASOT " 3 (by decide)

/-- C15 as stated fails. With shuffle enabled and two matching albums the run
toggles shuffle, sleeps and queues: the state is read once, before the toggle,
and from the toggle on no state read is among the events. -/
theorem no_state_read_after_toggle :
    PlayRandomEpisodes sampleLib (samplePlayer sampleAlbums true none) (fun k => k) []
        "A State of Trance" "^ASOT " 3 =
      (.returned none,
        [.search "A State of Trance", .getState, .toggleRandom, .sleep 300,
          .replaceAndPlay "music-library/ASOT 901" "mpd", .sleep 500,
          .addToQueue "music-library/ASOT 900" "mpd", .sleep 100]) ∧
    Event.getState ∉
      (PlayRandomEpisodes sampleLib (samplePlayer sampleAlbums true none) (fun k => k) []
        "A State of Trance" "^ASOT " 3).2.dropWhile (fun e => e != .toggleRandom) ∧
    ((PlayRandomEpisodes sampleLib (samplePlayer sampleAlbums true none) (fun k => k) []
        "A State of Trance" "^ASOT " 3).2).count .getState = 1 := by
  refine ⟨by decide, by decide, by decide⟩

end Volu

namespace Volu

/-! ## The sequencer: the selection is never empty -/

/-- An error of the appending loop is a wrapped one. -/
theorem queueLoop_error (lib : Stdlib) (c : Client) :
    ∀ (rest : List BrowseItem) (t : List Event) (e : GoError),
      (queueLoop lib c rest t).1 = some e → ∃ pre cause, e = .wrapped pre cause
  | [], t, e, h => by simp [queueLoop] at h
  | b :: rest, t, e, h => by
    cases hq : c.addToQueue t b.URI b.Service with
    | some err =>
      simp only [queueLoop, hq, Option.some.injEq] at h
      exact ⟨_, _, h.symm⟩
    | none =>
      simp only [queueLoop, hq] at h
      exact queueLoop_error lib c rest _ e h

/-- On a sequence that is not empty an error of `queueAlbums` is a wrapped one:
it is not `no albums to queue`. -/
theorem queueAlbums_error (lib : Stdlib) (c : Client) (t : List Event)
    (albums : List BrowseItem) (hne : albums ≠ []) (e : GoError)
    (h : (queueAlbums lib c t albums).1 = some e) : ∃ pre cause, e = .wrapped pre cause := by
  cases albums with
  | nil => exact absurd rfl hne
  | cons first rest =>
    cases hq : c.replaceAndPlay t first.URI first.Service with
    | some err =>
      simp only [queueAlbums, hq, Option.some.injEq] at h
      exact ⟨_, _, h.symm⟩
    | none =>
      simp only [queueAlbums, hq] at h
      exact queueLoop_error lib c rest _ e h

/-- On candidates that are not empty and for a count of at least 1, the
selection is not empty. -/
theorem randomSelect_nonempty (albums : List BrowseItem) (count : Int) (r : Rng)
    (hne : albums ≠ []) (hcount : 1 ≤ count) :
    ∃ selected, randomSelect albums count r = some selected ∧ selected ≠ [] := by
  obtain ⟨selected, hs, hlen⟩ := randomSelect_length albums count r (by omega)
  refine ⟨selected, hs, fun h => ?_⟩
  have hpos : 0 < albums.length := List.length_pos.mpr hne
  rw [h] at hlen
  simp at hlen
  omega

/-- C16. For every match list that is not empty, every count of at least 1 and
every state of the random generator, `randomSelect` returns a sequence that is
not empty, which is the sequence queued by any run that finds this match list;
so the branch `no albums to queue` of `queueAlbums` is not reachable from
`PlayRandomEpisodes`: no run, whatever its arguments and the player, ends with
that error. -/
theorem PlayRandomEpisodes_selection_nonempty (albums : List BrowseItem) (count : Int) (r : Rng)
    (hne : albums ≠ []) (hcount : 1 ≤ count) :
    (∃ selected, randomSelect albums count r = some selected ∧ selected ≠ [] ∧
      ∀ (lib : Stdlib) (c : Client) (t : List Event) (searchQuery pattern : String),
        (findMatchingAlbums lib c t searchQuery pattern).1 = .ok albums →
        (PlayRandomEpisodes lib c r t searchQuery pattern count).2 =
          match ensureShuffleOff c (t ++ [.search searchQuery]) with
          | (some _, t2) => t2
          | (none, t2) => (queueAlbums lib c t2 selected).2) ∧
    ∀ (lib : Stdlib) (c : Client) (r1 : Rng) (t : List Event) (searchQuery pattern : String)
      (count1 : Int),
      (PlayRandomEpisodes lib c r1 t searchQuery pattern count1).1 ≠
        .returned (some (.wrapped "failed to queue albums: " (.plain "no albums to queue"))) := by
  obtain ⟨selected, hs, hsne⟩ := randomSelect_nonempty albums count r hne hcount
  refine ⟨⟨selected, hs, hsne, fun lib c t searchQuery pattern hfind =>
    PlayRandomEpisodes_events lib c r t searchQuery pattern count albums selected hcount hfind
      hne hs⟩, ?_⟩
  intro lib c r1 t searchQuery pattern count1 hrun
  by_cases hc : count1 < 1
  · rw [PlayRandomEpisodes_count_lt lib c r1 t searchQuery pattern count1 hc] at hrun
    simp at hrun
  · unfold PlayRandomEpisodes at hrun
    rw [if_neg hc] at hrun
    generalize findMatchingAlbums lib c t searchQuery pattern = fm at hrun
    rcases fm with ⟨_ | found, t1⟩
    · simp at hrun
    · simp only at hrun
      by_cases hlen : found.length = 0
      · simp [hlen] at hrun
      · simp only [if_neg hlen] at hrun
        obtain ⟨sel1, hs1, hne1⟩ := randomSelect_nonempty found count1 r1
          (fun h => hlen (by rw [h]; rfl)) (by omega)
        rw [hs1] at hrun
        simp only at hrun
        generalize ensureShuffleOff c t1 = m at hrun
        rcases m with ⟨_ | err, t2⟩
        · simp only at hrun
          cases hq : queueAlbums lib c t2 sel1 with
          | mk res t3 =>
            cases res with
            | none => simp [hq] at hrun
            | some e =>
              obtain ⟨pre, cause, he⟩ := queueAlbums_error lib c t2 sel1 hne1 e (by rw [hq])
              rw [hq, he] at hrun
              simp at hrun
        · simp at hrun

/-- C16 on the running example, one episode asked for. -/
theorem PlayRandomEpisodes_selection_nonempty_witness :
    (∃ selected, randomSelect sampleAlbums 1 (fun k => k) = some selected ∧ selected ≠ [] ∧
      ∀ (lib : Stdlib) (c : Client) (t : List Event) (searchQuery pattern : String),
        (findMatchingAlbums lib c t searchQuery pattern).1 = .ok sampleAlbums →
        (PlayRandomEpisodes lib c (fun k => k) t searchQuery pattern 1).2 =
          match ensureShuffleOff c (t ++ [.search searchQuery]) with
          | (some _, t2) => t2
          | (none, t2) => (queueAlbums lib c t2 selected).2) ∧
    ∀ (lib : Stdlib) (c : Client) (r1 : Rng) (t : List Event) (searchQuery pattern : String)
      (count1 : Int),
      (PlayRandomEpisodes lib c r1 t searchQuery pattern count1).1 ≠
        .returned (some (.wrapped "failed to queue albums: " (.plain "no albums to queue"))) :=
  PlayRandomEpisodes_selection_nonempty sampleAlbums 1 (fun k => k) (by decide) (by decide)

end Volu

namespace Volu

/-! ## volumio: the search for local albums -/
theorem toLower_eq (c : Char) : toLower c = c.toLower := by
  unfold toLower Char.toLower
  have h1 : c ≥ 'A' ↔ c.toNat ≥ 65 := by
    show 'A' ≤ c ↔ _
    rw [Char.le_def, UInt32.le_def]
    rfl
  have h2 : c ≤ 'Z' ↔ c.toNat ≤ 90 := by
    rw [Char.le_def, UInt32.le_def]
    rfl
  simp only [h1, h2]
  rfl

theorem matchAt_iff (b substr : List Char) (i : Nat) :
    ∀ (n j : Nat), matchAt b substr i n j = true ↔ ∀ k, k < n → b[i + (j + k)]? = substr[j + k]?
  | 0, j => by simp [matchAt]
  | n + 1, j => by
    unfold matchAt
    by_cases h : b[i + j]? = substr[j]?
    · simp only [ne_eq, h, not_true_eq_false, if_false, matchAt_iff b substr i n (j + 1)]
      constructor
      · intro hk k hk1
        cases k with
        | zero => simpa using h
        | succ k =>
          have := hk k (by omega)
          rwa [show j + 1 + k = j + (k + 1) by omega] at this
      · intro hk k hk1
        have := hk (k + 1) (by omega)
        rwa [show j + (k + 1) = j + 1 + k by omega] at this
    · simp only [ne_eq, h, not_false_eq_true, if_true, Bool.false_eq_true, false_iff]
      intro hk
      exact h (by simpa using hk 0 (by omega))

theorem bytesContainsLoop_iff (b substr : List Char) :
    ∀ (n i : Nat), bytesContainsLoop b substr n i = true ↔
      ∃ o, i ≤ o ∧ o < i + n ∧ matchAt b substr o substr.length 0 = true
  | 0, i => by
    simp only [bytesContainsLoop, Bool.false_eq_true, false_iff]
    rintro ⟨o, h1, h2, _⟩
    omega
  | n + 1, i => by
    unfold bytesContainsLoop
    by_cases h : matchAt b substr i substr.length 0 = true
    · rw [if_pos h]
      simp only [true_iff]
      exact ⟨i, Nat.le_refl i, by omega, h⟩
    · rw [if_neg h, bytesContainsLoop_iff b substr n (i + 1)]
      constructor
      · rintro ⟨o, h1, h2, h3⟩
        exact ⟨o, by omega, by omega, h3⟩
      · rintro ⟨o, h1, h2, h3⟩
        have hne : o ≠ i := fun e => h (e ▸ h3)
        exact ⟨o, by omega, by omega, h3⟩

theorem bytesContains_iff (b substr : List Char) :
    bytesContains b substr = true ↔ substr <:+: b := by
  unfold bytesContains
  by_cases h0 : substr.length = 0
  · simp only [h0, if_true, true_iff]
    rw [List.length_eq_zero.mp h0]
    exact List.nil_infix
  · by_cases h1 : substr.length > b.length
    · simp only [h0, h1, if_true, if_false, Bool.false_eq_true, false_iff]
      intro hin
      have := hin.length_le
      omega
    · simp only [h0, h1, if_false, bytesContainsLoop_iff, matchAt_iff, List.isInfix_iff]
      constructor
      · rintro ⟨o, _, ho, hm⟩
        refine ⟨o, by omega, fun i hi => ?_⟩
        have := hm i hi
        rw [Nat.zero_add] at this
        rw [Nat.add_comm, this, List.getElem?_eq_getElem hi]
      · rintro ⟨k, hk, hm⟩
        refine ⟨k, Nat.zero_le k, by omega, fun i hi => ?_⟩
        rw [Nat.zero_add, Nat.add_comm, hm i hi, List.getElem?_eq_getElem hi]

/-- The function `containsIgnoreCase` decides whether the needle occurs in the
string as a contiguous run of characters, both lowered in their ASCII letters. -/
theorem containsIgnoreCase_iff (s substr : String) :
    containsIgnoreCase s substr = true ↔
      substr.toList.map Char.toLower <:+: s.toList.map Char.toLower := by
  unfold containsIgnoreCase
  rw [bytesContains_iff]
  have h : toLower = Char.toLower := funext toLower_eq
  rw [h]

/-- The item loop of `SearchAlbums` appends the local albums, in order. -/
theorem albumsLoop_eq :
    ∀ (items acc : List BrowseItem),
      albumsLoop items acc =
        acc ++ items.filter (fun item => decide (item.Type_ = "folder" ∧ item.Service = "mpd"))
  | [], acc => by simp [albumsLoop]
  | item :: rest, acc => by
    by_cases h : item.Type_ = "folder" ∧ item.Service = "mpd"
    · simp [albumsLoop, h, albumsLoop_eq rest, List.filter_cons]
    · have hd : decide (item.Type_ = "folder" ∧ item.Service = "mpd") = false :=
        decide_eq_false h
      rw [albumsLoop, if_neg h, albumsLoop_eq rest, List.filter_cons, hd]
      simp

/-- The list loop of `SearchAlbums` takes the first list that qualifies. -/
theorem searchAlbumsLoop_eq :
    ∀ lists : List SearchList,
      searchAlbumsLoop lists =
        match lists.find? (fun l =>
          containsIgnoreCase l.Title "Albums" && !containsIgnoreCase l.Title "TIDAL") with
        | some l => l.Items.filter (fun item => decide (item.Type_ = "folder" ∧ item.Service = "mpd"))
        | none => []
  | [] => rfl
  | l :: rest => by
    by_cases h : containsIgnoreCase l.Title "Albums" = true ∧
        ¬ containsIgnoreCase l.Title "TIDAL" = true
    · have hb : (containsIgnoreCase l.Title "Albums" && !containsIgnoreCase l.Title "TIDAL")
          = true := by simpa using h
      rw [searchAlbumsLoop, if_pos h, List.find?_cons, albumsLoop_eq]
      simp only [hb, List.nil_append]
    · have hb : (containsIgnoreCase l.Title "Albums" && !containsIgnoreCase l.Title "TIDAL")
          = false := by
        rw [← Bool.not_eq_true]
        simpa using h
      rw [searchAlbumsLoop, if_neg h, List.find?_cons, searchAlbumsLoop_eq rest]
      simp only [hb]

end Volu

namespace Volu

/-- C17. For every search response, `SearchAlbums` returns, with no error, the
local albums only: in their original order, exactly the items with type `folder`
and service `mpd` of the first list whose title contains `Albums` and does not
contain `TIDAL`, where a title contains a word when the word occurs in it as a
contiguous run of characters, ASCII letters compared without case; when no list
qualifies the result is empty. Hence every returned item is of service `mpd`,
none of TIDAL. -/
theorem SearchAlbums_local_albums (c : Client) (t : List Event) (query : String)
    (response : SearchResponse) (hsearch : c.search t query = .ok response) :
    ∃ out, SearchAlbums c t query = (.ok out, t ++ [.search query]) ∧
      out = (match response.Lists.find? (fun l =>
          decide ("Albums".toList.map Char.toLower <:+: l.Title.toList.map Char.toLower) &&
          !decide ("TIDAL".toList.map Char.toLower <:+: l.Title.toList.map Char.toLower)) with
        | some l =>
          l.Items.filter (fun item => decide (item.Type_ = "folder" ∧ item.Service = "mpd"))
        | none => []) ∧
      (∀ item ∈ out, item.Type_ = "folder" ∧ item.Service = "mpd" ∧ item.Service ≠ "tidal") ∧
      ((∀ l ∈ response.Lists,
          ¬ ("Albums".toList.map Char.toLower <:+: l.Title.toList.map Char.toLower) ∨
          "TIDAL".toList.map Char.toLower <:+: l.Title.toList.map Char.toLower) → out = []) := by
  have hq : (fun l : SearchList =>
        containsIgnoreCase l.Title "Albums" && !containsIgnoreCase l.Title "TIDAL") =
      (fun l : SearchList =>
        decide ("Albums".toList.map Char.toLower <:+: l.Title.toList.map Char.toLower) &&
        !decide ("TIDAL".toList.map Char.toLower <:+: l.Title.toList.map Char.toLower)) := by
    funext l
    have h1 := containsIgnoreCase_iff l.Title "Albums"
    have h2 := containsIgnoreCase_iff l.Title "TIDAL"
    rw [Bool.eq_iff_iff]
    simp only [Bool.and_eq_true, Bool.not_eq_true', decide_eq_true_eq, decide_eq_false_iff_not,
      h1, ← Bool.not_eq_true, h2]
  have hrun : SearchAlbums c t query =
      (.ok (searchAlbumsLoop response.Lists), t ++ [.search query]) := by
    unfold SearchAlbums
    rw [hsearch]
  rw [searchAlbumsLoop_eq, hq] at hrun
  refine ⟨_, hrun, rfl, ?_, ?_⟩
  · intro item hitem
    cases hf : response.Lists.find? (fun l =>
        decide ("Albums".toList.map Char.toLower <:+: l.Title.toList.map Char.toLower) &&
        !decide ("TIDAL".toList.map Char.toLower <:+: l.Title.toList.map Char.toLower)) with
    | none =>
      rw [hf] at hitem
      simp at hitem
    | some l =>
      rw [hf] at hitem
      have h := (List.mem_filter.mp hitem).2
      have h' := of_decide_eq_true h
      exact ⟨h'.1, h'.2, by rw [h'.2]; decide⟩
  · intro hall
    have hnone : response.Lists.find? (fun l =>
        decide ("Albums".toList.map Char.toLower <:+: l.Title.toList.map Char.toLower) &&
        !decide ("TIDAL".toList.map Char.toLower <:+: l.Title.toList.map Char.toLower)) = none := by
      rw [List.find?_eq_none]
      intro l hl hb
      rw [Bool.and_eq_true] at hb
      have ha := of_decide_eq_true hb.1
      have hn : ¬ ("TIDAL".toList.map Char.toLower <:+: l.Title.toList.map Char.toLower) := by
        intro hin
        have hd := hb.2
        rw [decide_eq_true hin] at hd
        exact absurd hd (by decide)
      rcases hall l hl with h | h
      · exact h ha
      · exact hn h
    rw [hnone]

/-- C17 on a response with a TIDAL list before the local one, which also holds a
track: the three local albums are returned. -/
theorem SearchAlbums_local_albums_witness :
    (SearchAlbums (samplePlayer sampleAlbums true none) [] "A State of Trance").1 =
      .ok sampleAlbums ∧
    ∃ out, SearchAlbums (samplePlayer sampleAlbums true none) [] "A State of Trance" =
        (.ok out, [] ++ [.search "A State of Trance"]) ∧
      out = (match (sampleResponse sampleAlbums).Lists.find? (fun l =>
          decide ("Albums".toList.map Char.toLower <:+: l.Title.toList.map Char.toLower) &&
          !decide ("TIDAL".toList.map Char.toLower <:+: l.Title.toList.map Char.toLower)) with
        | some l =>
          l.Items.filter (fun item => decide (item.Type_ = "folder" ∧ item.Service = "mpd"))
        | none => []) ∧
      (∀ item ∈ out, item.Type_ = "folder" ∧ item.Service = "mpd" ∧ item.Service ≠ "tidal") ∧
      ((∀ l ∈ (sampleResponse sampleAlbums).Lists,
          ¬ ("Albums".toList.map Char.toLower <:+: l.Title.toList.map Char.toLower) ∨
          "TIDAL".toList.map Char.toLower <:+: l.Title.toList.map Char.toLower) → out = []) :=
  ⟨rfl, SearchAlbums_local_albums (samplePlayer sampleAlbums true none) [] "A State of Trance"
    (sampleResponse sampleAlbums) rfl⟩

end Volu

namespace Volu

/-! ## volumio: browse items -/

/-- C18. For every browse item, `DisplayName` is the first non-empty of `Title`,
`Name` and `URI`, in that order: `Title` if it is not empty, otherwise `Name` if
it is not empty, otherwise `URI`, which may be empty. -/
theorem DisplayName_first_nonempty (b : BrowseItem) :
    b.DisplayName = (([b.Title, b.Name, b.URI].find? (fun s => s ≠ "")).getD "") ∧
    (b.Title ≠ "" → b.DisplayName = b.Title) ∧
    (b.Title = "" → b.Name ≠ "" → b.DisplayName = b.Name) ∧
    (b.Title = "" → b.Name = "" → b.DisplayName = b.URI) := by
  unfold BrowseItem.DisplayName
  by_cases h1 : b.Title = ""
  · by_cases h2 : b.Name = ""
    · by_cases h3 : b.URI = ""
      · simp [h1, h2, h3]
      · simp [h1, h2, h3, List.find?_cons]
    · simp [h1, h2, List.find?_cons]
  · simp [h1, List.find?_cons]

/-- C18 on three items: one titled, one only named, one with neither. -/
theorem DisplayName_first_nonempty_witness :
    ({ BrowseItem.zero with Title := "ASOT 900", Name := "asot-900", URI := "u" }).DisplayName
      = "ASOT 900" ∧
    ({ BrowseItem.zero with Name := "asot-900", URI := "u" }).DisplayName = "asot-900" ∧
    ({ BrowseItem.zero with URI := "u" }).DisplayName = "u" ∧
    BrowseItem.zero.DisplayName = "" :=
  ⟨(DisplayName_first_nonempty _).2.1 (by decide),
    (DisplayName_first_nonempty _).2.2.1 rfl (by decide),
    (DisplayName_first_nonempty _).2.2.2 rfl rfl,
    (DisplayName_first_nonempty BrowseItem.zero).2.2.2 rfl rfl⟩

/-- C20. For every browse item, `IsPlayable` is true exactly when its type is
one of `song`, `track`, `webradio`, `folder`, and `IsBrowsable` is true exactly
when its type is one of `folder`, `category`, `playlist-category` or the empty
string; `folder` is the only type that is both. -/
theorem IsPlayable_IsBrowsable_types (b : BrowseItem) :
    (b.IsPlayable = true ↔ b.Type_ ∈ ["song", "track", "webradio", "folder"]) ∧
    (b.IsBrowsable = true ↔ b.Type_ ∈ ["folder", "category", "playlist-category", ""]) ∧
    (b.IsPlayable = true ∧ b.IsBrowsable = true ↔ b.Type_ = "folder") := by
  have hp : b.IsPlayable = true ↔ b.Type_ ∈ ["song", "track", "webradio", "folder"] := by
    simp only [BrowseItem.IsPlayable, Bool.or_eq_true, beq_iff_eq, List.mem_cons,
      List.mem_singleton, List.not_mem_nil, or_false]
    tauto
  have hb : b.IsBrowsable = true ↔
      b.Type_ ∈ ["folder", "category", "playlist-category", ""] := by
    simp only [BrowseItem.IsBrowsable, Bool.or_eq_true, beq_iff_eq, List.mem_cons,
      List.mem_singleton, List.not_mem_nil, or_false]
    tauto
  refine ⟨hp, hb, ?_⟩
  rw [hp, hb]
  constructor
  · rintro ⟨h1, h2⟩
    simp only [List.mem_cons, List.mem_singleton, List.not_mem_nil, or_false] at h1 h2
    rcases h1 with h | h | h | h
    · rw [h] at h2
      exact absurd h2 (by decide)
    · rw [h] at h2
      exact absurd h2 (by decide)
    · rw [h] at h2
      exact absurd h2 (by decide)
    · exact h
  · intro h
    rw [h]
    decide

end Volu

namespace Volu

/-! ## The pattern filter: idempotence -/

/-- C19. Idempotence of the pattern filter. For every candidate list and every
valid pattern, two calls of `findMatchingAlbums` whose searches return the same
candidates yield the same entries in the same order, whatever the player, the
query and the events before each call: the result depends on the candidate list
and the pattern only. Filtering the result once more leaves it unchanged. -/
theorem findMatchingAlbums_idempotent (lib : Stdlib) (c1 c2 : Client) (t1 t2 : List Event)
    (query1 query2 pattern : String) (regex : String → Bool) (albums : List BrowseItem)
    (hre : lib.regexpCompile pattern = .ok regex)
    (h1 : (SearchAlbums c1 t1 query1).1 = .ok albums)
    (h2 : (SearchAlbums c2 t2 query2).1 = .ok albums) :
    ∃ out, (findMatchingAlbums lib c1 t1 query1 pattern).1 = .ok out ∧
      (findMatchingAlbums lib c2 t2 query2 pattern).1 = .ok out ∧
      matchingLoop regex albums [] = out ∧
      matchingLoop regex out [] = out := by
  refine ⟨albums.filter (fun a => regex a.DisplayName), ?_, ?_, ?_, ?_⟩
  · rw [findMatchingAlbums_of_compiled lib c1 t1 query1 pattern regex albums hre h1]
  · rw [findMatchingAlbums_of_compiled lib c2 t2 query2 pattern regex albums hre h2]
  · rw [matchingLoop_eq, List.nil_append]
  · rw [matchingLoop_eq, List.nil_append, List.filter_filter]
    simp

/-- C19 on the running example: two players, two queries, different pasts. -/
theorem findMatchingAlbums_idempotent_witness :
    ∃ out, (findMatchingAlbums sampleLib (samplePlayer sampleAlbums true none) []
        "A State of Trance" "^ASOT ").1 = .ok out ∧
      (findMatchingAlbums sampleLib (stuckPlayer sampleAlbums) [.getState, .sleep 100]
        "asot" "^ASOT ").1 = .ok out ∧
      matchingLoop (fun s => "ASOT ".toList.isPrefixOf s.toList) sampleAlbums [] = out ∧
      matchingLoop (fun s => "ASOT ".toList.isPrefixOf s.toList) out [] = out :=
  findMatchingAlbums_idempotent sampleLib (samplePlayer sampleAlbums true none)
    (stuckPlayer sampleAlbums) [] [.getState, .sleep 100] "A State of Trance" "asot" "^ASOT "
    (fun s => "ASOT ".toList.isPrefixOf s.toList) sampleAlbums rfl rfl rfl

end Volu

namespace Volu

/-! ## volumio: the volume is clamped -/

/-- What `SetVolume` sends: the level clamped to `0..100`. -/
theorem SetVolume_eq (c : Client) (t : List Event) (v : Int) :
    SetVolume c t v =
      (c.command t [("cmd", "volume"), ("volume", toString (max 0 (min 100 v)))],
        t ++ [.command [("cmd", "volume"), ("volume", toString (max 0 (min 100 v)))]]) := by
  have h : (if (if v < 0 then 0 else v) > 100 then 100 else (if v < 0 then 0 else v)) =
      max 0 (min 100 v) := by
    by_cases h0 : v < 0
    · rw [if_pos h0, if_neg (by decide)]
      omega
    · rw [if_neg h0]
      by_cases h1 : v > 100
      · rw [if_pos h1]
        omega
      · rw [if_neg h1]
        omega
  unfold SetVolume
  simp only [h]

/-- C21. For every integer `v`, `SetVolume(v)` issues one request, the command
`cmd=volume` whose parameter `volume` is the decimal rendering of `v` clamped to
`0..100`: 0 when `v < 0`, 100 when `v > 100`, `v` otherwise. Consequently every
volume command sent by `VolumeUp(step)` and `VolumeDown(step)` carries a level
within `0..100`, whatever the state read and the step. -/
theorem SetVolume_clamped (c : Client) (t : List Event) (v : Int) :
    (∃ level : Int, 0 ≤ level ∧ level ≤ 100 ∧
      (v < 0 → level = 0) ∧ (v > 100 → level = 100) ∧ (0 ≤ v → v ≤ 100 → level = v) ∧
      SetVolume c t v =
        (c.command t [("cmd", "volume"), ("volume", toString level)],
          t ++ [.command [("cmd", "volume"), ("volume", toString level)]])) ∧
    (∀ ev ∈ (VolumeUp c t v).2.drop t.length, ev = .getState ∨
      ∃ level : Int, 0 ≤ level ∧ level ≤ 100 ∧
        ev = .command [("cmd", "volume"), ("volume", toString level)]) ∧
    (∀ ev ∈ (VolumeDown c t v).2.drop t.length, ev = .getState ∨
      ∃ level : Int, 0 ≤ level ∧ level ≤ 100 ∧
        ev = .command [("cmd", "volume"), ("volume", toString level)]) := by
  have hset : ∀ (t1 : List Event) (w : Int) (ev : Event),
      ev ∈ (SetVolume c (t ++ [.getState]) w).2.drop t.length → ev = .getState ∨
      ∃ level : Int, 0 ≤ level ∧ level ≤ 100 ∧
        ev = .command [("cmd", "volume"), ("volume", toString level)] := by
    intro _ w ev hev
    rw [SetVolume_eq] at hev
    simp only [List.append_assoc, List.drop_left, List.singleton_append, List.mem_cons,
      List.mem_singleton, List.not_mem_nil, or_false] at hev
    rcases hev with h | h
    · exact Or.inl h
    · exact Or.inr ⟨max 0 (min 100 w), by omega, by omega, h⟩
  refine ⟨⟨max 0 (min 100 v), by omega, by omega, by omega, by omega, by omega,
    SetVolume_eq c t v⟩, ?_, ?_⟩
  · intro ev hev
    unfold VolumeUp at hev
    cases hs : c.getState t with
    | error err =>
      rw [hs] at hev
      simp only [List.drop_left, List.mem_singleton] at hev
      exact Or.inl hev
    | ok state =>
      rw [hs] at hev
      exact hset t _ ev hev
  · intro ev hev
    unfold VolumeDown at hev
    cases hs : c.getState t with
    | error err =>
      rw [hs] at hev
      simp only [List.drop_left, List.mem_singleton] at hev
      exact Or.inl hev
    | ok state =>
      rw [hs] at hev
      exact hset t _ ev hev

/-- C21 at concrete levels: `SetVolume(50)` sends `cmd=volume`, `volume=50`;
150 is sent as 100 and -3 as 0; with the volume at 40 a step of 70 up is sent as
100. -/
theorem SetVolume_clamped_witness :
    (SetVolume (samplePlayer sampleAlbums false none) [] 50).2 =
      [.command [("cmd", "volume"), ("volume", "50")]] ∧
    (SetVolume (samplePlayer sampleAlbums false none) [] 150).2 =
      [.command [("cmd", "volume"), ("volume", "100")]] ∧
    (SetVolume (samplePlayer sampleAlbums false none) [] (-3)).2 =
      [.command [("cmd", "volume"), ("volume", "0")]] ∧
    (VolumeUp (samplePlayer sampleAlbums false none) [] 70).2 =
      [.getState, .command [("cmd", "volume"), ("volume", "100")]] ∧
    ∃ level : Int, 0 ≤ level ∧ level ≤ 100 ∧
      ((50 : Int) < 0 → level = 0) ∧ ((50 : Int) > 100 → level = 100) ∧
      ((0 : Int) ≤ 50 → (50 : Int) ≤ 100 → level = 50) ∧
      SetVolume (samplePlayer sampleAlbums false none) [] 50 =
        ((samplePlayer sampleAlbums false none).command []
            [("cmd", "volume"), ("volume", toString level)],
          [] ++ [.command [("cmd", "volume"), ("volume", toString level)]]) :=
  ⟨by decide, by decide, by decide, by decide,
    (SetVolume_clamped (samplePlayer sampleAlbums false none) [] 50).1⟩

end Volu

namespace Volu

/-! ## waybar: `EscapeMarkup` -/

/-- One pass of `strings.ReplaceAll` substitutes character by character. -/
theorem replaceAllLoop_eq (old : Char) (new : String) :
    ∀ l : List Char, replaceAllLoop old new.toList l = l.flatMap (escapePass old new)
  | [] => rfl
  | ch :: rest => by
    by_cases h : ch = old
    · rw [replaceAllLoop, if_pos h, replaceAllLoop_eq old new rest, List.flatMap_cons,
        escapePass, if_pos h]
    · rw [replaceAllLoop, if_neg h, replaceAllLoop_eq old new rest, List.flatMap_cons,
        escapePass, if_neg h]
      rfl

/-- The characters of a string built from a list. -/
theorem toList_mk (l : List Char) : (String.mk l).toList = l := rfl

/-- The five passes on one character give the substitution of that character:
an ampersand written by the first pass is not touched by the later ones. -/
theorem escape_passes_char (ch : Char) :
    (escapePass '&' "&amp;" ch).flatMap (fun x1 =>
      (escapePass '<' "&lt;" x1).flatMap (fun x2 =>
        (escapePass '>' "&gt;" x2).flatMap (fun x3 =>
          (escapePass (Char.ofNat 39) "&apos;" x3).flatMap
            (escapePass (Char.ofNat 34) "&quot;")))) =
      (escapeChar ch).toList := by
  by_cases h1 : ch = '&'
  · subst h1
    decide
  · by_cases h2 : ch = '<'
    · subst h2
      decide
    · by_cases h3 : ch = '>'
      · subst h3
        decide
      · by_cases h4 : ch = Char.ofNat 39
        · subst h4
          decide
        · by_cases h5 : ch = Char.ofNat 34
          · subst h5
            decide
          · simp only [escapePass, escapeChar, if_neg h1, if_neg h2, if_neg h3, if_neg h4,
              if_neg h5, List.flatMap_cons, List.flatMap_nil, List.append_nil]
            rfl

/-- The function `EscapeMarkup` as one substitution pass. -/
theorem EscapeMarkup_eq (s : String) : EscapeMarkup s = escapeMarkupSpec s := by
  unfold EscapeMarkup escapeMarkupSpec ReplaceAll
  simp only [replaceAllLoop_eq, toList_mk]
  rw [List.flatMap_assoc, List.flatMap_assoc, List.flatMap_assoc, List.flatMap_assoc]
  congr 1
  congr 1
  funext ch
  exact escape_passes_char ch

/-- C22. For every string `s`, `EscapeMarkup(s)` is the character-by-character
substitution of `s` in which `&` becomes `&amp;`, `<` becomes `&lt;`, `>` becomes
`&gt;`, the apostrophe becomes `&apos;`, the double quote becomes `&quot;` and
every other character is kept: the five passes never escape again an ampersand
written by an earlier pass; and a string with none of the five characters is
returned unchanged. -/
theorem EscapeMarkup_refines (s : String) :
    EscapeMarkup s = escapeMarkupSpec s ∧
    (escapeChar '&' = "&amp;" ∧ escapeChar '<' = "&lt;" ∧ escapeChar '>' = "&gt;" ∧
      escapeChar (Char.ofNat 39) = "&apos;" ∧ escapeChar (Char.ofNat 34) = "&quot;") ∧
    (∀ ch, ch ≠ '&' → ch ≠ '<' → ch ≠ '>' → ch ≠ Char.ofNat 39 → ch ≠ Char.ofNat 34 →
      escapeChar ch = String.singleton ch) ∧
    ((∀ ch ∈ s.toList, ch ≠ '&' ∧ ch ≠ '<' ∧ ch ≠ '>' ∧ ch ≠ Char.ofNat 39 ∧
      ch ≠ Char.ofNat 34) → EscapeMarkup s = s) := by
  refine ⟨EscapeMarkup_eq s, ⟨by decide, by decide, by decide, by decide, by decide⟩,
    fun ch h1 h2 h3 h4 h5 => by simp only [escapeChar, if_neg h1, if_neg h2, if_neg h3,
      if_neg h4, if_neg h5], fun hall => ?_⟩
  rw [EscapeMarkup_eq]
  unfold escapeMarkupSpec
  have hid : ∀ l : List Char, (∀ ch ∈ l, ch ≠ '&' ∧ ch ≠ '<' ∧ ch ≠ '>' ∧ ch ≠ Char.ofNat 39 ∧
      ch ≠ Char.ofNat 34) → l.flatMap (fun ch => (escapeChar ch).toList) = l := by
    intro l
    induction l with
    | nil => intro _; rfl
    | cons a rest ih =>
      intro h
      obtain ⟨h1, h2, h3, h4, h5⟩ := h a (List.mem_cons_self a rest)
      rw [List.flatMap_cons, ih (fun ch hch => h ch (List.mem_cons_of_mem a hch))]
      simp only [escapeChar, if_neg h1, if_neg h2, if_neg h3, if_neg h4, if_neg h5]
      rfl
  rw [hid s.toList hall]
  rfl

/-- C22 on the cases of the test `TestEscapeMarkup`. -/
theorem EscapeMarkup_refines_witness :
    EscapeMarkup "Prophet & Janga" = "Prophet &amp; Janga" ∧
    EscapeMarkup "Volume < 50" = "Volume &lt; 50" ∧
    EscapeMarkup "Volume > 50" = "Volume &gt; 50" ∧
    EscapeMarkup "Song \"Title\"" = "Song &quot;Title&quot;" ∧
    EscapeMarkup (String.mk ['D', 'o', 'n', Char.ofNat 39, 't']) = "Don&apos;t" ∧
    EscapeMarkup "Artist & \"Band\" <Live>" = "Artist &amp; &quot;Band&quot; &lt;Live&gt;" ∧
    EscapeMarkup "Normal Text" = "Normal Text" ∧
    EscapeMarkup "&amp;" = "&amp;amp;" ∧
    EscapeMarkup "Prophet & Janga" = escapeMarkupSpec "Prophet & Janga" :=
  ⟨by decide, by decide, by decide, by decide, by decide, by decide, by decide, by decide,
    (EscapeMarkup_refines "Prophet & Janga").1⟩

end Volu

namespace Volu

/-! ## waybar: `CreateOutput` -/

/-- An append guarded by a condition is the append of a guarded line. -/
theorem ite_append_str (c : Prop) [Decidable c] (a x : String) :
    (if c then a ++ x else a) = a ++ (if c then x else "") := by
  split
  · rfl
  · rw [String.append_empty]

theorem append_ne_empty_left (a b : String) (ha : a ≠ "") : a ++ b ≠ "" := by
  intro h
  have hd := congrArg String.data h
  rw [String.data_append] at hd
  exact ha (String.ext (List.append_eq_nil.mp hd).1)

theorem append_ne_empty_right (a b : String) (hb : b ≠ "") : a ++ b ≠ "" := by
  intro h
  have hd := congrArg String.data h
  rw [String.data_append] at hd
  exact hb (String.ext (List.append_eq_nil.mp hd).2)

/-- The removal of the trailing newline only looks at the end of the string. -/
theorem trimNewline_append (h t : String) (ht : t ≠ "") :
    trimNewline (h ++ t) = h ++ trimNewline t := by
  have hd : t.data ≠ [] := fun e => ht (String.ext e)
  have hl : 0 < t.data.length := List.length_pos.mpr hd
  unfold trimNewline
  simp only [String.toList, String.data_append, List.length_append,
    List.getLast?_append_of_ne_nil _ hd, List.dropLast_append_of_ne_nil _ hd]
  by_cases hlast : t.data.getLast? = some (Char.ofNat 10)
  · rw [if_pos ⟨by omega, hlast⟩, if_pos ⟨by omega, hlast⟩]
    apply String.ext
    simp [String.data_append]
  · rw [if_neg (fun h => hlast h.2), if_neg (fun h => hlast h.2)]

/-- The end of `CreateOutput` on a tooltip that starts with a title line and
holds a volume line: the lines before the volume line are kept as they are. -/
theorem tooltip_shape (titleLine artist album service time volume modes : String)
    (hT : titleLine ≠ "") (hV : volume ≠ "") :
    (if trimNewline ((((((titleLine ++ artist) ++ album) ++ service) ++ time) ++ volume) ++ modes)
        = "" then "No track playing"
      else trimNewline
        ((((((titleLine ++ artist) ++ album) ++ service) ++ time) ++ volume) ++ modes)) =
      titleLine ++ (artist ++ (album ++ (service ++ (time ++ trimNewline (volume ++ modes))))) := by
  have h1 : volume ++ modes ≠ "" := append_ne_empty_left _ _ hV
  have h2 : time ++ (volume ++ modes) ≠ "" := append_ne_empty_right _ _ h1
  have h3 : service ++ (time ++ (volume ++ modes)) ≠ "" := append_ne_empty_right _ _ h2
  have h4 : album ++ (service ++ (time ++ (volume ++ modes))) ≠ "" :=
    append_ne_empty_right _ _ h3
  have h5 : artist ++ (album ++ (service ++ (time ++ (volume ++ modes)))) ≠ "" :=
    append_ne_empty_right _ _ h4
  simp only [String.append_assoc]
  rw [trimNewline_append _ _ h5, trimNewline_append _ _ h4, trimNewline_append _ _ h3,
    trimNewline_append _ _ h2, trimNewline_append _ _ h1]
  rw [if_neg (append_ne_empty_left _ _ hT)]

/-- The tooltip of a state with a title: the title line, the artist and album
lines when there are an artist and an album, then the rest. -/
theorem CreateOutput_tooltip (state : PlayerState) (baseURL : String)
    (hT : state.Title ≠ "") :
    ∃ rest, (CreateOutput state baseURL).Tooltip =
      ("Title: " ++ EscapeMarkup state.Title ++ "\n") ++
        ((if state.Artist ≠ "" then "Artist: " ++ EscapeMarkup state.Artist ++ "\n" else "") ++
          ((if state.Album ≠ "" then "Album: " ++ EscapeMarkup state.Album ++ "\n" else "") ++
            rest)) := by
  unfold CreateOutput
  simp only [ite_append_str, if_pos hT, String.empty_append]
  exact ⟨_, tooltip_shape _ _ _ _ _ _ _
    (append_ne_empty_right _ _ (by decide)) (append_ne_empty_right _ _ (by decide))⟩

/-- C23. For every player state with a non-empty title, the text of
`CreateOutput` is `♫ ` + `EscapeMarkup(A)` + ` - ` + `EscapeMarkup(Title)` + a
blank + `GetStatusIcon(Status)`, where `A` is the artist, or `Unknown Artist`
when the artist is empty; and its tooltip starts with the line `Title: ` +
`EscapeMarkup(Title)` and contains the line `Artist: ` + `EscapeMarkup(Artist)`
when the artist is not empty and the line `Album: ` + `EscapeMarkup(Album)` when
the album is not empty, each followed by a newline. -/
theorem CreateOutput_text_tooltip (state : PlayerState) (baseURL : String)
    (hT : state.Title ≠ "") :
    (CreateOutput state baseURL).Text =
      "♫ " ++ EscapeMarkup (if state.Artist = "" then "Unknown Artist" else state.Artist) ++
        " - " ++ EscapeMarkup state.Title ++ " " ++ GetStatusIcon state.Status ∧
    (∃ post, (CreateOutput state baseURL).Tooltip =
      "Title: " ++ EscapeMarkup state.Title ++ "\n" ++ post) ∧
    (state.Artist ≠ "" → ∃ pre post, (CreateOutput state baseURL).Tooltip =
      pre ++ ("Artist: " ++ EscapeMarkup state.Artist ++ "\n") ++ post) ∧
    (state.Album ≠ "" → ∃ pre post, (CreateOutput state baseURL).Tooltip =
      pre ++ ("Album: " ++ EscapeMarkup state.Album ++ "\n") ++ post) := by
  obtain ⟨rest, hrest⟩ := CreateOutput_tooltip state baseURL hT
  refine ⟨?_, ⟨_, hrest⟩, fun hA => ?_, fun hB => ?_⟩
  · unfold CreateOutput
    simp only [if_pos hT]
  · rw [if_pos hA] at hrest
    refine ⟨"Title: " ++ EscapeMarkup state.Title ++ "\n",
      (if state.Album ≠ "" then "Album: " ++ EscapeMarkup state.Album ++ "\n" else "") ++ rest,
      ?_⟩
    rw [hrest]
    simp only [String.append_assoc]
  · rw [if_pos hB] at hrest
    refine ⟨("Title: " ++ EscapeMarkup state.Title ++ "\n") ++
      (if state.Artist ≠ "" then "Artist: " ++ EscapeMarkup state.Artist ++ "\n" else ""),
      rest, ?_⟩
    rw [hrest]
    simp only [String.append_assoc]

set_option maxRecDepth 8000 in
/-- C23 on the state of the test `TestCreateOutput_EscapesMarkup`. -/
theorem CreateOutput_text_tooltip_witness :
    (CreateOutput testState "http://volumio.local:3000").Text =
      "♫ Balkan Fanatik, Prophet &amp; Janga - Ha Te Tudnád... / Love Gone Wrong (feat. Prophet &amp; Janga) ▶" ∧
    (CreateOutput testState "http://volumio.local:3000").Tooltip =
      "Title: Ha Te Tudnád... / Love Gone Wrong (feat. Prophet &amp; Janga)\nArtist: Balkan Fanatik, Prophet &amp; Janga\nAlbum: Test Album &lt;2024&gt;\nVolume: 🔇 0%" ∧
    (CreateOutput testState "http://volumio.local:3000").Text =
      "♫ " ++ EscapeMarkup (if testState.Artist = "" then "Unknown Artist" else testState.Artist)
        ++ " - " ++ EscapeMarkup testState.Title ++ " " ++ GetStatusIcon testState.Status ∧
    (∃ post, (CreateOutput testState "http://volumio.local:3000").Tooltip =
      "Title: " ++ EscapeMarkup testState.Title ++ "\n" ++ post) ∧
    (testState.Artist ≠ "" → ∃ pre post,
      (CreateOutput testState "http://volumio.local:3000").Tooltip =
        pre ++ ("Artist: " ++ EscapeMarkup testState.Artist ++ "\n") ++ post) ∧
    (testState.Album ≠ "" → ∃ pre post,
      (CreateOutput testState "http://volumio.local:3000").Tooltip =
        pre ++ ("Album: " ++ EscapeMarkup testState.Album ++ "\n") ++ post) :=
  ⟨by rfl, by rfl,
    CreateOutput_text_tooltip testState "http://volumio.local:3000" (by decide)⟩

end Volu

namespace Volu

/-! ## waybar: the service line -/

/-- C29 fails on the code. The tooltip line of the service is written without
`EscapeMarkup`, unlike those of the title, the artist and the album: for the
service `<b>&` the tooltip holds a raw `<`, a raw `>` and an ampersand that
starts no entity. -/
theorem CreateOutput_service_not_escaped :
    (CreateOutput { sampleState false with Title := "A<", Service := "<b>&" } "").Tooltip =
      "Title: A&lt;\nService: <b>&\nVolume: 🔉 40%" ∧
    '<' ∈ (CreateOutput { sampleState false with Title := "A<", Service := "<b>&" }
      "").Tooltip.toList ∧
    '>' ∈ (CreateOutput { sampleState false with Title := "A<", Service := "<b>&" }
      "").Tooltip.toList ∧
    EscapeMarkup "<b>&" = "&lt;b&gt;&amp;" := by
  refine ⟨by decide, by decide, by decide, by decide⟩

/-! ## The host of the client -/

/-- C24 fails on the code. With no `--host` flag and no configuration file,
`config.Load` returns the default configuration, whose host is `volumio.local`,
and `PersistentPreRun` takes that host: the variable `VOLUMIO_HOST`, here
`192.168.1.50`, is not consulted. It holds whatever the variable is. -/
theorem PersistentPreRun_ignores_env :
    bareMachine.getenv "VOLUMIO_HOST" = "192.168.1.50" ∧
    (PersistentPreRun bareMachine "").2 = "volumio.local" ∧
    (∀ m : Machine, (m.readFile "/home/user/.config/volu/config.yaml" = .notExist) →
      m.userConfigDir = .ok "/home/user/.config" → (PersistentPreRun m "").2 = "volumio.local") := by
  refine ⟨by decide, by decide, fun m hread hdir => ?_⟩
  have hload : Load m = .ok DefaultConfig := by
    have hp : GetConfigPath m = .ok "/home/user/.config/volu/config.yaml" := by
      unfold GetConfigPath
      rw [hdir]
      rfl
    unfold Load
    simp only [hp, hread]
  unfold PersistentPreRun
  simp only [hload]
  rfl

end Volu

namespace Volu

/-! ## The sampler: no access out of range, and the two branches -/

/-- The shuffle of the candidates is the image of the shuffle of their indices. -/
theorem shuffle_eq_map {α : Type} (zero : α) (albums : List α) (r r1 : Rng) (idx : List Nat)
    (h : fisherYates (albums.length - 1) (List.range albums.length) r = some (idx, r1)) :
    shuffle albums r = some (idx.map (fun p => albums.getD p zero), r1) := by
  unfold shuffle
  conv => lhs; rw [← map_range_getD zero albums]
  rw [fisherYates_map]
  simp [h]

/-- C25. For every candidate list, every count of at least 1 and every state of
the random generator, `randomSelect` makes no access out of range. From any
index slice that is a permutation of `0, ..., len - 1`, a step of the loop at an
index `i` within the slice calls `rand.Intn` with the positive bound `i + 1`,
gets a `j` with `j ≤ i`, swaps without panic and leaves a permutation of
`0, ..., len - 1`; the whole shuffle of the index slice ends, with a permutation
`idx`; every read `albums[idx[i]]` for `i < count` within the slice is in range;
and `randomSelect` returns. -/
theorem randomSelect_in_range (albums : List BrowseItem) (count : Int) (r : Rng)
    (hcount : 1 ≤ count) :
    (∀ (i : Nat) (s : List Nat) (q : Rng), s.Perm (List.range albums.length) →
      i + 1 < albums.length →
      ∃ j s1, q.Intn (i + 1 + 1) = some (j, q.tail) ∧ j ≤ i + 1 ∧
        swapAt s (i + 1) j = some s1 ∧ s1.Perm (List.range albums.length)) ∧
    (∃ idx q, fisherYates (albums.length - 1) (List.range albums.length) r = some (idx, q) ∧
      idx.Perm (List.range albums.length) ∧
      ∀ i : Nat, (i : Int) < count → i < albums.length →
        ∃ k a, idx[i]? = some k ∧ k < albums.length ∧ albums[k]? = some a) ∧
    (∃ out, randomSelect albums count r = some out) := by
  refine ⟨fun i s q hs hi => ?_, ?_, ?_⟩
  · have hlen : s.length = albums.length := by simpa using hs.length_eq
    have hj : q 0 % (i + 1 + 1) < i + 1 + 1 := Nat.mod_lt _ (by omega)
    have hsw := swapAt_of_lt s (i := i + 1) (j := q 0 % (i + 1 + 1)) (by omega) (by omega)
    exact ⟨q 0 % (i + 1 + 1), _, Intn_pos q (i + 1), by omega, hsw, (swapAt_perm hsw).trans hs⟩
  · obtain ⟨idx, q, hidx, hperm, _⟩ :=
      randomSelectOf_eq BrowseItem.zero albums count r (by omega)
    have hlen : idx.length = albums.length := by simpa using hperm.length_eq
    refine ⟨idx, q, hidx, hperm, fun i _ hi => ?_⟩
    have hi1 : i < idx.length := by omega
    have hk : idx[i] < albums.length := by
      simpa using hperm.mem_iff.mp (List.getElem_mem hi1)
    exact ⟨idx[i], albums[idx[i]], List.getElem?_eq_getElem hi1, hk,
      List.getElem?_eq_getElem hk⟩
  · obtain ⟨idx, q, _, _, hsel⟩ := randomSelectOf_eq BrowseItem.zero albums count r (by omega)
    exact ⟨_, hsel⟩

/-- C25 on the running example, two of three candidates asked for. -/
theorem randomSelect_in_range_witness :
    (∀ (i : Nat) (s : List Nat) (q : Rng), s.Perm (List.range sampleAlbums.length) →
      i + 1 < sampleAlbums.length →
      ∃ j s1, q.Intn (i + 1 + 1) = some (j, q.tail) ∧ j ≤ i + 1 ∧
        swapAt s (i + 1) j = some s1 ∧ s1.Perm (List.range sampleAlbums.length)) ∧
    (∃ idx q, fisherYates (sampleAlbums.length - 1) (List.range sampleAlbums.length)
        (fun k => 7 * k + 3) = some (idx, q) ∧
      idx.Perm (List.range sampleAlbums.length) ∧
      ∀ i : Nat, (i : Int) < 2 → i < sampleAlbums.length →
        ∃ k a, idx[i]? = some k ∧ k < sampleAlbums.length ∧ sampleAlbums[k]? = some a) ∧
    (∃ out, randomSelect sampleAlbums 2 (fun k => 7 * k + 3) = some out) :=
  randomSelect_in_range sampleAlbums 2 (fun k => 7 * k + 3) (by decide)

/-- C26. The two branches of the sampler agree. For every candidate list, every
count with `1 ≤ count < len(candidates)` and every state of the random
generator, the branch of `randomSelect` that shuffles an index slice and maps
the first `count` indices back returns exactly the first `count` elements of
what `shuffle` returns on the same list with the same generator; so for every
count of at least 1, `randomSelect(albums, count)` is the first
`min(count, len)` elements of `shuffle(albums)`. -/
theorem randomSelect_eq_take_shuffle (albums : List BrowseItem) (count : Int) (r : Rng)
    (hcount : 1 ≤ count) :
    randomSelect albums count r =
      (shuffle albums r).map (fun p => p.1.take (min count.toNat albums.length)) ∧
    (count < albums.length →
      (match fisherYates ((List.range albums.length).length - 1) (List.range albums.length) r with
        | none => none
        | some (indices1, _) =>
          if count < 0 then none
          else selectLoop albums indices1 count.toNat 0
            (List.replicate count.toNat BrowseItem.zero)) =
        (shuffle albums r).map (fun p => p.1.take count.toNat)) := by
  obtain ⟨idx, q, hidx, hperm, hsel⟩ :=
    randomSelectOf_eq BrowseItem.zero albums count r (by omega)
  have hlen : idx.length = albums.length := by simpa using hperm.length_eq
  have hsh := shuffle_eq_map BrowseItem.zero albums r q idx hidx
  constructor
  · show randomSelectOf BrowseItem.zero albums count r = _
    rw [hsel, hsh]
    simp only [Option.map_some', List.map_take]
    congr 1
    by_cases h : count.toNat ≤ albums.length
    · rw [Nat.min_eq_left h]
    · rw [Nat.min_eq_right (by omega), List.take_of_length_le (by simp; omega),
        List.take_of_length_le (by simp; omega)]
  · intro hlt
    have hpart := hsel
    unfold randomSelectOf at hpart
    rw [if_neg (by omega)] at hpart
    simp only at hpart
    rw [hpart, hsh]
    simp only [Option.map_some', List.map_take]

/-- C26 on the running example, two of three candidates asked for. -/
theorem randomSelect_eq_take_shuffle_witness :
    randomSelect sampleAlbums 2 (fun k => 7 * k + 3) =
      (shuffle sampleAlbums (fun k => 7 * k + 3)).map
        (fun p => p.1.take (min (2 : Int).toNat sampleAlbums.length)) ∧
    ((2 : Int) < sampleAlbums.length →
      (match fisherYates ((List.range sampleAlbums.length).length - 1)
          (List.range sampleAlbums.length) (fun k => 7 * k + 3) with
        | none => none
        | some (indices1, _) =>
          if (2 : Int) < 0 then none
          else selectLoop sampleAlbums indices1 (2 : Int).toNat 0
            (List.replicate (2 : Int).toNat BrowseItem.zero)) =
        (shuffle sampleAlbums (fun k => 7 * k + 3)).map (fun p => p.1.take (2 : Int).toNat)) :=
  randomSelect_eq_take_shuffle sampleAlbums 2 (fun k => 7 * k + 3) (by decide)

end Volu

namespace Volu

/-! ## walker: the actions of the menus -/

/-- C27 fails on the code. The main menu, for any player state, holds the action
`browse:` (Browse Music Library), and the browse menu of a place other than the
root holds the action `nav:back`; passed back to the walker command, each ends
with the error `unknown action`: `browse:` has 7 characters and the dispatcher
asks for more than 7, and no case handles `nav:`. -/
theorem walker_menu_action_unknown :
    (∀ state, "browse:" ∈ (CreateMainMenu state).map Item.Action) ∧
    (∀ (c : Client) (t : List Event),
      (walkerCmd c t ["browse:"]).1 =
        (.returned (some (.plain "unknown action: browse:")), t ++ [.getState])) ∧
    "nav:back" ∈ (CreateBrowseMenu sampleAlbums "albums").map Item.Action ∧
    (∀ (c : Client) (t : List Event),
      (walkerCmd c t ["nav:back"]).1 =
        (.returned (some (.plain "unknown action: nav:back")), t ++ [.getState])) ∧
    (walkerCmd (samplePlayer sampleAlbums true none) [] ["browse:albums"]).1 =
      (.returned none, [.getState, .browse "albums"]) := by
  refine ⟨fun state => ?_, fun c t => by rfl, by decide, fun c t => by rfl, by decide⟩
  cases state with
  | none => decide
  | some state =>
    unfold CreateMainMenu
    simp [CreateItem]

end Volu

namespace Volu

/-! ## walker: the play action -/

/-- The loop of `CreateBrowseMenu` appends the walker item of each browse item. -/
theorem browseMenuLoop_eq :
    ∀ (items : List BrowseItem) (acc : List Item),
      browseMenuLoop items acc = acc ++ items.map browseMenuItem
  | [], acc => by simp [browseMenuLoop]
  | item :: rest, acc => by
    rw [browseMenuLoop, browseMenuLoop_eq rest]
    simp

/-- The first `|` of a text that has none before a certain place is there. -/
theorem findBar_append :
    ∀ (u s : List Char) (i : Nat), '|' ∉ u → findBar (u ++ '|' :: s) i = some (i + u.length)
  | [], s, i, _ => by simp [findBar]
  | ch :: u, s, i, h => by
    have hch : ch ≠ '|' := fun e => h (by rw [e]; exact List.mem_cons_self _ _)
    have hu : '|' ∉ u := fun e => h (List.mem_cons_of_mem _ e)
    rw [List.cons_append, findBar, if_neg hch, findBar_append u s (i + 1) hu]
    simp only [List.length_cons]
    congr 1
    omega

/-- The characters of a play action. -/
theorem play_action_data (uri service : String) :
    ("play:" ++ uri ++ "|" ++ service).toList =
      'p' :: 'l' :: 'a' :: 'y' :: ':' :: (uri.toList ++ '|' :: service.toList) := by
  simp only [String.toList, String.data_append]
  simp

/-- What the walker command does with a play action whose address holds no
`|`. -/
theorem walkerCmd_play (c : Client) (t : List Event) (uri service : String)
    (hbar : '|' ∉ uri.toList) :
    walkerCmd c t ["play:" ++ uri ++ "|" ++ service] =
      ((.returned (c.replaceAndPlay (t ++ [.getState]) uri service),
        t ++ [.getState] ++ [.replaceAndPlay uri service]), []) := by
  have hdata := play_action_data uri service
  have h1 : ¬ (len ("play:" ++ uri ++ "|" ++ service) > 7 ∧
      sliceTo ("play:" ++ uri ++ "|" ++ service) 7 = "action:") := by
    rintro ⟨_, h⟩
    have hd := congrArg String.toList h
    rw [sliceTo, toList_mk, hdata] at hd
    have hh := congrArg List.head? hd
    simp at hh
  have h2 : ¬ (len ("play:" ++ uri ++ "|" ++ service) > 7 ∧
      sliceTo ("play:" ++ uri ++ "|" ++ service) 7 = "browse:") := by
    rintro ⟨_, h⟩
    have hd := congrArg String.toList h
    rw [sliceTo, toList_mk, hdata] at hd
    have hh := congrArg List.head? hd
    simp at hh
  have h3 : len ("play:" ++ uri ++ "|" ++ service) > 5 ∧
      sliceTo ("play:" ++ uri ++ "|" ++ service) 5 = "play:" := by
    constructor
    · rw [len, hdata]
      simp only [List.length_cons, List.length_append]
      omega
    · rw [sliceTo, hdata]
      rfl
  have h4 : sliceFrom ("play:" ++ uri ++ "|" ++ service) 5 =
      String.mk (uri.toList ++ '|' :: service.toList) := by
    rw [sliceFrom, hdata]
    rfl
  have h5 : findBar (uri.toList ++ '|' :: service.toList) 0 = some uri.toList.length := by
    rw [findBar_append _ _ 0 hbar, Nat.zero_add]
  have h6 : sliceTo (String.mk (uri.toList ++ '|' :: service.toList)) uri.toList.length = uri := by
    show String.mk (List.take uri.toList.length (uri.toList ++ '|' :: service.toList)) = uri
    rw [List.take_left' rfl]
    rfl
  have h7 : sliceFrom (String.mk (uri.toList ++ '|' :: service.toList))
      (uri.toList.length + 1) = service := by
    have hdrop : List.drop (uri.toList.length + 1) (uri.toList ++ '|' :: service.toList) =
        service.toList := by
      rw [List.drop_append_eq_append_drop]
      simp
    show String.mk (List.drop (uri.toList.length + 1) (uri.toList ++ '|' :: service.toList)) =
      service
    rw [hdrop]
    rfl
  unfold walkerCmd
  simp only [List.length_singleton, Nat.succ_ne_zero, if_false, List.getElem?_cons_zero,
    if_neg h1, if_neg h2, if_pos h3, h4, toList_mk, h5, h6, h7]

end Volu

namespace Volu

/-- C28, as the code has it. Play-action round trip: for every browse item that
is playable and not browsable, with any service and any address that holds no
`|`, the action `CreateBrowseMenu` emits for it is `play:<uri>|<service>`, and
feeding this action back to the walker command makes it read the state and then
call `ReplaceAndPlay` with exactly the address and the service of the item,
whose answer it returns. -/
theorem walker_play_round_trip (c : Client) (t : List Event) (item : BrowseItem)
    (items : List BrowseItem) (uri : String)
    (hplay : item.IsPlayable = true) (hbrowse : item.IsBrowsable = false)
    (hbar : '|' ∉ item.URI.toList) (hmem : item ∈ items) :
    (browseMenuItem item).Action = "play:" ++ item.URI ++ "|" ++ item.Service ∧
    browseMenuItem item ∈ CreateBrowseMenu items uri ∧
    walkerCmd c t [(browseMenuItem item).Action] =
      ((.returned (c.replaceAndPlay (t ++ [.getState]) item.URI item.Service),
        t ++ [.getState] ++ [.replaceAndPlay item.URI item.Service]), []) := by
  have hact : (browseMenuItem item).Action = "play:" ++ item.URI ++ "|" ++ item.Service := by
    unfold browseMenuItem CreateItem
    simp only [hbrowse, hplay, Bool.false_eq_true, if_false, if_true]
  refine ⟨hact, ?_, ?_⟩
  · have hlen : items.length ≠ 0 := fun h => by
      rw [List.length_eq_zero.mp h] at hmem
      exact absurd hmem (List.not_mem_nil _)
    unfold CreateBrowseMenu
    simp only [if_neg hlen, browseMenuLoop_eq]
    exact List.mem_append_right _ (List.mem_map_of_mem _ hmem)
  · rw [hact]
    exact walkerCmd_play c t item.URI item.Service hbar

/-- C28 as amended, on a track of the local library. -/
theorem walker_play_round_trip_witness :
    (browseMenuItem sampleTrack).Action = "play:" ++ sampleTrack.URI ++ "|" ++ sampleTrack.Service ∧
    browseMenuItem sampleTrack ∈ CreateBrowseMenu [album "ASOT 900", sampleTrack] "albums" ∧
    walkerCmd (samplePlayer sampleAlbums true none) [] [(browseMenuItem sampleTrack).Action] =
      ((.returned ((samplePlayer sampleAlbums true none).replaceAndPlay ([] ++ [.getState])
          sampleTrack.URI sampleTrack.Service),
        [] ++ [.getState] ++ [.replaceAndPlay sampleTrack.URI sampleTrack.Service]), []) :=
  walker_play_round_trip (samplePlayer sampleAlbums true none) [] sampleTrack
    [album "ASOT 900", sampleTrack] "albums" (by decide) (by decide) (by decide) (by decide)

/-- C28 as stated fails. A track with the address `a|b` and the service `mpd` is
playable and not browsable; the action emitted for it is `play:a|b|mpd`, and the
walker command cuts it at the first `|`: it calls `ReplaceAndPlay` with the
address `a` and the service `b|mpd`, not with those of the item. -/
theorem walker_play_bar_in_uri :
    barTrack.IsPlayable = true ∧ barTrack.IsBrowsable = false ∧
    barTrack.URI = "a|b" ∧ barTrack.Service = "mpd" ∧
    (CreateBrowseMenu [barTrack] "").map Item.Action = ["play:a|b|mpd"] ∧
    (walkerCmd (samplePlayer sampleAlbums true none) [] ["play:a|b|mpd"]).1 =
      (.returned none, [.getState, .replaceAndPlay "a" "b|mpd"]) ∧
    Event.replaceAndPlay "a|b" "mpd" ∉
      (walkerCmd (samplePlayer sampleAlbums true none) [] ["play:a|b|mpd"]).1.2 := by
  refine ⟨by decide, by decide, by decide, by decide, by decide, by decide, by decide⟩

end Volu
